import Mathlib

/-!
# Linux target platform: device registry and format negotiation

A shallow embedding of `TLinuxTargetPlatform` (LinuxTargetPlatform.h), built with
`WITH_ENGINE` on.  Engine types that the header only uses (`FString`, `FName`,
`TArray`, `TMap`, `GConfig`, `FLinuxTargetDevice`) are modelled by strings, lists,
association lists and small records.  Array indices and the device counters
(`int` in the source) are natural numbers; they stay far below `2^31`.
-/

namespace LinuxTargetPlatform

/-! ## Strings and names -/

/-- An engine string. -/
abbrev FString := String

/-- An interned name; `FName(*S)` and `ToString()` are the identity here. -/
abbrev FName := String

/-- Modelled from the spec: `FString::StartsWith` on character lists (the engine string class is
not part of the sources); the name begins with the given characters, compared exactly. -/
def StartsWithChars : List Char → List Char → Bool
  | _, [] => true
  | [], _ :: _ => false
  | c :: s, p :: ps => (c == p) && StartsWithChars s ps

/-- Modelled from the spec: `FString::Contains` on character lists; the given characters occur
as a contiguous run somewhere in the name, compared exactly. -/
def ContainsChars : List Char → List Char → Bool
  | [], sub => StartsWithChars [] sub
  | c :: s, sub => StartsWithChars (c :: s) sub || ContainsChars s sub

/-- The call `Name.StartsWith(Prefix)`. -/
def FString.StartsWith (Name Start : FString) : Bool :=
  StartsWithChars Name.data Start.data

/-- The call `Name.Contains(SubStr)`. -/
def FString.Contains (Name SubStr : FString) : Bool :=
  ContainsChars Name.data SubStr.data

/-- The call `S.IsEmpty()`. -/
def FString.IsEmpty (S : FString) : Bool :=
  S.data.isEmpty

/-! ## Texture format names (namespace `LinuxTextureFormats`, lines 31-36) -/

def NameETC2RGB : FName := "ETC2_RGB"

def NameETC2RGBA : FName := "ETC2_RGBA"

def NameBGRA8 : FName := "BGRA8"

/-! ## Build and host parameters -/

/-- The compile-time and host parameters the header reads: the `TProperties` template
argument, the `PLATFORM_LINUX` macro, `TSuper::PlatformName()` and
`FPlatformProcess::ComputerName()`.  `bCredentialsNotify` says whether
`FLinuxTargetDevice::SetUserCredentials` invokes the save callback the device was constructed
with (line 108); that method lives in LinuxTargetDevice, outside the sources, so both
behaviours are kept. -/
structure FEnvironment where
  PLATFORM_LINUX : Bool
  IsServerOnly : Bool
  IsAArch64 : Bool
  PlatformName : FString
  ComputerName : FString
  bCredentialsNotify : Bool
deriving DecidableEq, Repr

/-! ## Config store -/

/-- Modelled from the spec: the config store `GConfig`, restricted to the one section and file
the header uses: a mapping from key to value with typed get and set (string, bool,
string array). -/
structure FConfigCacheIni where
  Strings : List (FString × FString)
  Bools : List (FString × Bool)
  Arrays : List (FString × List FString)
deriving DecidableEq, Repr

/-- First value stored under a key. -/
def Lookup {β : Type} : List (FString × β) → FString → Option β
  | [], _ => none
  | (k, v) :: rest, key => if k = key then some v else Lookup rest key

/-- Replace the value stored under a key, or append the pair when the key is new. -/
def Store {β : Type} : List (FString × β) → FString → β → List (FString × β)
  | [], key, val => [(key, val)]
  | (k, v) :: rest, key, val =>
    if k = key then (k, val) :: rest else (k, v) :: Store rest key val

/-- The call `GConfig->GetString(Section, Key, Out, GEngineIni)`: `none` is the result `false`. -/
def GetString (cfg : FConfigCacheIni) (Key : FString) : Option FString :=
  Lookup cfg.Strings Key

/-- The call `GConfig->SetString(Section, Key, Value, GEngineIni)`. -/
def SetString (cfg : FConfigCacheIni) (Key Value : FString) : FConfigCacheIni :=
  { cfg with Strings := Store cfg.Strings Key Value }

/-- The call `GConfig->GetBool(Section, Key, Out, GEngineIni)`: `none` is the result `false`,
which leaves the output variable as it was. -/
def GetBool (cfg : FConfigCacheIni) (Key : FString) : Option Bool :=
  Lookup cfg.Bools Key

/-- The call `GConfig->GetArray(Section, Key, Out, GEngineIni)` on an empty output array. -/
def GetArray (cfg : FConfigCacheIni) (Key : FString) : List FString :=
  (Lookup cfg.Arrays Key).getD []

/-- Apply a sequence of `SetString` calls in order. -/
def ApplyWrites (cfg : FConfigCacheIni) (writes : List (FString × FString)) : FConfigCacheIni :=
  writes.foldl (fun c kv => SetString c kv.1 kv.2) cfg

/-! ## Devices -/

/-- Modelled from the spec: `FLinuxTargetDevice` (LinuxTargetDevice is not part of the sources):
a device has a name and optional user credentials, set together by `SetUserCredentials` and
read by `GetUserCredentials`. -/
structure FLinuxTargetDevice where
  DeviceName : FString
  Credentials : Option (FString × FString)
deriving DecidableEq, Repr

/-- A shared pointer to a device; `none` is the null pointer (`IsValid()` false). -/
abbrev FLinuxTargetDevicePtr := Option FLinuxTargetDevice

/-- The device map `TMap<FString, FLinuxTargetDevicePtr>`, in iteration order. -/
abbrev FDeviceMap := List (FString × FLinuxTargetDevicePtr)

/-- Position of the entry with the given key. -/
def IndexOfKey : FDeviceMap → FString → Option Nat
  | [], _ => none
  | (k, _) :: rest, key =>
    if k = key then some 0 else (IndexOfKey rest key).map Nat.succ

/-- The call `Devices.FindOrAdd(Key)`: the map afterwards and the slot the returned reference
points at.  A missing key gets a new slot holding a null pointer. -/
def FindOrAdd (m : FDeviceMap) (Key : FString) : FDeviceMap × Nat :=
  match IndexOfKey m Key with
  | some i => (m, i)
  | none => (m ++ [(Key, none)], m.length)

/-- Assignment through a reference to a slot of the map. -/
def AssignSlot : FDeviceMap → Nat → FLinuxTargetDevicePtr → FDeviceMap
  | [], _, _ => []
  | (k, _) :: rest, 0, p => (k, p) :: rest
  | e :: rest, i + 1, p => e :: AssignSlot rest i p

/-- The pointer held in a slot of the map. -/
def SlotValue (m : FDeviceMap) (i : Nat) : FLinuxTargetDevicePtr :=
  match m[i]? with
  | some (_, p) => p
  | none => none

/-- The platform object together with the two things outside it that its device operations
touch: the global config store and the subscribers of `DeviceDiscoveredEvent`, recorded as the
list of devices broadcast so far (each as it was when broadcast). -/
structure TLinuxTargetPlatform where
  bChangingDeviceConfig : Bool
  LocalDevice : FLinuxTargetDevicePtr
  Devices : FDeviceMap
  bRequiresEncodedHDRReflectionCaptures : Bool
  DeviceDiscoveredEvent : List FLinuxTargetDevice
  GConfig : FConfigCacheIni
deriving DecidableEq, Repr

/-! ## Persistence keys -/

/-- The key stem `FString::Printf("LinuxTargetPlatfrom_%s_Device_%d", PlatformName, N)`
(lines 526 and 574), for a non-negative index. -/
def DeviceBaseKey (env : FEnvironment) (N : Nat) : FString :=
  "LinuxTargetPlatfrom_" ++ env.PlatformName ++ "_Device_" ++ Nat.repr N

def DeviceNameKey (env : FEnvironment) (N : Nat) : FString :=
  DeviceBaseKey env N ++ "_Name"

def DeviceUserKey (env : FEnvironment) (N : Nat) : FString :=
  DeviceBaseKey env N ++ "_User"

def DevicePassKey (env : FEnvironment) (N : Nat) : FString :=
  DeviceBaseKey env N ++ "_Pass"

/-! ## SaveDevicesToConfig (lines 561-603) -/

/-- The `SetString` calls of one device that is written at index `N` (lines 586-596). -/
def DeviceWrites (env : FEnvironment) (N : Nat) (d : FLinuxTargetDevice) :
    List (FString × FString) :=
  (DeviceNameKey env N, d.DeviceName) ::
    (match d.Credentials with
     | some (DeviceUser, DevicePass) =>
       [(DeviceUserKey env N, DeviceUser), (DevicePassKey env N, DevicePass)]
     | none => [])

/-- The loop of `SaveDevicesToConfig` (lines 569-600) from a given `DeviceIndex`: the
`SetString` calls it makes, in order.  The loop never reads the store. -/
def SaveDevicesWrites (env : FEnvironment) : FDeviceMap → Nat → List (FString × FString)
  | [], _ => []
  | (_, none) :: rest, DeviceIndex => SaveDevicesWrites env rest DeviceIndex
  | (_, some d) :: rest, DeviceIndex =>
    if env.PLATFORM_LINUX = true ∧ d.DeviceName = env.ComputerName then
      SaveDevicesWrites env rest DeviceIndex
    else
      DeviceWrites env DeviceIndex d ++ SaveDevicesWrites env rest (DeviceIndex + 1)

/-- `SaveDevicesToConfig`: nothing when the guard flag is set; otherwise the flag is set, the
loop runs from index 0, and the flag is cleared. -/
def SaveDevicesToConfig (env : FEnvironment) (w : TLinuxTargetPlatform) : TLinuxTargetPlatform :=
  if w.bChangingDeviceConfig = true then w
  else
    { w with
      GConfig := ApplyWrites w.GConfig (SaveDevicesWrites env w.Devices 0)
      bChangingDeviceConfig := false }

/-! ## AddDevice (lines 91-121) -/

/-- The call `Device->SetUserCredentials(User, Pass)` on the device in slot `i` of the map:
the credentials are stored in the device, which then may invoke its save callback
`[&]() { SaveDevicesToConfig(); }`. -/
def SetUserCredentials (env : FEnvironment) (w : TLinuxTargetPlatform) (i : Nat)
    (Username Password : FString) : TLinuxTargetPlatform :=
  match SlotValue w.Devices i with
  | none => w
  | some d =>
    let w1 := { w with
      Devices := AssignSlot w.Devices i (some { d with Credentials := some (Username, Password) }) }
    if env.bCredentialsNotify = true then SaveDevicesToConfig env w1 else w1

/-- The call `DeviceDiscoveredEvent.Broadcast(Device.ToSharedRef())` for the device in slot
`i`. -/
def Broadcast (w : TLinuxTargetPlatform) (i : Nat) : TLinuxTargetPlatform :=
  match SlotValue w.Devices i with
  | none => w
  | some d => { w with DeviceDiscoveredEvent := w.DeviceDiscoveredEvent ++ [d] }

/-- The five-argument `AddDevice` (lines 96-121). -/
def AddDevice (env : FEnvironment) (w : TLinuxTargetPlatform)
    (DeviceName _DeviceUserFriendlyName Username Password : FString) (_bDefault : Bool) :
    Bool × TLinuxTargetPlatform :=
  let found := FindOrAdd w.Devices DeviceName
  let w0 := { w with Devices := found.1 }
  match SlotValue found.1 found.2 with
  | some _ => (false, w0)
  | none =>
    let w1 := { w0 with
      Devices := AssignSlot found.1 found.2 (some { DeviceName := DeviceName, Credentials := none }) }
    let w2 := SaveDevicesToConfig env w1
    let w3 :=
      if (!Username.IsEmpty || !Password.IsEmpty) = true then
        SetUserCredentials env w2 found.2 Username Password
      else w2
    (true, Broadcast w3 found.2)

/-- The two-argument `AddDevice` (lines 91-94). -/
def AddDevice2 (env : FEnvironment) (w : TLinuxTargetPlatform) (DeviceName : FString)
    (bDefault : Bool) : Bool × TLinuxTargetPlatform :=
  AddDevice env w DeviceName "" "" "" bDefault

/-! ## GetAllDevices (lines 124-137) -/

/-- `GetAllDevices`: the output array is reset, then receives the local device when valid and
the value of every map entry. -/
def GetAllDevices (w : TLinuxTargetPlatform) (_OutDevices : List FLinuxTargetDevicePtr) :
    List FLinuxTargetDevicePtr :=
  (match w.LocalDevice with
   | some d => [some d]
   | none => []) ++ w.Devices.map (fun e => e.2)

/-! ## InitDevicesFromConfig (lines 513-559) -/

/-- The loop of lines 546-553 over the slots of the map still to be visited. -/
def CredentialsLoop (env : FEnvironment) (DeviceName DeviceUser DevicePass : FString) :
    List Nat → TLinuxTargetPlatform → TLinuxTargetPlatform
  | [], w => w
  | i :: rest, w =>
    match SlotValue w.Devices i with
    | some d =>
      if d.DeviceName = DeviceName then
        CredentialsLoop env DeviceName DeviceUser DevicePass rest
          (SetUserCredentials env w i DeviceUser DevicePass)
      else CredentialsLoop env DeviceName DeviceUser DevicePass rest w
    | none => CredentialsLoop env DeviceName DeviceUser DevicePass rest w

/-- The unbounded scan `for (;; ++NumDevices)` (lines 522-556), run for at most `fuel`
iterations from index `NumDevices`; `none` means the fuel ran out before a `break`. -/
def InitDevicesLoop (env : FEnvironment) :
    Nat → Nat → TLinuxTargetPlatform → Option TLinuxTargetPlatform
  | 0, _, _ => none
  | fuel + 1, NumDevices, w =>
    match GetString w.GConfig (DeviceNameKey env NumDevices) with
    | none => some w
    | some DeviceName =>
      let added := AddDevice2 env w DeviceName false
      if added.1 = false then some added.2
      else
        let w1 := added.2
        let w2 :=
          match GetString w1.GConfig (DeviceUserKey env NumDevices) with
          | some DeviceUser =>
            match GetString w1.GConfig (DevicePassKey env NumDevices) with
            | some DevicePass =>
              CredentialsLoop env DeviceName DeviceUser DevicePass
                (List.range w1.Devices.length) w1
            | none => w1
          | none => w1
        InitDevicesLoop env fuel (NumDevices + 1) w2

/-- `InitDevicesFromConfig`: nothing when the guard flag is set; otherwise the flag is set, the
scan runs from index 0, and the flag is cleared. -/
def InitDevicesFromConfig (env : FEnvironment) (fuel : Nat) (w : TLinuxTargetPlatform) :
    Option TLinuxTargetPlatform :=
  if w.bChangingDeviceConfig = true then some w
  else
    (InitDevicesLoop env fuel 0 { w with bChangingDeviceConfig := true }).map
      (fun w1 => { w1 with bChangingDeviceConfig := false })

/-! ## Shader formats (lines 257-293) -/

/-- The call `Out.AddUnique(Item)`. -/
def AddUnique (Out : List FName) (Item : FName) : List FName :=
  if Item ∈ Out then Out else Out ++ [Item]

/-- `GetAllPossibleShaderFormats` (lines 257-268). -/
def GetAllPossibleShaderFormats (env : FEnvironment) (OutFormats : List FName) : List FName :=
  if env.IsServerOnly = false then
    AddUnique (AddUnique OutFormats "SF_VULKAN_SM5") "SF_VULKAN_ES31"
  else OutFormats

/-- The reverse index loop of lines 280-287: indices below `n` are still to be visited. -/
def TargetedFilterLoop (Possible : List FName) : Nat → List FString → List FString
  | 0, Targeted => Targeted
  | n + 1, Targeted =>
    match Targeted[n]? with
    | some ShaderFormat =>
      if (Possible.contains ShaderFormat) = false then
        TargetedFilterLoop Possible n (Targeted.eraseIdx n)
      else TargetedFilterLoop Possible n Targeted
    | none => TargetedFilterLoop Possible n Targeted

/-- `GetAllTargetedShaderFormats` (lines 270-293). -/
def GetAllTargetedShaderFormats (env : FEnvironment) (cfg : FConfigCacheIni)
    (OutFormats : List FName) : List FName :=
  let TargetedShaderFormats := GetArray cfg "TargetedRHIs"
  let PossibleShaderFormats := GetAllPossibleShaderFormats env []
  let Filtered :=
    TargetedFilterLoop PossibleShaderFormats TargetedShaderFormats.length TargetedShaderFormats
  Filtered.foldl AddUnique OutFormats

/-! ## Texture formats (lines 300-414) -/

/-- The three cook flags as read at lines 306-311 and 365-370. -/
structure FCookFlags where
  bCookDXTTextures : Bool
  bCookBCTextures : Bool
  bCookETC2Textures : Bool
deriving DecidableEq, Repr

/-- Lines 306-311: each flag starts at its default and is overwritten when the key exists. -/
def ReadCookFlags (cfg : FConfigCacheIni) : FCookFlags :=
  { bCookDXTTextures := (GetBool cfg "bCookDXTTextures").getD true
    bCookBCTextures := (GetBool cfg "bCookBCTextures").getD true
    bCookETC2Textures := (GetBool cfg "bCookETC2Textures").getD false }

/-- One iteration of the inner loop of `GetTextureFormats` (lines 317-352) at `NameIndex`. -/
def LayerStep (f : FCookFlags) (LayerNames : List FName) (NameIndex : Nat) : List FName :=
  match LayerNames[NameIndex]? with
  | none => LayerNames
  | some Name =>
    if FString.Contains Name "DXT" = true then
      if f.bCookDXTTextures = false then
        if f.bCookETC2Textures = true then
          if Name = "DXT1" then LayerNames.set NameIndex NameETC2RGB
          else LayerNames.set NameIndex NameETC2RGBA
        else LayerNames.set NameIndex NameBGRA8
      else LayerNames
    else if FString.StartsWith Name "BC" = true then
      if f.bCookBCTextures = false then
        if f.bCookETC2Textures = true then LayerNames.set NameIndex NameETC2RGB
        else LayerNames.set NameIndex NameBGRA8
      else LayerNames
    else LayerNames

/-- The inner loop of lines 315-353: indices below `n` are still to be visited, from the
highest down. -/
def LayerLoop (f : FCookFlags) : Nat → List FName → List FName
  | 0, LayerNames => LayerNames
  | n + 1, LayerNames => LayerLoop f n (LayerStep f LayerNames n)

/-- `GetTextureFormats` (lines 300-356).  `DefaultLayer` is what the engine resolver
`GetDefaultTextureFormatNamePerLayer` puts into the layer appended to the output. -/
def GetTextureFormats (env : FEnvironment) (cfg : FConfigCacheIni) (DefaultLayer : List FName)
    (OutFormats : List (List FName)) : List (List FName) :=
  if env.IsServerOnly = false then
    let f := ReadCookFlags cfg
    (OutFormats ++ [DefaultLayer]).map (fun LayerNames => LayerLoop f LayerNames.length LayerNames)
  else OutFormats

/-- One iteration of the loop of `GetAllTextureFormats` (lines 374-411) at `NameIndex`. -/
def AllFormatsStep (f : FCookFlags) (OutFormats : List FName) (NameIndex : Nat) : List FName :=
  match OutFormats[NameIndex]? with
  | none => OutFormats
  | some Name =>
    if FString.Contains Name "DXT" = true then
      if f.bCookDXTTextures = false then
        if f.bCookETC2Textures = true then
          if Name = "DXT1" then OutFormats.set NameIndex NameETC2RGB
          else OutFormats.set NameIndex NameETC2RGBA
        else OutFormats.eraseIdx NameIndex
      else OutFormats
    else if FString.StartsWith Name "BC" = true then
      if f.bCookBCTextures = false then
        if f.bCookETC2Textures = true then OutFormats.set NameIndex NameETC2RGB
        else OutFormats.eraseIdx NameIndex
      else OutFormats
    else OutFormats

/-- The loop of lines 372-412: indices below `n` are still to be visited, from the highest
down. -/
def AllFormatsLoop (f : FCookFlags) : Nat → List FName → List FName
  | 0, OutFormats => OutFormats
  | n + 1, OutFormats => AllFormatsLoop f n (AllFormatsStep f OutFormats n)

/-- `GetAllTextureFormats` (lines 359-414).  `GetAllDefaultTextureFormats` is the engine
resolver, taken by its effect on the output array. -/
def GetAllTextureFormats (env : FEnvironment) (cfg : FConfigCacheIni)
    (GetAllDefaultTextureFormats : List FName → List FName) (OutFormats : List FName) :
    List FName :=
  if env.IsServerOnly = false then
    let Defaults := GetAllDefaultTextureFormats OutFormats
    AllFormatsLoop (ReadCookFlags cfg) Defaults.length Defaults
  else OutFormats

/-! ## Construction (lines 52-82) -/

/-- The object before the constructor body loads the devices: guard flag clear, the local
device present only on a Linux host that is not AArch64, an empty map. -/
def InitialPlatform (env : FEnvironment) (cfg : FConfigCacheIni) : TLinuxTargetPlatform :=
  { bChangingDeviceConfig := false
    LocalDevice :=
      if env.PLATFORM_LINUX = true ∧ env.IsAArch64 = false then
        some { DeviceName := env.ComputerName, Credentials := none }
      else none
    Devices := []
    bRequiresEncodedHDRReflectionCaptures := false
    DeviceDiscoveredEvent := []
    GConfig := cfg }

/-- The constructor: local device, `InitDevicesFromConfig`, then the encoded-HDR flag from the
targeted shader formats (lines 72-80). -/
def Construct (env : FEnvironment) (cfg : FConfigCacheIni) (fuel : Nat) :
    Option TLinuxTargetPlatform :=
  (InitDevicesFromConfig env fuel (InitialPlatform env cfg)).map (fun w =>
    let TargetedShaderFormats := GetAllTargetedShaderFormats env w.GConfig []
    { w with
      bRequiresEncodedHDRReflectionCaptures :=
        TargetedShaderFormats.contains "SF_VULKAN_ES31" ||
          TargetedShaderFormats.contains "GLSL_150_ES31" })

/-! ## Device queries (lines 144-170) -/

/-- `GetDefaultDevice` (lines 144-152): the local device when valid, a null pointer
otherwise. -/
def GetDefaultDevice (w : TLinuxTargetPlatform) : FLinuxTargetDevicePtr :=
  match w.LocalDevice with
  | some d => some d
  | none => none

/-- Modelled from the spec: `FTargetDeviceId` (TargetDeviceId is not part of the sources): the
platform name and the device name, compared by value. -/
structure FTargetDeviceId where
  PlatformName : FString
  DeviceName : FString
deriving DecidableEq, Repr

/-- Modelled from the spec: `FLinuxTargetDevice::GetId`, the id made of the owning platform's
name and the device's name. -/
def GetId (env : FEnvironment) (d : FLinuxTargetDevice) : FTargetDeviceId :=
  { PlatformName := env.PlatformName, DeviceName := d.DeviceName }

/-- The loop of lines 161-167 over the map entries still to be visited.  The outer `none` is
the dereference `DeviceIter.Value->GetId()` of a null pointer, which has no result; `some p`
is the pointer returned, `some none` being the `nullptr` of line 169. -/
def GetDeviceLoop (env : FEnvironment) (DeviceId : FTargetDeviceId) :
    FDeviceMap → Option FLinuxTargetDevicePtr
  | [] => some none
  | (_, none) :: _ => none
  | (_, some d) :: rest =>
    if DeviceId = GetId env d then some (some d) else GetDeviceLoop env DeviceId rest

/-- `GetDevice` (lines 154-170). -/
def GetDevice (env : FEnvironment) (w : TLinuxTargetPlatform) (DeviceId : FTargetDeviceId) :
    Option FLinuxTargetDevicePtr :=
  match w.LocalDevice with
  | some l =>
    if DeviceId = GetId env l then some (some l) else GetDeviceLoop env DeviceId w.Devices
  | none => GetDeviceLoop env DeviceId w.Devices

/-! ## Reflection captures and audio (lines 247-255, 426-443) -/

/-- `GetReflectionCaptureFormats` (lines 247-255). -/
def GetReflectionCaptureFormats (w : TLinuxTargetPlatform) (OutFormats : List FName) :
    List FName :=
  (if w.bRequiresEncodedHDRReflectionCaptures = true then OutFormats ++ ["EncodedHDR"]
   else OutFormats) ++ ["FullHDR"]

/-- `GetWaveFormat` (lines 426-443); the arguments are the results of
`Wave->IsSeekableStreaming()` and `Wave->IsStreaming(IniPlatformName)`. -/
def GetWaveFormat (IsSeekableStreaming IsStreaming : Bool) : FName :=
  if IsSeekableStreaming = true then "ADPCM"
  else if IsStreaming = true then "OPUS"
  else "OGG"

/-! ## Module startup (LinuxTargetPlatformModule.cpp, lines 58-91) -/

/-- Modelled from the spec: the settings object `ULinuxTargetSettings` (LinuxTargetSettings is
not part of the sources): the targeted shader formats and the three cook flags. -/
structure ULinuxTargetSettings where
  TargetedRHIs : List FString
  bCookDXTTextures : Bool
  bCookBCTextures : Bool
  bCookETC2Textures : Bool
deriving DecidableEq, Repr

/-- `StartupModule`, lines 60-79: the settings object after the config properties were loaded
by hand.  `GetBool` writes the stored value into the field when the key exists; when it returns
`false` the field is set to the constant of lines 68, 73 and 78. -/
def StartupModule (cfg : FConfigCacheIni) : ULinuxTargetSettings :=
  { TargetedRHIs := GetArray cfg "TargetedRHIs"
    bCookDXTTextures :=
      match GetBool cfg "bCookDXTTextures" with
      | some b => b
      | none => true
    bCookBCTextures :=
      match GetBool cfg "bCookBCTextures" with
      | some b => b
      | none => true
    bCookETC2Textures :=
      match GetBool cfg "bCookETC2Textures" with
      | some b => b
      | none => true }

/-! ## Specification-side functions -/

/-- The per-texture substitution table, read row by row for one name: the DXT rows first, then
the BC rows, then the row for names of neither family. -/
def TableSubstitute (f : FCookFlags) (Name : FName) : FName :=
  if FString.Contains Name "DXT" = true then
    if f.bCookDXTTextures = true then Name
    else if f.bCookETC2Textures = true then
      (if Name = "DXT1" then NameETC2RGB else NameETC2RGBA)
    else NameBGRA8
  else if FString.StartsWith Name "BC" = true then
    if f.bCookBCTextures = true then Name
    else if f.bCookETC2Textures = true then NameETC2RGB
    else NameBGRA8
  else Name

/-- The flat-list table for one name: `none` is "removed". -/
def TableFlat (f : FCookFlags) (Name : FName) : Option FName :=
  if FString.Contains Name "DXT" = true then
    if f.bCookDXTTextures = true then some Name
    else if f.bCookETC2Textures = true then
      some (if Name = "DXT1" then NameETC2RGB else NameETC2RGBA)
    else none
  else if FString.StartsWith Name "BC" = true then
    if f.bCookBCTextures = true then some Name
    else if f.bCookETC2Textures = true then some NameETC2RGB
    else none
  else some Name

/-! ## Auxiliary definitions for the persistence proofs -/

/-- Value of a decimal digit character. -/
def DigitValue (c : Char) : Nat := c.toNat - 48

/-- A device map as `AddDevice` builds it: keys pairwise different, every slot holding a valid
device whose name is the key. -/
def ValidMap (m : FDeviceMap) : Prop :=
  (m.map Prod.fst).Nodup ∧ ∀ e ∈ m, ∃ d : FLinuxTargetDevice, e.2 = some d ∧ d.DeviceName = e.1

/-- The devices `SaveDevicesToConfig` writes, in map iteration order: the valid ones, without
those skipped at line 581. -/
def SavedDevices (env : FEnvironment) : FDeviceMap → List FLinuxTargetDevice
  | [] => []
  | (_, none) :: rest => SavedDevices env rest
  | (_, some d) :: rest =>
    if env.PLATFORM_LINUX = true ∧ d.DeviceName = env.ComputerName then SavedDevices env rest
    else d :: SavedDevices env rest

/-- The `SetString` calls for a list of devices written at consecutive indices from `N`. -/
def IndexedWrites (env : FEnvironment) : Nat → List FLinuxTargetDevice → List (FString × FString)
  | _, [] => []
  | N, d :: ds => DeviceWrites env N d ++ IndexedWrites env (N + 1) ds

/-- The map entry `AddDevice` and the credential step of the load leave for a device. -/
def DeviceEntry (d : FLinuxTargetDevice) : FString × FLinuxTargetDevicePtr :=
  (d.DeviceName, some d)

/-- The credentials the load attaches at index `N`: both the `_User` and the `_Pass` key must
be present (lines 541-544). -/
def StoredCredentials (env : FEnvironment) (cfg : FConfigCacheIni) (N : Nat) :
    Option (FString × FString) :=
  match GetString cfg (DeviceUserKey env N) with
  | some DeviceUser =>
    match GetString cfg (DevicePassKey env N) with
    | some DevicePass => some (DeviceUser, DevicePass)
    | none => none
  | none => none

/-- The longest initial part of a list of names in which no name repeats an earlier one or a
name already seen. -/
def DistinctPrefix : List FString → List FString → List FString
  | _, [] => []
  | seen, a :: rest => if a ∈ seen then [] else a :: DistinctPrefix (seen ++ [a]) rest

/-- The number of devices in the map whose name differs from the host's computer name, as the
claim about the save counts them. -/
def HostDistinctCount (env : FEnvironment) : FDeviceMap → Nat
  | [] => 0
  | (_, none) :: rest => HostDistinctCount env rest
  | (_, some d) :: rest =>
    if d.DeviceName = env.ComputerName then HostDistinctCount env rest
    else HostDistinctCount env rest + 1

/-- The credentials `AddDevice` leaves in the new device: the pair is stored when at least one
of user name and password is non-empty (line 114). -/
def SuppliedCredentials (Username Password : FString) : Option (FString × FString) :=
  if (!Username.IsEmpty || !Password.IsEmpty) = true then some (Username, Password) else none

/-- The `SetString` calls of the save that `SetUserCredentials` triggers inside `AddDevice`,
which happens when credentials are supplied and the device invokes its save callback. -/
def CredentialSaveWrites (env : FEnvironment) (m : FDeviceMap) (n Username Password : FString) :
    List (FString × FString) :=
  if (!Username.IsEmpty || !Password.IsEmpty) = true ∧ env.bCredentialsNotify = true then
    SaveDevicesWrites env (m ++ [(n, some ⟨n, some (Username, Password)⟩)]) 0
  else []

/-- The state after the load has added the given devices, in order, to the map: each one was
broadcast as discovered before its credentials were attached. -/
def Loaded (w : TLinuxTargetPlatform) (ds : List FLinuxTargetDevice) : TLinuxTargetPlatform :=
  { w with
    Devices := w.Devices ++ ds.map DeviceEntry
    DeviceDiscoveredEvent :=
      w.DeviceDiscoveredEvent ++ ds.map (fun d => ⟨d.DeviceName, none⟩) }

/-- The devices the load builds for a list of stored names read at consecutive indices from
`N`: each with the credentials stored at its index. -/
def StoredDevices (env : FEnvironment) (cfg : FConfigCacheIni) :
    Nat → List FString → List FLinuxTargetDevice
  | _, [] => []
  | N, name :: rest => ⟨name, StoredCredentials env cfg N⟩ :: StoredDevices env cfg (N + 1) rest

/-- The credential part of one iteration of the load (lines 539-555), on the state `AddDevice`
returned. -/
def LoadCredentials (env : FEnvironment) (NumDevices : Nat) (DeviceName : FString)
    (w1 : TLinuxTargetPlatform) : TLinuxTargetPlatform :=
  match GetString w1.GConfig (DeviceUserKey env NumDevices) with
  | some DeviceUser =>
    match GetString w1.GConfig (DevicePassKey env NumDevices) with
    | some DevicePass =>
      CredentialsLoop env DeviceName DeviceUser DevicePass (List.range w1.Devices.length) w1
    | none => w1
  | none => w1

/-- The scan of `InitDevicesLoop` again, recording the states on which it calls `AddDevice`,
one per call, in order; `none` when the fuel runs out, as for the scan itself. -/
def InitDevicesLoopCalls (env : FEnvironment) :
    Nat → Nat → TLinuxTargetPlatform → Option (List TLinuxTargetPlatform)
  | 0, _, _ => none
  | fuel + 1, NumDevices, w =>
    match GetString w.GConfig (DeviceNameKey env NumDevices) with
    | none => some []
    | some DeviceName =>
      let added := AddDevice2 env w DeviceName false
      if added.1 = false then some [w]
      else
        (InitDevicesLoopCalls env fuel (NumDevices + 1)
          (LoadCredentials env NumDevices DeviceName added.2)).map (fun calls => w :: calls)

/-- The states on which a call of `InitDevicesFromConfig` calls `AddDevice`. -/
def InitDevicesFromConfigCalls (env : FEnvironment) (fuel : Nat) (w : TLinuxTargetPlatform) :
    Option (List TLinuxTargetPlatform) :=
  if w.bChangingDeviceConfig = true then some []
  else InitDevicesLoopCalls env fuel 0 { w with bChangingDeviceConfig := true }

/-- The states a registry can be in: the one the constructor leaves, and every state reached
from such a state by `AddDevice`, `InitDevicesFromConfig`, `SaveDevicesToConfig`, or a change
of the config store made from outside (the settings editor). -/
inductive Reachable (env : FEnvironment) : TLinuxTargetPlatform → Prop
  | construct (cfg : FConfigCacheIni) (fuel : Nat) (w : TLinuxTargetPlatform) :
      Construct env cfg fuel = some w → Reachable env w
  | addDevice (w : TLinuxTargetPlatform) (n f u p : FString) (b : Bool) :
      Reachable env w → Reachable env (AddDevice env w n f u p b).2
  | initDevices (w w1 : TLinuxTargetPlatform) (fuel : Nat) :
      Reachable env w → InitDevicesFromConfig env fuel w = some w1 → Reachable env w1
  | saveDevices (w : TLinuxTargetPlatform) :
      Reachable env w → Reachable env (SaveDevicesToConfig env w)
  | configChanged (w : TLinuxTargetPlatform) (cfg : FConfigCacheIni) :
      Reachable env w → Reachable env { w with GConfig := cfg }

/-- The position is one at which the per-texture context put the BGRA8 fallback: the name it
returns is BGRA8 and the name it was given is not. -/
def IsFallback (Name New : FName) : Bool :=
  New == NameBGRA8 && Name != NameBGRA8

/-- What no device operation touches: `b` has the guard flag, the local device and the
encoded-HDR flag of `a`, and also its config store when the guard flag of `a` is set. -/
def SameFrame (a b : TLinuxTargetPlatform) : Prop :=
  b.bChangingDeviceConfig = a.bChangingDeviceConfig ∧ b.LocalDevice = a.LocalDevice ∧
  b.bRequiresEncodedHDRReflectionCaptures = a.bRequiresEncodedHDRReflectionCaptures ∧
  (a.bChangingDeviceConfig = true → b.GConfig = a.GConfig)

/-- The per-texture table relating a name to its replacement, its rows read from the top as
the if / else-if chain of the code takes them: the DXT rows apply to a name containing "DXT",
the BC rows to a name starting with "BC" that the DXT rows did not take, and a name in neither
family is unchanged. -/
def OrderedSubstitution (f : FCookFlags) (Name New : FName) : Prop :=
  (FString.Contains Name "DXT" = true →
    (f.bCookDXTTextures = true → New = Name) ∧
    (f.bCookDXTTextures = false → f.bCookETC2Textures = true →
      (Name = "DXT1" → New = NameETC2RGB) ∧ (Name ≠ "DXT1" → New = NameETC2RGBA)) ∧
    (f.bCookDXTTextures = false → f.bCookETC2Textures = false → New = NameBGRA8)) ∧
  (FString.Contains Name "DXT" = false → FString.StartsWith Name "BC" = true →
    (f.bCookBCTextures = true → New = Name) ∧
    (f.bCookBCTextures = false → f.bCookETC2Textures = true → New = NameETC2RGB) ∧
    (f.bCookBCTextures = false → f.bCookETC2Textures = false → New = NameBGRA8)) ∧
  (FString.Contains Name "DXT" = false → FString.StartsWith Name "BC" = false → New = Name)

/-- The flat-list table relating a name to what is left of it (`none` is "removed"), its rows
read from the top as the if / else-if chain of the code takes them: the DXT rows apply to a
name containing "DXT", the BC rows to a name starting with "BC" that the DXT rows did not
take, and a name in neither family is kept. -/
def OrderedFlat (f : FCookFlags) (Name : FName) (New : Option FName) : Prop :=
  (FString.Contains Name "DXT" = true →
    (f.bCookDXTTextures = true → New = some Name) ∧
    (f.bCookDXTTextures = false → f.bCookETC2Textures = true →
      (Name = "DXT1" → New = some NameETC2RGB) ∧ (Name ≠ "DXT1" → New = some NameETC2RGBA)) ∧
    (f.bCookDXTTextures = false → f.bCookETC2Textures = false → New = none)) ∧
  (FString.Contains Name "DXT" = false → FString.StartsWith Name "BC" = true →
    (f.bCookBCTextures = true → New = some Name) ∧
    (f.bCookBCTextures = false → f.bCookETC2Textures = true → New = some NameETC2RGB) ∧
    (f.bCookBCTextures = false → f.bCookETC2Textures = false → New = none)) ∧
  (FString.Contains Name "DXT" = false → FString.StartsWith Name "BC" = false →
    New = some Name)

/-! ## Texture substitution: the loops against the table -/

theorem LayerStep_eq (f : FCookFlags) (L : List FName) (n : Nat) (h : n < L.length) :
    LayerStep f L n = L.take n ++ TableSubstitute f L[n] :: L.drop (n + 1) := by
  have hset : ∀ a : FName, L.set n a = L.take n ++ a :: L.drop (n + 1) := by
    intro a
    rw [List.set_eq_take_append_cons_drop, if_pos h]
  have hsame : L = L.take n ++ L[n] :: L.drop (n + 1) := by
    rw [← List.drop_eq_getElem_cons h, List.take_append_drop]
  unfold LayerStep TableSubstitute
  rw [List.getElem?_eq_getElem h]
  simp only [hset]
  generalize L[n] = x at hsame ⊢
  cases hd : f.bCookDXTTextures <;> cases hb : f.bCookBCTextures <;>
    cases he : f.bCookETC2Textures <;> cases hc : FString.Contains x "DXT" <;>
    cases hs : FString.StartsWith x "BC" <;> by_cases h1 : x = "DXT1" <;> simp [h1] <;>
    first
      | exact hsame
      | (subst h1; exact hsame)

theorem LayerLoop_eq (f : FCookFlags) :
    ∀ (n : Nat) (L : List FName), n ≤ L.length →
      LayerLoop f n L = (L.take n).map (TableSubstitute f) ++ L.drop n := by
  intro n
  induction n with
  | zero => intro L _; simp [LayerLoop]
  | succ n ih =>
    intro L h
    have hn : n < L.length := h
    have hlen : (L.take n).length = n := by
      rw [List.length_take]; omega
    rw [LayerLoop, LayerStep_eq f L n hn, ih]
    · rw [List.take_left' hlen, List.drop_left' hlen, List.take_succ,
        List.getElem?_eq_getElem hn]
      simp only [Option.toList, List.map_append, List.map_cons, List.map_nil,
        List.append_assoc, List.singleton_append]
    · simp only [List.length_append, List.length_cons, hlen]; omega

theorem LayerLoop_full (f : FCookFlags) (L : List FName) :
    LayerLoop f L.length L = L.map (TableSubstitute f) := by
  rw [LayerLoop_eq f L.length L (le_refl _)]
  simp

theorem AllFormatsStep_eq (f : FCookFlags) (L : List FName) (n : Nat) (h : n < L.length) :
    AllFormatsStep f L n = L.take n ++ (TableFlat f L[n]).toList ++ L.drop (n + 1) := by
  have hset : ∀ a : FName, L.set n a = L.take n ++ a :: L.drop (n + 1) := by
    intro a
    rw [List.set_eq_take_append_cons_drop, if_pos h]
  have hsame : L = L.take n ++ L[n] :: L.drop (n + 1) := by
    rw [← List.drop_eq_getElem_cons h, List.take_append_drop]
  unfold AllFormatsStep TableFlat
  rw [List.getElem?_eq_getElem h]
  simp only [hset, List.eraseIdx_eq_take_drop_succ]
  generalize L[n] = x at hsame ⊢
  cases hd : f.bCookDXTTextures <;> cases hb : f.bCookBCTextures <;>
    cases he : f.bCookETC2Textures <;> cases hc : FString.Contains x "DXT" <;>
    cases hs : FString.StartsWith x "BC" <;> by_cases h1 : x = "DXT1" <;> simp [h1] <;>
    first
      | exact hsame
      | (subst h1; exact hsame)

theorem AllFormatsLoop_eq (f : FCookFlags) :
    ∀ (n : Nat) (L : List FName), n ≤ L.length →
      AllFormatsLoop f n L = (L.take n).filterMap (TableFlat f) ++ L.drop n := by
  intro n
  induction n with
  | zero => intro L _; simp [AllFormatsLoop]
  | succ n ih =>
    intro L h
    have hn : n < L.length := h
    have hlen : (L.take n).length = n := by
      rw [List.length_take]; omega
    rw [AllFormatsLoop, AllFormatsStep_eq f L n hn, ih]
    · rw [List.append_assoc, List.take_left' hlen, List.drop_left' hlen, List.take_succ,
        List.getElem?_eq_getElem hn, List.filterMap_append]
      cases hT : TableFlat f L[n] <;> simp [List.filterMap_cons, hT]
    · simp only [List.length_append, hlen]; omega

theorem AllFormatsLoop_full (f : FCookFlags) (L : List FName) :
    AllFormatsLoop f L.length L = L.filterMap (TableFlat f) := by
  rw [AllFormatsLoop_eq f L.length L (le_refl _)]
  simp

theorem TableSubstitute_ordered (f : FCookFlags) (Name : FName) :
    OrderedSubstitution f Name (TableSubstitute f Name) := by
  unfold OrderedSubstitution TableSubstitute
  cases hd : f.bCookDXTTextures <;> cases hb : f.bCookBCTextures <;>
    cases he : f.bCookETC2Textures <;> cases hc : FString.Contains Name "DXT" <;>
    cases hs : FString.StartsWith Name "BC" <;> by_cases h1 : Name = "DXT1" <;> simp [h1]

theorem TableFlat_ordered (f : FCookFlags) (Name : FName) :
    OrderedFlat f Name (TableFlat f Name) := by
  unfold OrderedFlat TableFlat
  cases hd : f.bCookDXTTextures <;> cases hb : f.bCookBCTextures <;>
    cases he : f.bCookETC2Textures <;> cases hc : FString.Contains Name "DXT" <;>
    cases hs : FString.StartsWith Name "BC" <;> by_cases h1 : Name = "DXT1" <;> simp [h1]

/-- C1: on a target that is not server-only, for every layer list and every setting of the
three cook flags, `GetTextureFormats` returns the layers of the output array (the old ones and
the appended default layer) with the same number of layers and the same length of each layer,
every name replaced in place according to the table: a name containing "DXT" is unchanged when
DXT cooking is on, becomes ETC2_RGB ("DXT1") or ETC2_RGBA (any other DXT name) when DXT
cooking is off and ETC2 cooking is on, and becomes BGRA8 when both are off; a name starting
with "BC" (that the DXT rows did not take) is unchanged when BC cooking is on, becomes ETC2_RGB
when BC cooking is off and ETC2 cooking is on, and becomes BGRA8 when both are off; a name in
neither family is unchanged. -/
theorem GetTextureFormats_table (env : FEnvironment) (cfg : FConfigCacheIni)
    (DefaultLayer : List FName) (OutFormats : List (List FName))
    (h : env.IsServerOnly = false) :
    (GetTextureFormats env cfg DefaultLayer OutFormats).length
        = (OutFormats ++ [DefaultLayer]).length ∧
    (GetTextureFormats env cfg DefaultLayer OutFormats).map List.length
        = (OutFormats ++ [DefaultLayer]).map List.length ∧
    List.Forall₂ (List.Forall₂ (OrderedSubstitution (ReadCookFlags cfg)))
      (OutFormats ++ [DefaultLayer]) (GetTextureFormats env cfg DefaultLayer OutFormats) := by
  have hres : GetTextureFormats env cfg DefaultLayer OutFormats
      = (OutFormats ++ [DefaultLayer]).map (List.map (TableSubstitute (ReadCookFlags cfg))) := by
    unfold GetTextureFormats
    rw [if_pos h]
    apply List.map_congr_left
    intro L _
    exact LayerLoop_full _ L
  rw [hres]
  refine ⟨by simp, ?_, ?_⟩
  · rw [List.map_map]
    apply List.map_congr_left
    intro L _
    simp
  · rw [List.forall₂_map_right_iff, List.forall₂_same]
    intro L _
    rw [List.forall₂_map_right_iff, List.forall₂_same]
    intro Name _
    exact TableSubstitute_ordered _ Name

/-- Witness for C1: DXT and BC disabled, ETC2 enabled, one existing layer and a default
layer. -/
theorem GetTextureFormats_table_witness :
    GetTextureFormats ⟨true, false, false, "Linux", "host", true⟩
        ⟨[], [("bCookDXTTextures", false), ("bCookBCTextures", false),
          ("bCookETC2Textures", true)], []⟩ ["DXT1", "DXT5", "BC7", "RGBA16F"] [["AutoDXT"]]
      = [["ETC2_RGBA"], ["ETC2_RGB", "ETC2_RGBA", "ETC2_RGB", "RGBA16F"]] ∧
    List.Forall₂ (List.Forall₂ (OrderedSubstitution
        (ReadCookFlags ⟨[], [("bCookDXTTextures", false), ("bCookBCTextures", false),
          ("bCookETC2Textures", true)], []⟩)))
      ([["AutoDXT"]] ++ [["DXT1", "DXT5", "BC7", "RGBA16F"]])
      (GetTextureFormats ⟨true, false, false, "Linux", "host", true⟩
        ⟨[], [("bCookDXTTextures", false), ("bCookBCTextures", false),
          ("bCookETC2Textures", true)], []⟩ ["DXT1", "DXT5", "BC7", "RGBA16F"] [["AutoDXT"]]) :=
  ⟨by decide,
   (GetTextureFormats_table ⟨true, false, false, "Linux", "host", true⟩
      ⟨[], [("bCookDXTTextures", false), ("bCookBCTextures", false),
        ("bCookETC2Textures", true)], []⟩ ["DXT1", "DXT5", "BC7", "RGBA16F"] [["AutoDXT"]]
      (by decide)).2.2⟩

/-- C2: on a target that is not server-only, for every default format list and every setting of
the three cook flags, `GetAllTextureFormats` returns the defaults processed name by name in
order, each name kept, replaced or removed according to the table: a name containing "DXT" is
kept when DXT cooking is on, becomes ETC2_RGB ("DXT1") or ETC2_RGBA (any other DXT name) when
DXT cooking is off and ETC2 cooking is on, and is removed when both are off; a name starting
with "BC" (that the DXT rows did not take) is kept when BC cooking is on, becomes ETC2_RGB when
BC cooking is off and ETC2 cooking is on, and is removed when both are off; every other name is
kept unchanged.  "BC7" is kept when BC cooking is on, and "DXT1" is absent from the result when
DXT cooking and ETC2 cooking are both off. -/
theorem GetAllTextureFormats_table (env : FEnvironment) (cfg : FConfigCacheIni)
    (GetAllDefaultTextureFormats : List FName → List FName) (OutFormats : List FName)
    (h : env.IsServerOnly = false) :
    GetAllTextureFormats env cfg GetAllDefaultTextureFormats OutFormats
      = ((GetAllDefaultTextureFormats OutFormats).map
          (TableFlat (ReadCookFlags cfg))).reduceOption ∧
    (∀ Name, OrderedFlat (ReadCookFlags cfg) Name (TableFlat (ReadCookFlags cfg) Name)) ∧
    ((ReadCookFlags cfg).bCookBCTextures = true →
      TableFlat (ReadCookFlags cfg) "BC7" = some "BC7") ∧
    ((ReadCookFlags cfg).bCookDXTTextures = false →
      (ReadCookFlags cfg).bCookETC2Textures = false →
      "DXT1" ∉ GetAllTextureFormats env cfg GetAllDefaultTextureFormats OutFormats) := by
  have hres : GetAllTextureFormats env cfg GetAllDefaultTextureFormats OutFormats
      = (GetAllDefaultTextureFormats OutFormats).filterMap (TableFlat (ReadCookFlags cfg)) := by
    unfold GetAllTextureFormats
    rw [if_pos h]
    exact AllFormatsLoop_full _ _
  refine ⟨?_, TableFlat_ordered _, ?_, ?_⟩
  · rw [hres, List.reduceOption, List.filterMap_map]
    rfl
  · intro hb
    have hc : FString.Contains "BC7" "DXT" = false := by decide
    have hs : FString.StartsWith "BC7" "BC" = true := by decide
    simp [TableFlat, hc, hs, hb]
  · intro hd he hmem
    rw [hres, List.mem_filterMap] at hmem
    obtain ⟨Name, _, hName⟩ := hmem
    unfold TableFlat at hName
    rw [hd, he] at hName
    by_cases hc : FString.Contains Name "DXT" = true
    · simp [hc] at hName
    · have hc2 : FString.Contains Name "DXT" = false := by simpa using hc
      rw [hc2] at hName
      by_cases hs : FString.StartsWith Name "BC" = true
      · cases hb : (ReadCookFlags cfg).bCookBCTextures <;> simp [hs, hb] at hName
        subst hName
        exact absurd hc2 (by decide)
      · simp [hs] at hName
        subst hName
        exact absurd hc2 (by decide)

/-- Witness for C2: DXT and ETC2 off, BC on. -/
theorem GetAllTextureFormats_table_witness :
    GetAllTextureFormats ⟨true, false, false, "Linux", "host", true⟩
        ⟨[], [("bCookDXTTextures", false)], []⟩
        (fun Out => Out ++ ["DXT1", "BC7", "DXT5", "RGBA16F"]) ["G8"]
      = ["G8", "BC7", "RGBA16F"] ∧
    "DXT1" ∉ GetAllTextureFormats ⟨true, false, false, "Linux", "host", true⟩
        ⟨[], [("bCookDXTTextures", false)], []⟩
        (fun Out => Out ++ ["DXT1", "BC7", "DXT5", "RGBA16F"]) ["G8"] :=
  ⟨by decide,
   (GetAllTextureFormats_table ⟨true, false, false, "Linux", "host", true⟩
      ⟨[], [("bCookDXTTextures", false)], []⟩
      (fun Out => Out ++ ["DXT1", "BC7", "DXT5", "RGBA16F"]) ["G8"] (by decide)).2.2.2
      (by decide) (by decide)⟩

/-! ## Shader filter -/

theorem TargetedFilterLoop_eq (Possible : List FName) :
    ∀ (n : Nat) (T : List FString), n ≤ T.length →
      TargetedFilterLoop Possible n T
        = (T.take n).filter (fun x => Possible.contains x) ++ T.drop n := by
  intro n
  induction n with
  | zero => intro T _; simp [TargetedFilterLoop]
  | succ n ih =>
    intro T h
    have hn : n < T.length := h
    have hlen : (T.take n).length = n := by
      rw [List.length_take]; omega
    have hsame : T = T.take n ++ T[n] :: T.drop (n + 1) := by
      rw [← List.drop_eq_getElem_cons hn, List.take_append_drop]
    rw [TargetedFilterLoop, List.getElem?_eq_getElem hn]
    simp only
    rw [List.take_succ, List.getElem?_eq_getElem hn, List.filter_append]
    by_cases hc : Possible.contains T[n] = false
    · rw [if_pos hc, List.eraseIdx_eq_take_drop_succ, ih]
      · rw [List.take_left' hlen, List.drop_left' hlen]
        have hc1 : T[n] ∉ Possible := by simpa using hc
        simp [List.filter_cons, hc1]
      · simp only [List.length_append, hlen]; omega
    · rw [if_neg hc, ih T (Nat.le_of_lt hn)]
      have hc2 : T[n] ∈ Possible := by simpa using hc
      simp [List.filter_cons, hc2]

theorem foldl_AddUnique_spec (p : FName → Bool) :
    ∀ (L Out : List FName), ∃ S : List FName,
      (L.filter p).foldl AddUnique Out = Out ++ S ∧ S.Sublist L ∧ S.Nodup ∧
      (∀ x, x ∈ S ↔ (x ∈ L ∧ p x = true) ∧ x ∉ Out) ∧
      S.Pairwise (fun x y => L.indexOf x < L.indexOf y) := by
  intro L
  induction L with
  | nil => intro Out; exact ⟨[], by simp⟩
  | cons a L ih =>
    intro Out
    by_cases hp : p a = true
    · by_cases ha : a ∈ Out
      · obtain ⟨S, hS, hsub, hnd, hmem, hpw⟩ := ih Out
        refine ⟨S, ?_, hsub.cons a, hnd, ?_, ?_⟩
        · rw [List.filter_cons_of_pos hp, List.foldl_cons, AddUnique, if_pos ha, hS]
        · intro x
          rw [hmem x, List.mem_cons]
          constructor
          · rintro ⟨⟨h1, h3⟩, h2⟩; exact ⟨⟨Or.inr h1, h3⟩, h2⟩
          · rintro ⟨⟨h1 | h1, h3⟩, h2⟩
            · subst h1; exact absurd ha h2
            · exact ⟨⟨h1, h3⟩, h2⟩
        · refine (List.Pairwise.and_mem.1 hpw).imp ?_
          rintro x y ⟨hx, hy, hlt⟩
          have hxa : a ≠ x := by
            rintro rfl; exact ((hmem _).1 hx).2 ha
          have hya : a ≠ y := by
            rintro rfl; exact ((hmem _).1 hy).2 ha
          rw [List.indexOf_cons_ne _ hxa, List.indexOf_cons_ne _ hya]
          omega
      · obtain ⟨S, hS, hsub, hnd, hmem, hpw⟩ := ih (Out ++ [a])
        have hnot : ∀ x ∈ S, a ≠ x := by
          intro x hx hax
          have := ((hmem x).1 hx).2
          apply this
          simp [hax]
        refine ⟨a :: S, ?_, hsub.cons₂ a, ?_, ?_, ?_⟩
        · rw [List.filter_cons_of_pos hp, List.foldl_cons, AddUnique, if_neg ha, hS]
          simp
        · rw [List.nodup_cons]
          exact ⟨fun hin => hnot a hin rfl, hnd⟩
        · intro x
          rw [List.mem_cons, hmem x, List.mem_cons]
          constructor
          · rintro (h1 | ⟨⟨h1, h3⟩, h2⟩)
            · subst h1; exact ⟨⟨Or.inl rfl, hp⟩, ha⟩
            · refine ⟨⟨Or.inr h1, h3⟩, ?_⟩
              intro hx; apply h2; simp [hx]
          · rintro ⟨⟨h1 | h1, h3⟩, h2⟩
            · exact Or.inl h1
            · by_cases hxa : x = a
              · exact Or.inl hxa
              · refine Or.inr ⟨⟨h1, h3⟩, ?_⟩
                simp [h2, hxa]
        · rw [List.pairwise_cons]
          constructor
          · intro y hy
            rw [List.indexOf_cons_self, List.indexOf_cons_ne _ (hnot y hy)]
            omega
          · refine (List.Pairwise.and_mem.1 hpw).imp ?_
            rintro x y ⟨hx, hy, hlt⟩
            rw [List.indexOf_cons_ne _ (hnot x hx), List.indexOf_cons_ne _ (hnot y hy)]
            omega
    · obtain ⟨S, hS, hsub, hnd, hmem, hpw⟩ := ih Out
      have hnot : ∀ x ∈ S, a ≠ x := by
        intro x hx hax
        subst hax
        exact hp ((hmem _).1 hx).1.2
      refine ⟨S, ?_, hsub.cons a, hnd, ?_, ?_⟩
      · rw [List.filter_cons_of_neg hp, hS]
      · intro x
        rw [hmem x, List.mem_cons]
        constructor
        · rintro ⟨⟨h1, h3⟩, h2⟩; exact ⟨⟨Or.inr h1, h3⟩, h2⟩
        · rintro ⟨⟨h1 | h1, h3⟩, h2⟩
          · subst h1; exact absurd h3 hp
          · exact ⟨⟨h1, h3⟩, h2⟩
      · refine (List.Pairwise.and_mem.1 hpw).imp ?_
        rintro x y ⟨hx, hy, hlt⟩
        rw [List.indexOf_cons_ne _ (hnot x hx), List.indexOf_cons_ne _ (hnot y hy)]
        omega

/-- C3: started on an empty output, `GetAllTargetedShaderFormats` returns exactly the requested
names (the `TargetedRHIs` array) that are in the possible set, each once, in the order of
their first occurrence in the request; the request of the spec example gives
`[SF_VULKAN_ES31, SF_VULKAN_SM5]`. -/
theorem GetAllTargetedShaderFormats_filter (env : FEnvironment) (cfg : FConfigCacheIni) :
    (∀ x, x ∈ GetAllTargetedShaderFormats env cfg [] ↔
      x ∈ GetArray cfg "TargetedRHIs" ∧ x ∈ GetAllPossibleShaderFormats env []) ∧
    (GetAllTargetedShaderFormats env cfg []).Nodup ∧
    (GetAllTargetedShaderFormats env cfg []).Sublist (GetArray cfg "TargetedRHIs") ∧
    (GetAllTargetedShaderFormats env cfg []).Pairwise
      (fun x y => (GetArray cfg "TargetedRHIs").indexOf x
        < (GetArray cfg "TargetedRHIs").indexOf y) ∧
    GetAllTargetedShaderFormats ⟨true, false, false, "Linux", "host", true⟩
        ⟨[], [], [("TargetedRHIs", ["SF_VULKAN_ES31", "SF_UNKNOWN", "SF_VULKAN_SM5"])]⟩ []
      = ["SF_VULKAN_ES31", "SF_VULKAN_SM5"] := by
  have hfilt : TargetedFilterLoop (GetAllPossibleShaderFormats env [])
      (GetArray cfg "TargetedRHIs").length (GetArray cfg "TargetedRHIs")
      = (GetArray cfg "TargetedRHIs").filter
          (fun x => (GetAllPossibleShaderFormats env []).contains x) := by
    rw [TargetedFilterLoop_eq _ _ _ (le_refl _)]
    simp
  obtain ⟨S, hS, hsub, hnd, hmem, hpw⟩ :=
    foldl_AddUnique_spec (fun x => (GetAllPossibleShaderFormats env []).contains x)
      (GetArray cfg "TargetedRHIs") []
  have hres : GetAllTargetedShaderFormats env cfg [] = S := by
    unfold GetAllTargetedShaderFormats
    simp only
    rw [hfilt, hS, List.nil_append]
  rw [hres]
  refine ⟨?_, hnd, hsub, hpw, by decide⟩
  intro x
  rw [hmem x]
  simp

/-! ## Persistence keys are pairwise different -/

theorem DigitValue_digitChar (k : Nat) (h : k < 10) : DigitValue (Nat.digitChar k) = k := by
  interval_cases k <;> rfl

theorem toDigitsCore_value :
    ∀ (fuel n : Nat) (ds : List Char), n < fuel →
      (Nat.toDigitsCore 10 fuel n ds).foldl (fun a c => a * 10 + DigitValue c) 0
        = ds.foldl (fun a c => a * 10 + DigitValue c) n := by
  intro fuel
  induction fuel with
  | zero => intro n ds h; omega
  | succ fuel ih =>
    intro n ds h
    unfold Nat.toDigitsCore
    simp only
    by_cases h0 : n / 10 = 0
    · rw [if_pos h0]
      simp only [List.foldl_cons, Nat.zero_mul, Nat.zero_add]
      rw [DigitValue_digitChar _ (Nat.mod_lt _ (by norm_num))]
      congr 1
      omega
    · rw [if_neg h0, ih _ _ (by omega)]
      simp only [List.foldl_cons]
      rw [DigitValue_digitChar _ (Nat.mod_lt _ (by norm_num))]
      congr 1
      omega

theorem repr_injective (a b : Nat) (h : Nat.repr a = Nat.repr b) : a = b := by
  have hd : Nat.toDigits 10 a = Nat.toDigits 10 b := by
    have := congrArg String.data h
    simpa [Nat.repr, List.asString] using this
  have ha := toDigitsCore_value (a + 1) a [] (by omega)
  have hb := toDigitsCore_value (b + 1) b [] (by omega)
  unfold Nat.toDigits at hd
  rw [hd] at ha
  simp only [List.foldl_nil] at ha hb
  omega

theorem DeviceKey_inj (env : FEnvironment) (N M : Nat) (s t : FString)
    (hlen : s.data.length = t.data.length)
    (h : DeviceBaseKey env N ++ s = DeviceBaseKey env M ++ t) : N = M ∧ s = t := by
  have hdata := congrArg String.data h
  simp only [DeviceBaseKey, String.data_append, List.append_assoc] at hdata
  have h1 := List.append_cancel_left hdata
  have h2 := List.append_cancel_left h1
  have h3 := List.append_cancel_left h2
  have h4 := List.append_inj' h3 hlen
  exact ⟨repr_injective N M (String.ext h4.1), String.ext h4.2⟩

theorem NameKey_inj (env : FEnvironment) (N M : Nat)
    (h : DeviceNameKey env N = DeviceNameKey env M) : N = M :=
  (DeviceKey_inj env N M "_Name" "_Name" rfl h).1

theorem UserKey_inj (env : FEnvironment) (N M : Nat)
    (h : DeviceUserKey env N = DeviceUserKey env M) : N = M :=
  (DeviceKey_inj env N M "_User" "_User" rfl h).1

theorem PassKey_inj (env : FEnvironment) (N M : Nat)
    (h : DevicePassKey env N = DevicePassKey env M) : N = M :=
  (DeviceKey_inj env N M "_Pass" "_Pass" rfl h).1

theorem NameKey_ne_UserKey (env : FEnvironment) (N M : Nat) :
    DeviceNameKey env N ≠ DeviceUserKey env M := fun h =>
  absurd (DeviceKey_inj env N M "_Name" "_User" rfl h).2 (by decide)

theorem NameKey_ne_PassKey (env : FEnvironment) (N M : Nat) :
    DeviceNameKey env N ≠ DevicePassKey env M := fun h =>
  absurd (DeviceKey_inj env N M "_Name" "_Pass" rfl h).2 (by decide)

theorem UserKey_ne_PassKey (env : FEnvironment) (N M : Nat) :
    DeviceUserKey env N ≠ DevicePassKey env M := fun h =>
  absurd (DeviceKey_inj env N M "_User" "_Pass" rfl h).2 (by decide)

/-! ## The config store -/

theorem Lookup_Store_same {β : Type} (l : List (FString × β)) (k : FString) (v : β) :
    Lookup (Store l k v) k = some v := by
  induction l with
  | nil => simp [Store, Lookup]
  | cons e l ih =>
    obtain ⟨k1, v1⟩ := e
    by_cases h : k1 = k
    · simp [Store, Lookup, h]
    · simp [Store, Lookup, h, ih]

theorem Lookup_Store_other {β : Type} (l : List (FString × β)) (k key : FString) (v : β)
    (hne : k ≠ key) : Lookup (Store l k v) key = Lookup l key := by
  induction l with
  | nil => simp [Store, Lookup, hne]
  | cons e l ih =>
    obtain ⟨k1, v1⟩ := e
    by_cases h : k1 = k
    · subst h
      simp [Store, Lookup, hne]
    · by_cases h2 : k1 = key
      · simp only [Store, if_neg h, Lookup, if_pos h2]
      · simp only [Store, if_neg h, Lookup, if_neg h2, ih]

theorem GetString_SetString_same (cfg : FConfigCacheIni) (k v : FString) :
    GetString (SetString cfg k v) k = some v :=
  Lookup_Store_same _ _ _

theorem GetString_SetString_other (cfg : FConfigCacheIni) (k key v : FString) (hne : k ≠ key) :
    GetString (SetString cfg k v) key = GetString cfg key :=
  Lookup_Store_other _ _ _ _ hne

theorem Store_same_value {β : Type} (l : List (FString × β)) (k : FString) (v : β)
    (h : Lookup l k = some v) : Store l k v = l := by
  induction l with
  | nil => simp [Lookup] at h
  | cons e l ih =>
    obtain ⟨k1, v1⟩ := e
    by_cases hk : k1 = k
    · simp [Lookup, hk] at h
      simp [Store, hk, h]
    · simp [Lookup, hk] at h
      simp [Store, hk, ih h]

theorem ApplyWrites_append (cfg : FConfigCacheIni) (a b : List (FString × FString)) :
    ApplyWrites cfg (a ++ b) = ApplyWrites (ApplyWrites cfg a) b := by
  simp [ApplyWrites, List.foldl_append]

theorem ApplyWrites_other (key : FString) :
    ∀ (ws : List (FString × FString)) (cfg : FConfigCacheIni),
      (∀ kv ∈ ws, kv.1 ≠ key) → GetString (ApplyWrites cfg ws) key = GetString cfg key := by
  intro ws
  induction ws with
  | nil => intro cfg _; rfl
  | cons kv ws ih =>
    intro cfg h
    have h1 : ApplyWrites cfg (kv :: ws) = ApplyWrites (SetString cfg kv.1 kv.2) ws := rfl
    rw [h1, ih _ (fun x hx => h x (List.mem_cons_of_mem _ hx)),
      GetString_SetString_other _ _ _ _ (h kv (List.mem_cons_self _ _))]

theorem ApplyWrites_Bools (ws : List (FString × FString)) :
    ∀ cfg : FConfigCacheIni, (ApplyWrites cfg ws).Bools = cfg.Bools ∧
      (ApplyWrites cfg ws).Arrays = cfg.Arrays := by
  induction ws with
  | nil => intro cfg; exact ⟨rfl, rfl⟩
  | cons kv ws ih =>
    intro cfg
    have h1 : ApplyWrites cfg (kv :: ws) = ApplyWrites (SetString cfg kv.1 kv.2) ws := rfl
    rw [h1]
    exact ih _

/-! ## The device map -/

theorem Lookup_none_IndexOfKey (m : FDeviceMap) (k : FString) (h : Lookup m k = none) :
    IndexOfKey m k = none := by
  induction m with
  | nil => rfl
  | cons e m ih =>
    obtain ⟨k1, p1⟩ := e
    by_cases hk : k1 = k
    · simp [Lookup, hk] at h
    · simp only [Lookup, if_neg hk] at h
      simp only [IndexOfKey, if_neg hk, ih h, Option.map_none']

theorem Lookup_some_IndexOfKey (m : FDeviceMap) (k : FString) (p : FLinuxTargetDevicePtr)
    (h : Lookup m k = some p) : ∃ i, IndexOfKey m k = some i ∧ SlotValue m i = p := by
  induction m with
  | nil => simp [Lookup] at h
  | cons e m ih =>
    obtain ⟨k1, p1⟩ := e
    by_cases hk : k1 = k
    · simp only [Lookup, if_pos hk, Option.some.injEq] at h
      exact ⟨0, by simp [IndexOfKey, hk], by simp [SlotValue, h]⟩
    · simp only [Lookup, if_neg hk] at h
      obtain ⟨i, hi, hv⟩ := ih h
      refine ⟨i + 1, by simp [IndexOfKey, hk, hi], ?_⟩
      simpa [SlotValue] using hv

theorem Lookup_none_iff (m : FDeviceMap) (k : FString) :
    Lookup m k = none ↔ k ∉ m.map Prod.fst := by
  induction m with
  | nil => simp [Lookup]
  | cons e m ih =>
    obtain ⟨k1, p1⟩ := e
    by_cases hk : k1 = k
    · simp [Lookup, hk]
    · simp only [Lookup, if_neg hk, ih, List.map_cons, List.mem_cons, not_or]
      constructor
      · intro h; exact ⟨fun h2 => hk h2.symm, h⟩
      · intro h; exact h.2

theorem SlotValue_append_last (m : FDeviceMap) (k : FString) (p : FLinuxTargetDevicePtr) :
    SlotValue (m ++ [(k, p)]) m.length = p := by
  simp [SlotValue]

theorem SlotValue_append_left (m : FDeviceMap) (e : FString × FLinuxTargetDevicePtr) (i : Nat)
    (h : i < m.length) : SlotValue (m ++ [e]) i = SlotValue m i := by
  simp [SlotValue, List.getElem?_append_left h]

theorem AssignSlot_append_last (m : FDeviceMap) (k : FString) (p q : FLinuxTargetDevicePtr) :
    AssignSlot (m ++ [(k, p)]) m.length q = m ++ [(k, q)] := by
  induction m with
  | nil => rfl
  | cons e m ih =>
    obtain ⟨k1, p1⟩ := e
    show (k1, p1) :: AssignSlot (m ++ [(k, p)]) m.length q = _
    rw [ih]
    rfl

theorem FindOrAdd_new (m : FDeviceMap) (k : FString) (h : Lookup m k = none) :
    FindOrAdd m k = (m ++ [(k, none)], m.length) := by
  simp [FindOrAdd, Lookup_none_IndexOfKey m k h]

theorem FindOrAdd_found (m : FDeviceMap) (k : FString) (p : FLinuxTargetDevicePtr)
    (h : Lookup m k = some p) :
    (FindOrAdd m k).1 = m ∧ SlotValue m (FindOrAdd m k).2 = p := by
  obtain ⟨i, hi, hv⟩ := Lookup_some_IndexOfKey m k p h
  simp [FindOrAdd, hi, hv]

theorem SlotValue_valid (m : FDeviceMap) (hm : ValidMap m) (i : Nat) (d : FLinuxTargetDevice)
    (h : SlotValue m i = some d) : d.DeviceName ∈ m.map Prod.fst := by
  unfold SlotValue at h
  cases hget : m[i]? with
  | none => simp [hget] at h
  | some e =>
    obtain ⟨k, p⟩ := e
    simp only [hget] at h
    have hin : (k, p) ∈ m := List.getElem?_mem hget
    obtain ⟨d1, hd1, hname⟩ := hm.2 _ hin
    simp only at hd1 hname
    rw [h] at hd1
    cases hd1
    exact List.mem_map.2 ⟨(k, some d), by rw [← h]; exact hin, hname.symm⟩

theorem ValidMap_append (m : FDeviceMap) (hm : ValidMap m) (d : FLinuxTargetDevice)
    (hnew : d.DeviceName ∉ m.map Prod.fst) : ValidMap (m ++ [DeviceEntry d]) := by
  constructor
  · rw [List.map_append, List.nodup_append]
    refine ⟨hm.1, by simp, ?_⟩
    intro a ha hb
    simp only [DeviceEntry, List.map_cons, List.map_nil, List.mem_singleton] at hb
    subst hb
    exact hnew ha
  · intro e he
    rw [List.mem_append, List.mem_singleton] at he
    rcases he with he | he
    · exact hm.2 e he
    · subst he
      exact ⟨d, rfl, rfl⟩

theorem ValidMap_tail (e : FString × FLinuxTargetDevicePtr) (m : FDeviceMap)
    (hm : ValidMap (e :: m)) : ValidMap m := by
  refine ⟨?_, fun x hx => hm.2 x (List.mem_cons_of_mem _ hx)⟩
  have := hm.1
  simp only [List.map_cons, List.nodup_cons] at this
  exact this.2

theorem ValidMap_Lookup (m : FDeviceMap) (hm : ValidMap m) (k : FString)
    (hk : k ∈ m.map Prod.fst) : ∃ d, Lookup m k = some (some d) := by
  induction m with
  | nil => simp at hk
  | cons e m ih =>
    obtain ⟨k1, p1⟩ := e
    by_cases hk1 : k1 = k
    · obtain ⟨d1, hd1, _⟩ := hm.2 (k1, p1) (List.mem_cons_self _ _)
      simp only at hd1
      exact ⟨d1, by simp [Lookup, hk1, hd1]⟩
    · simp only [List.map_cons, List.mem_cons] at hk
      rcases hk with hk | hk
      · exact absurd hk.symm hk1
      · obtain ⟨d, hd⟩ := ih (ValidMap_tail _ _ hm) hk
        exact ⟨d, by simp only [Lookup, if_neg hk1, hd]⟩

/-! ## SaveDevicesToConfig -/

theorem SaveDevicesToConfig_guarded (env : FEnvironment) (w : TLinuxTargetPlatform)
    (h : w.bChangingDeviceConfig = true) : SaveDevicesToConfig env w = w := by
  simp [SaveDevicesToConfig, h]

theorem SaveDevicesToConfig_clear (env : FEnvironment) (w : TLinuxTargetPlatform)
    (h : w.bChangingDeviceConfig = false) :
    SaveDevicesToConfig env w
      = { w with GConfig := ApplyWrites w.GConfig (SaveDevicesWrites env w.Devices 0) } := by
  cases w
  simp only at h
  subst h
  simp [SaveDevicesToConfig]

theorem SaveDevicesToConfig_Devices (env : FEnvironment) (w : TLinuxTargetPlatform) :
    (SaveDevicesToConfig env w).Devices = w.Devices ∧
    (SaveDevicesToConfig env w).bChangingDeviceConfig = w.bChangingDeviceConfig ∧
    (SaveDevicesToConfig env w).LocalDevice = w.LocalDevice ∧
    (SaveDevicesToConfig env w).DeviceDiscoveredEvent = w.DeviceDiscoveredEvent ∧
    (SaveDevicesToConfig env w).bRequiresEncodedHDRReflectionCaptures
      = w.bRequiresEncodedHDRReflectionCaptures := by
  cases hf : w.bChangingDeviceConfig
  · rw [SaveDevicesToConfig_clear env w hf]
    simp [hf]
  · rw [SaveDevicesToConfig_guarded env w hf]
    simp [hf]

theorem SaveDevicesWrites_eq (env : FEnvironment) :
    ∀ (m : FDeviceMap) (N : Nat),
      SaveDevicesWrites env m N = IndexedWrites env N (SavedDevices env m) := by
  intro m
  induction m with
  | nil => intro N; rfl
  | cons e m ih =>
    intro N
    obtain ⟨k, p⟩ := e
    cases p with
    | none => simp only [SaveDevicesWrites, SavedDevices, ih]
    | some d =>
      by_cases hskip : env.PLATFORM_LINUX = true ∧ d.DeviceName = env.ComputerName
      · simp only [SaveDevicesWrites, SavedDevices, if_pos hskip, ih]
      · simp only [SaveDevicesWrites, SavedDevices, if_neg hskip, ih, IndexedWrites]

theorem SavedDevices_append (env : FEnvironment) (m1 m2 : FDeviceMap) :
    SavedDevices env (m1 ++ m2) = SavedDevices env m1 ++ SavedDevices env m2 := by
  induction m1 with
  | nil => rfl
  | cons e m ih =>
    obtain ⟨k, p⟩ := e
    cases p with
    | none =>
      show SavedDevices env (m ++ m2) = SavedDevices env m ++ SavedDevices env m2
      exact ih
    | some d =>
      by_cases hskip : env.PLATFORM_LINUX = true ∧ d.DeviceName = env.ComputerName
      · show SavedDevices env ((k, some d) :: (m ++ m2))
          = SavedDevices env ((k, some d) :: m) ++ SavedDevices env m2
        simp only [SavedDevices, if_pos hskip, ih]
      · show SavedDevices env ((k, some d) :: (m ++ m2))
          = SavedDevices env ((k, some d) :: m) ++ SavedDevices env m2
        simp only [SavedDevices, if_neg hskip, ih, List.cons_append]

theorem IndexedWrites_append (env : FEnvironment) :
    ∀ (ds es : List FLinuxTargetDevice) (N : Nat),
      IndexedWrites env N (ds ++ es)
        = IndexedWrites env N ds ++ IndexedWrites env (N + ds.length) es := by
  intro ds
  induction ds with
  | nil => intro es N; simp [IndexedWrites]
  | cons d ds ih =>
    intro es N
    have harith : N + 1 + ds.length = N + (ds.length + 1) := by omega
    show DeviceWrites env N d ++ IndexedWrites env (N + 1) (ds ++ es)
      = (DeviceWrites env N d ++ IndexedWrites env (N + 1) ds)
        ++ IndexedWrites env (N + (ds.length + 1)) es
    rw [ih, harith, List.append_assoc]

/-! ## What the store holds after the writes of a save -/

theorem GetString_DeviceWrites_Name (env : FEnvironment) (cfg : FConfigCacheIni) (N i : Nat)
    (d : FLinuxTargetDevice) :
    GetString (ApplyWrites cfg (DeviceWrites env N d)) (DeviceNameKey env i)
      = if i = N then some d.DeviceName else GetString cfg (DeviceNameKey env i) := by
  have hU : DeviceUserKey env N ≠ DeviceNameKey env i := fun h => NameKey_ne_UserKey env i N h.symm
  have hP : DevicePassKey env N ≠ DeviceNameKey env i := fun h => NameKey_ne_PassKey env i N h.symm
  by_cases hi : i = N
  · subst hi
    rw [if_pos rfl]
    cases hc : d.Credentials with
    | none => simp [DeviceWrites, hc, ApplyWrites, GetString_SetString_same]
    | some c =>
      simp only [DeviceWrites, hc, ApplyWrites, List.foldl_cons, List.foldl_nil]
      rw [GetString_SetString_other _ _ _ _ hP, GetString_SetString_other _ _ _ _ hU,
        GetString_SetString_same]
  · rw [if_neg hi]
    have hN : DeviceNameKey env N ≠ DeviceNameKey env i := fun h => hi (NameKey_inj env N i h).symm
    cases hc : d.Credentials with
    | none =>
      simp only [DeviceWrites, hc, ApplyWrites, List.foldl_cons, List.foldl_nil]
      rw [GetString_SetString_other _ _ _ _ hN]
    | some c =>
      simp only [DeviceWrites, hc, ApplyWrites, List.foldl_cons, List.foldl_nil]
      rw [GetString_SetString_other _ _ _ _ hP, GetString_SetString_other _ _ _ _ hU,
        GetString_SetString_other _ _ _ _ hN]

theorem GetString_DeviceWrites_User (env : FEnvironment) (cfg : FConfigCacheIni) (N i : Nat)
    (d : FLinuxTargetDevice) :
    GetString (ApplyWrites cfg (DeviceWrites env N d)) (DeviceUserKey env i)
      = match (if i = N then d.Credentials else none) with
        | some c => some c.1
        | none => GetString cfg (DeviceUserKey env i) := by
  have hNm : DeviceNameKey env N ≠ DeviceUserKey env i := NameKey_ne_UserKey env N i
  have hP : DevicePassKey env N ≠ DeviceUserKey env i := fun h => UserKey_ne_PassKey env i N h.symm
  cases hc : d.Credentials with
  | none =>
    simp only [DeviceWrites, hc, ApplyWrites, List.foldl_cons, List.foldl_nil, ite_self]
    rw [GetString_SetString_other _ _ _ _ hNm]
  | some c =>
    simp only [DeviceWrites, hc, ApplyWrites, List.foldl_cons, List.foldl_nil]
    rw [GetString_SetString_other _ _ _ _ hP]
    by_cases hi : i = N
    · subst hi
      rw [GetString_SetString_same]
      simp
    · have hU : DeviceUserKey env N ≠ DeviceUserKey env i :=
        fun h => hi (UserKey_inj env N i h).symm
      rw [GetString_SetString_other _ _ _ _ hU, GetString_SetString_other _ _ _ _ hNm]
      simp [hi]

theorem GetString_DeviceWrites_Pass (env : FEnvironment) (cfg : FConfigCacheIni) (N i : Nat)
    (d : FLinuxTargetDevice) :
    GetString (ApplyWrites cfg (DeviceWrites env N d)) (DevicePassKey env i)
      = match (if i = N then d.Credentials else none) with
        | some c => some c.2
        | none => GetString cfg (DevicePassKey env i) := by
  have hNm : DeviceNameKey env N ≠ DevicePassKey env i := NameKey_ne_PassKey env N i
  have hU : DeviceUserKey env N ≠ DevicePassKey env i := UserKey_ne_PassKey env N i
  cases hc : d.Credentials with
  | none =>
    simp only [DeviceWrites, hc, ApplyWrites, List.foldl_cons, List.foldl_nil, ite_self]
    rw [GetString_SetString_other _ _ _ _ hNm]
  | some c =>
    simp only [DeviceWrites, hc, ApplyWrites, List.foldl_cons, List.foldl_nil]
    by_cases hi : i = N
    · subst hi
      rw [GetString_SetString_same]
      simp
    · have hP : DevicePassKey env N ≠ DevicePassKey env i :=
        fun h => hi (PassKey_inj env N i h).symm
      rw [GetString_SetString_other _ _ _ _ hP, GetString_SetString_other _ _ _ _ hU,
        GetString_SetString_other _ _ _ _ hNm]
      simp [hi]

theorem GetString_IndexedWrites_Name (env : FEnvironment) :
    ∀ (ds : List FLinuxTargetDevice) (N : Nat) (cfg : FConfigCacheIni) (i : Nat),
      GetString (ApplyWrites cfg (IndexedWrites env N ds)) (DeviceNameKey env i)
        = match (if N ≤ i then ds[i - N]? else none) with
          | some d => some d.DeviceName
          | none => GetString cfg (DeviceNameKey env i) := by
  intro ds
  induction ds with
  | nil => intro N cfg i; simp [IndexedWrites, ApplyWrites]
  | cons d ds ih =>
    intro N cfg i
    rw [IndexedWrites, ApplyWrites_append, ih, GetString_DeviceWrites_Name]
    by_cases h1 : N + 1 ≤ i
    · have h2 : N ≤ i := by omega
      have h3 : i - N = (i - (N + 1)) + 1 := by omega
      rw [if_pos h1, if_pos h2, h3, List.getElem?_cons_succ]
      have h4 : i ≠ N := by omega
      simp [h4]
    · rw [if_neg h1]
      by_cases h2 : i = N
      · subst h2
        simp
      · have h3 : ¬ N ≤ i := by omega
        simp [h2, h3]

theorem GetString_IndexedWrites_User (env : FEnvironment) :
    ∀ (ds : List FLinuxTargetDevice) (N : Nat) (cfg : FConfigCacheIni) (i : Nat),
      GetString (ApplyWrites cfg (IndexedWrites env N ds)) (DeviceUserKey env i)
        = match (if N ≤ i then (ds[i - N]?).bind (fun d => d.Credentials) else none) with
          | some c => some c.1
          | none => GetString cfg (DeviceUserKey env i) := by
  intro ds
  induction ds with
  | nil => intro N cfg i; simp [IndexedWrites, ApplyWrites]
  | cons d ds ih =>
    intro N cfg i
    rw [IndexedWrites, ApplyWrites_append, ih, GetString_DeviceWrites_User]
    by_cases h1 : N + 1 ≤ i
    · have h2 : N ≤ i := by omega
      have h3 : i - N = (i - (N + 1)) + 1 := by omega
      rw [if_pos h1, if_pos h2, h3, List.getElem?_cons_succ]
      have h4 : i ≠ N := by omega
      simp [h4]
    · rw [if_neg h1]
      by_cases h2 : i = N
      · subst h2
        simp
      · have h3 : ¬ N ≤ i := by omega
        simp [h2, h3]

theorem GetString_IndexedWrites_Pass (env : FEnvironment) :
    ∀ (ds : List FLinuxTargetDevice) (N : Nat) (cfg : FConfigCacheIni) (i : Nat),
      GetString (ApplyWrites cfg (IndexedWrites env N ds)) (DevicePassKey env i)
        = match (if N ≤ i then (ds[i - N]?).bind (fun d => d.Credentials) else none) with
          | some c => some c.2
          | none => GetString cfg (DevicePassKey env i) := by
  intro ds
  induction ds with
  | nil => intro N cfg i; simp [IndexedWrites, ApplyWrites]
  | cons d ds ih =>
    intro N cfg i
    rw [IndexedWrites, ApplyWrites_append, ih, GetString_DeviceWrites_Pass]
    by_cases h1 : N + 1 ≤ i
    · have h2 : N ≤ i := by omega
      have h3 : i - N = (i - (N + 1)) + 1 := by omega
      rw [if_pos h1, if_pos h2, h3, List.getElem?_cons_succ]
      have h4 : i ≠ N := by omega
      simp [h4]
    · rw [if_neg h1]
      by_cases h2 : i = N
      · subst h2
        simp
      · have h3 : ¬ N ≤ i := by omega
        simp [h2, h3]

/-! ## AddDevice -/

theorem AddDevice_new (env : FEnvironment) (w : TLinuxTargetPlatform)
    (n f u p : FString) (b : Bool) (h : Lookup w.Devices n = none) :
    AddDevice env w n f u p b
      = (true,
          Broadcast
            (if (!u.IsEmpty || !p.IsEmpty) = true then
              SetUserCredentials env
                (SaveDevicesToConfig env
                  { w with Devices := w.Devices ++ [(n, some ⟨n, none⟩)] })
                w.Devices.length u p
             else
              SaveDevicesToConfig env
                { w with Devices := w.Devices ++ [(n, some ⟨n, none⟩)] })
            w.Devices.length) := by
  unfold AddDevice
  simp only [FindOrAdd_new w.Devices n h, SlotValue_append_last, AssignSlot_append_last]

theorem SetUserCredentials_last (env : FEnvironment) (w : TLinuxTargetPlatform)
    (m : FDeviceMap) (k : FString) (d : FLinuxTargetDevice) (u p : FString)
    (hm : w.Devices = m ++ [(k, some d)]) :
    SetUserCredentials env w m.length u p
      = if env.bCredentialsNotify = true then
          SaveDevicesToConfig env
            { w with Devices := m ++ [(k, some { d with Credentials := some (u, p) })] }
        else { w with Devices := m ++ [(k, some { d with Credentials := some (u, p) })] } := by
  unfold SetUserCredentials
  simp only [hm, SlotValue_append_last, AssignSlot_append_last]

theorem Broadcast_last (w : TLinuxTargetPlatform) (m : FDeviceMap) (k : FString)
    (d : FLinuxTargetDevice) (hm : w.Devices = m ++ [(k, some d)]) :
    Broadcast w m.length
      = { w with DeviceDiscoveredEvent := w.DeviceDiscoveredEvent ++ [d] } := by
  unfold Broadcast
  simp only [hm, SlotValue_append_last]

theorem AddDevice_new_guarded (env : FEnvironment) (w : TLinuxTargetPlatform)
    (n f u p : FString) (b : Bool) (h : Lookup w.Devices n = none)
    (hflag : w.bChangingDeviceConfig = true) :
    AddDevice env w n f u p b
      = (true,
          { w with
            Devices := w.Devices ++
              [(n, some ⟨n, if (!u.IsEmpty || !p.IsEmpty) = true then some (u, p) else none⟩)]
            DeviceDiscoveredEvent := w.DeviceDiscoveredEvent ++
              [⟨n, if (!u.IsEmpty || !p.IsEmpty) = true then some (u, p) else none⟩] }) := by
  rw [AddDevice_new env w n f u p b h]
  have hsave : SaveDevicesToConfig env { w with Devices := w.Devices ++ [(n, some ⟨n, none⟩)] }
      = { w with Devices := w.Devices ++ [(n, some ⟨n, none⟩)] } :=
    SaveDevicesToConfig_guarded env _ hflag
  rw [hsave]
  by_cases hc : (!u.IsEmpty || !p.IsEmpty) = true
  · rw [if_pos hc, if_pos hc,
      SetUserCredentials_last env _ w.Devices n ⟨n, none⟩ u p rfl]
    have hsave2 : SaveDevicesToConfig env
        { w with Devices := w.Devices ++ [(n, some ⟨n, some (u, p)⟩)] }
        = { w with Devices := w.Devices ++ [(n, some ⟨n, some (u, p)⟩)] } :=
      SaveDevicesToConfig_guarded env _ hflag
    have hb : ∀ x : TLinuxTargetPlatform,
        x = { w with Devices := w.Devices ++ [(n, some ⟨n, some (u, p)⟩)] } →
        Broadcast x w.Devices.length
          = { w with
              Devices := w.Devices ++ [(n, some ⟨n, some (u, p)⟩)]
              DeviceDiscoveredEvent := w.DeviceDiscoveredEvent ++ [⟨n, some (u, p)⟩] } := by
      intro x hx
      subst hx
      rw [Broadcast_last _ w.Devices n ⟨n, some (u, p)⟩ rfl]
    cases hn : env.bCredentialsNotify
    · simp only [Bool.false_eq_true, if_false]
      rw [hb _ rfl]
    · simp only [if_true]
      rw [hb _ hsave2]
  · rw [if_neg hc, if_neg hc, Broadcast_last _ w.Devices n ⟨n, none⟩ rfl]

theorem AddDevice_duplicate_lemma (env : FEnvironment) (w : TLinuxTargetPlatform)
    (n f u p : FString) (b : Bool) (d : FLinuxTargetDevice)
    (h : Lookup w.Devices n = some (some d)) : AddDevice env w n f u p b = (false, w) := by
  obtain ⟨h1, h2⟩ := FindOrAdd_found w.Devices n (some d) h
  unfold AddDevice
  simp only [h1, h2]

/-- A name already in the device map is rejected without side effects: when the map holds a
valid device under the name `n`, `AddDevice` returns `false` and the whole state - device map
with the credentials of its devices, local device, config store, published events, guard
flag - is exactly what it was. -/
theorem AddDevice_duplicate_unchanged (env : FEnvironment) (w : TLinuxTargetPlatform)
    (n displayName user pass : FString) (isDefault : Bool) (d : FLinuxTargetDevice)
    (h : Lookup w.Devices n = some (some d)) :
    AddDevice env w n displayName user pass isDefault = (false, w) :=
  AddDevice_duplicate_lemma env w n displayName user pass isDefault d h

/-- A registry holding "box" in its map with credentials: adding "box" again with other
credentials changes nothing. -/
theorem AddDevice_duplicate_unchanged_witness :
    Lookup [("box", some (⟨"box", some ("ann", "pw")⟩ : FLinuxTargetDevice))] "box"
        = some (some ⟨"box", some ("ann", "pw")⟩) ∧
    AddDevice ⟨true, false, false, "Linux", "host", true⟩
        ⟨false, none, [("box", some ⟨"box", some ("ann", "pw")⟩)], false, [], ⟨[], [], []⟩⟩
        "box" "Box" "bob" "other" true
      = (false,
         ⟨false, none, [("box", some ⟨"box", some ("ann", "pw")⟩)], false, [], ⟨[], [], []⟩⟩) :=
  ⟨by decide,
   AddDevice_duplicate_unchanged ⟨true, false, false, "Linux", "host", true⟩
     ⟨false, none, [("box", some ⟨"box", some ("ann", "pw")⟩)], false, [], ⟨[], [], []⟩⟩
     "box" "Box" "bob" "other" true ⟨"box", some ("ann", "pw")⟩ (by decide)⟩

/-- C5, the code at the failing input: on a Linux host named "host" the constructor makes the
local device "host", so the registry holds a device named "host" (`GetAllDevices` lists it)
while its device map is empty.  `AddDevice("host", "Host", "ann", "pw", true)` is then not
rejected: it returns `true`, puts a second device "host" with the credentials into the map and
publishes it, where a duplicate was to return `false` and leave map and events as they
were. -/
theorem AddDevice_local_name_not_rejected :
    (Construct ⟨true, false, false, "Linux", "host", true⟩ ⟨[], [], []⟩ 1).map
        (fun w =>
          (w, GetAllDevices w [],
           AddDevice ⟨true, false, false, "Linux", "host", true⟩ w "host" "Host" "ann" "pw" true))
      = some
          (⟨false, some ⟨"host", none⟩, [], false, [], ⟨[], [], []⟩⟩,
           [some ⟨"host", none⟩],
           (true,
            ⟨false, some ⟨"host", none⟩, [("host", some ⟨"host", some ("ann", "pw")⟩)], false,
             [⟨"host", some ("ann", "pw")⟩], ⟨[], [], []⟩⟩)) := by
  decide

theorem AddDevice_new_clear (env : FEnvironment) (w : TLinuxTargetPlatform)
    (n f u p : FString) (b : Bool) (h : Lookup w.Devices n = none)
    (hflag : w.bChangingDeviceConfig = false) :
    AddDevice env w n f u p b
      = (true,
          { w with
            Devices := w.Devices ++ [(n, some ⟨n, SuppliedCredentials u p⟩)]
            DeviceDiscoveredEvent := w.DeviceDiscoveredEvent ++ [⟨n, SuppliedCredentials u p⟩]
            GConfig := ApplyWrites w.GConfig
              (SaveDevicesWrites env (w.Devices ++ [(n, some ⟨n, none⟩)]) 0
                ++ CredentialSaveWrites env w.Devices n u p) }) := by
  rw [AddDevice_new env w n f u p b h]
  obtain ⟨flag, loc, m, hdr, ev, cfg⟩ := w
  simp only at h hflag
  subst hflag
  by_cases hc : (!u.IsEmpty || !p.IsEmpty) = true
  · cases hn : env.bCredentialsNotify <;>
      simp [SaveDevicesToConfig, SetUserCredentials, Broadcast, SlotValue_append_last,
        AssignSlot_append_last, ApplyWrites_append, SuppliedCredentials, CredentialSaveWrites,
        hc, hn, ApplyWrites]
  · simp [SaveDevicesToConfig, Broadcast, SlotValue_append_last,
      SuppliedCredentials, CredentialSaveWrites, hc, ApplyWrites]

theorem SavedDevices_append_one (env : FEnvironment) (m : FDeviceMap) (k : FString)
    (d : FLinuxTargetDevice)
    (hkeep : ¬ (env.PLATFORM_LINUX = true ∧ d.DeviceName = env.ComputerName)) :
    SavedDevices env (m ++ [(k, some d)]) = SavedDevices env m ++ [d] := by
  rw [SavedDevices_append]
  simp only [SavedDevices, if_neg hkeep]

theorem GetString_saved_last (env : FEnvironment) (cfg : FConfigCacheIni) (m : FDeviceMap)
    (k : FString) (d : FLinuxTargetDevice)
    (hkeep : ¬ (env.PLATFORM_LINUX = true ∧ d.DeviceName = env.ComputerName)) :
    GetString (ApplyWrites cfg (SaveDevicesWrites env (m ++ [(k, some d)]) 0))
        (DeviceNameKey env (SavedDevices env m).length)
      = some d.DeviceName := by
  rw [SaveDevicesWrites_eq, SavedDevices_append_one env m k d hkeep,
    GetString_IndexedWrites_Name]
  simp

/-- C6: when the map holds no entry under the name `n`, `AddDevice` returns `true`; the map
afterwards is the old map followed by one entry for `n`, whose device carries the credentials
`(user, pass)` when at least one of them is non-empty (and none otherwise); exactly one
device, the new one, is appended to the published `DeviceDiscovered` events; the local device
and the guard flag are unchanged; and the config store is the one `SaveDevicesToConfig` leaves
when called on the state that already has the new device in the map (followed, with the flag
clear, by the writes of the save the credential callback triggers).  With the flag clear, a
new device that is not skipped as the local host is found in the store afterwards under the
`_Name` key of the next free index. -/
theorem AddDevice_success (env : FEnvironment) (w : TLinuxTargetPlatform)
    (n displayName user pass : FString) (isDefault : Bool)
    (h : Lookup w.Devices n = none) :
    (AddDevice env w n displayName user pass isDefault).1 = true ∧
    (AddDevice env w n displayName user pass isDefault).2.Devices
      = w.Devices ++ [(n, some ⟨n, SuppliedCredentials user pass⟩)] ∧
    ((user.IsEmpty = false ∨ pass.IsEmpty = false) →
      SuppliedCredentials user pass = some (user, pass)) ∧
    ((user.IsEmpty = true ∧ pass.IsEmpty = true) → SuppliedCredentials user pass = none) ∧
    (AddDevice env w n displayName user pass isDefault).2.DeviceDiscoveredEvent
      = w.DeviceDiscoveredEvent ++ [⟨n, SuppliedCredentials user pass⟩] ∧
    (AddDevice env w n displayName user pass isDefault).2.LocalDevice = w.LocalDevice ∧
    (AddDevice env w n displayName user pass isDefault).2.bChangingDeviceConfig
      = w.bChangingDeviceConfig ∧
    (AddDevice env w n displayName user pass isDefault).2.GConfig
      = ApplyWrites
          (SaveDevicesToConfig env
            { w with Devices := w.Devices ++ [(n, some ⟨n, none⟩)] }).GConfig
          (if w.bChangingDeviceConfig = true then []
           else CredentialSaveWrites env w.Devices n user pass) ∧
    (w.bChangingDeviceConfig = false →
      ¬ (env.PLATFORM_LINUX = true ∧ n = env.ComputerName) →
      GetString (AddDevice env w n displayName user pass isDefault).2.GConfig
          (DeviceNameKey env (SavedDevices env w.Devices).length) = some n) := by
  have hc1 : (user.IsEmpty = false ∨ pass.IsEmpty = false) →
      SuppliedCredentials user pass = some (user, pass) := by
    intro hne
    unfold SuppliedCredentials
    rcases hne with hne | hne <;> simp [hne]
  have hc2 : (user.IsEmpty = true ∧ pass.IsEmpty = true) →
      SuppliedCredentials user pass = none := by
    rintro ⟨h1, h2⟩
    simp [SuppliedCredentials, h1, h2]
  rcases Bool.eq_false_or_eq_true w.bChangingDeviceConfig with hflag | hflag
  swap
  · rw [AddDevice_new_clear env w n displayName user pass isDefault h hflag]
    refine ⟨rfl, rfl, hc1, hc2, rfl, rfl, rfl, ?_, ?_⟩
    · have hs := SaveDevicesToConfig_clear env
        { w with Devices := w.Devices ++ [(n, some ⟨n, none⟩)] } hflag
      rw [hs, if_neg (by simp [hflag])]
      simp [ApplyWrites_append]
    · intro _ hkeep
      simp only
      rw [ApplyWrites_append]
      unfold CredentialSaveWrites
      by_cases hcs : (!user.IsEmpty || !pass.IsEmpty) = true ∧ env.bCredentialsNotify = true
      · rw [if_pos hcs]
        exact GetString_saved_last env _ w.Devices n ⟨n, some (user, pass)⟩ hkeep
      · rw [if_neg hcs]
        exact GetString_saved_last env _ w.Devices n ⟨n, none⟩ hkeep
  · rw [AddDevice_new_guarded env w n displayName user pass isDefault h hflag]
    refine ⟨rfl, rfl, hc1, hc2, rfl, rfl, rfl, ?_, ?_⟩
    · have hs := SaveDevicesToConfig_guarded env
        { w with Devices := w.Devices ++ [(n, some ⟨n, none⟩)] } hflag
      rw [hs, if_pos hflag]
      rfl
    · intro hf
      rw [hflag] at hf
      cases hf

/-- Witness for C6: adding "box" with a user name to a registry that holds "old". -/
theorem AddDevice_success_witness :
    Lookup [("old", some (⟨"old", none⟩ : FLinuxTargetDevice))] "box" = none ∧
    AddDevice ⟨true, false, false, "Linux", "host", true⟩
        ⟨false, none, [("old", some ⟨"old", none⟩)], false, [], ⟨[], [], []⟩⟩
        "box" "Box" "ann" "" false
      = (true,
         ⟨false, none, [("old", some ⟨"old", none⟩), ("box", some ⟨"box", some ("ann", "")⟩)],
          false, [⟨"box", some ("ann", "")⟩],
          ⟨[("LinuxTargetPlatfrom_Linux_Device_0_Name", "old"),
            ("LinuxTargetPlatfrom_Linux_Device_1_Name", "box"),
            ("LinuxTargetPlatfrom_Linux_Device_1_User", "ann"),
            ("LinuxTargetPlatfrom_Linux_Device_1_Pass", "")], [], []⟩⟩) ∧
    (AddDevice ⟨true, false, false, "Linux", "host", true⟩
        ⟨false, none, [("old", some ⟨"old", none⟩)], false, [], ⟨[], [], []⟩⟩
        "box" "Box" "ann" "" false).1 = true :=
  ⟨by decide, by decide,
   (AddDevice_success ⟨true, false, false, "Linux", "host", true⟩
      ⟨false, none, [("old", some ⟨"old", none⟩)], false, [], ⟨[], [], []⟩⟩
      "box" "Box" "ann" "" false (by decide)).1⟩

/-- C4, the code at the failing input: on a Linux host named "host" the constructor makes the
local device "host"; `AddDevice("host")` twice then returns `true` and `false`, and
`GetAllDevices` lists two devices named "host": the local one and the added one. -/
theorem AddDevice_twice_local_name :
    (Construct ⟨true, false, false, "Linux", "host", true⟩ ⟨[], [], []⟩ 1).map
        (fun w =>
          ((AddDevice ⟨true, false, false, "Linux", "host", true⟩ w "host" "" "" "" false).1,
           (AddDevice ⟨true, false, false, "Linux", "host", true⟩
             (AddDevice ⟨true, false, false, "Linux", "host", true⟩ w
               "host" "" "" "" false).2 "host" "" "" "" false).1,
           GetAllDevices
             (AddDevice ⟨true, false, false, "Linux", "host", true⟩
               (AddDevice ⟨true, false, false, "Linux", "host", true⟩ w
                 "host" "" "" "" false).2 "host" "" "" "" false).2 []))
      = some (true, false, [some ⟨"host", none⟩, some ⟨"host", none⟩]) := by
  decide

/-! ## InitDevicesFromConfig -/

theorem CredentialsLoop_nomatch (env : FEnvironment) (name u p : FString) :
    ∀ (idx : List Nat) (w : TLinuxTargetPlatform),
      (∀ i ∈ idx, ∀ d, SlotValue w.Devices i = some d → d.DeviceName ≠ name) →
      CredentialsLoop env name u p idx w = w := by
  intro idx
  induction idx with
  | nil => intro w _; rfl
  | cons i idx ih =>
    intro w h
    unfold CredentialsLoop
    cases hv : SlotValue w.Devices i with
    | none => exact ih w (fun j hj => h j (List.mem_cons_of_mem _ hj))
    | some d =>
      simp only
      rw [if_neg (h i (List.mem_cons_self _ _) d hv)]
      exact ih w (fun j hj => h j (List.mem_cons_of_mem _ hj))

theorem CredentialsLoop_cons (env : FEnvironment) (name u p : FString) (i : Nat)
    (rest : List Nat) (w : TLinuxTargetPlatform) :
    CredentialsLoop env name u p (i :: rest) w
      = match SlotValue w.Devices i with
        | some d =>
          if d.DeviceName = name then
            CredentialsLoop env name u p rest (SetUserCredentials env w i u p)
          else CredentialsLoop env name u p rest w
        | none => CredentialsLoop env name u p rest w := rfl

theorem CredentialsLoop_append (env : FEnvironment) (name u p : FString) :
    ∀ (a b : List Nat) (w : TLinuxTargetPlatform),
      CredentialsLoop env name u p (a ++ b) w
        = CredentialsLoop env name u p b (CredentialsLoop env name u p a w) := by
  intro a
  induction a with
  | nil => intro b w; rfl
  | cons i a ih =>
    intro b w
    rw [List.cons_append, CredentialsLoop_cons, CredentialsLoop_cons]
    cases hv : SlotValue w.Devices i with
    | none => exact ih b w
    | some d =>
      simp only
      by_cases hd : d.DeviceName = name
      · rw [if_pos hd, if_pos hd]; exact ih b _
      · rw [if_neg hd, if_neg hd]; exact ih b _

theorem CredentialsLoop_new (env : FEnvironment) (w : TLinuxTargetPlatform) (m : FDeviceMap)
    (name u p : FString) (hflag : w.bChangingDeviceConfig = true)
    (hm : ValidMap m) (hnew : name ∉ m.map Prod.fst)
    (hdev : w.Devices = m ++ [(name, some ⟨name, none⟩)]) :
    CredentialsLoop env name u p (List.range w.Devices.length) w
      = { w with Devices := m ++ [(name, some ⟨name, some (u, p)⟩)] } := by
  have hlen : w.Devices.length = m.length + 1 := by simp [hdev]
  rw [hlen, List.range_succ, CredentialsLoop_append]
  have hfirst : CredentialsLoop env name u p (List.range m.length) w = w := by
    apply CredentialsLoop_nomatch
    intro i hi d hd hname
    rw [List.mem_range] at hi
    rw [hdev, SlotValue_append_left m _ i hi] at hd
    have := SlotValue_valid m hm i d hd
    rw [hname] at this
    exact hnew this
  rw [hfirst]
  unfold CredentialsLoop
  have hv : SlotValue w.Devices m.length = some ⟨name, none⟩ := by
    rw [hdev, SlotValue_append_last]
  rw [hv]
  simp only [if_true]
  rw [SetUserCredentials_last env w m name ⟨name, none⟩ u p hdev]
  unfold CredentialsLoop
  by_cases hn : env.bCredentialsNotify = true
  · rw [if_pos hn]
    exact SaveDevicesToConfig_guarded env _ hflag
  · rw [if_neg hn]

theorem InitDevicesLoop_step (env : FEnvironment) (w : TLinuxTargetPlatform) (N fuel : Nat)
    (d : FLinuxTargetDevice) (hflag : w.bChangingDeviceConfig = true)
    (hm : ValidMap w.Devices) (hnew : d.DeviceName ∉ w.Devices.map Prod.fst)
    (hname : GetString w.GConfig (DeviceNameKey env N) = some d.DeviceName)
    (hcred : StoredCredentials env w.GConfig N = d.Credentials) :
    InitDevicesLoop env (fuel + 1) N w = InitDevicesLoop env fuel (N + 1) (Loaded w [d]) := by
  have hlook : Lookup w.Devices d.DeviceName = none := (Lookup_none_iff _ _).2 hnew
  have hadd := AddDevice_new_guarded env w d.DeviceName "" "" "" false hlook hflag
  have hempty : ((!FString.IsEmpty "" || !FString.IsEmpty "") = true) = False := by
    simp [FString.IsEmpty]
  simp only [hempty, if_false] at hadd
  rw [InitDevicesLoop]
  simp only [hname, AddDevice2, hadd]
  rw [if_neg (by simp)]
  congr 1
  obtain ⟨dn, dc⟩ := d
  simp only at hnew hname hcred hlook
  unfold StoredCredentials at hcred
  cases hu : GetString w.GConfig (DeviceUserKey env N) with
  | none =>
    rw [hu] at hcred
    simp only at hcred
    subst hcred
    simp [Loaded, DeviceEntry]
  | some u =>
    rw [hu] at hcred
    cases hp : GetString w.GConfig (DevicePassKey env N) with
    | none =>
      rw [hp] at hcred
      simp only at hcred
      subst hcred
      simp [Loaded, DeviceEntry]
    | some p =>
      rw [hp] at hcred
      simp only at hcred
      subst hcred
      simp only
      rw [CredentialsLoop_new env
        { w with
          Devices := w.Devices ++ [(dn, some ⟨dn, none⟩)]
          DeviceDiscoveredEvent := w.DeviceDiscoveredEvent ++ [⟨dn, none⟩] }
        w.Devices dn u p hflag hm hnew rfl]
      simp [Loaded, DeviceEntry]

theorem InitDevicesLoop_stop_missing (env : FEnvironment) (w : TLinuxTargetPlatform)
    (N fuel : Nat) (h : GetString w.GConfig (DeviceNameKey env N) = none) :
    InitDevicesLoop env (fuel + 1) N w = some w := by
  rw [InitDevicesLoop]
  simp only [h]

theorem InitDevicesLoop_stop_duplicate (env : FEnvironment) (w : TLinuxTargetPlatform)
    (N fuel : Nat) (name : FString) (hm : ValidMap w.Devices)
    (h : GetString w.GConfig (DeviceNameKey env N) = some name)
    (hdup : name ∈ w.Devices.map Prod.fst) :
    InitDevicesLoop env (fuel + 1) N w = some w := by
  obtain ⟨d, hd⟩ := ValidMap_Lookup w.Devices hm name hdup
  rw [InitDevicesLoop]
  simp only [h, AddDevice2, AddDevice_duplicate_lemma env w name "" "" "" false d hd, if_true]

theorem Loaded_nil (w : TLinuxTargetPlatform) : Loaded w [] = w := by
  simp [Loaded]

theorem Loaded_cons (w : TLinuxTargetPlatform) (d : FLinuxTargetDevice)
    (ds : List FLinuxTargetDevice) : Loaded (Loaded w [d]) ds = Loaded w (d :: ds) := by
  simp [Loaded]

theorem InitDevicesLoop_run (env : FEnvironment) :
    ∀ (good : List FLinuxTargetDevice) (N : Nat) (w : TLinuxTargetPlatform),
      w.bChangingDeviceConfig = true → ValidMap w.Devices →
      (good.map (fun d => d.DeviceName)).Nodup →
      (∀ d ∈ good, d.DeviceName ∉ w.Devices.map Prod.fst) →
      (∀ i d, good[i]? = some d →
        GetString w.GConfig (DeviceNameKey env (N + i)) = some d.DeviceName ∧
        StoredCredentials env w.GConfig (N + i) = d.Credentials) →
      (GetString w.GConfig (DeviceNameKey env (N + good.length)) = none ∨
        ∃ name, GetString w.GConfig (DeviceNameKey env (N + good.length)) = some name ∧
          (name ∈ w.Devices.map Prod.fst ∨ name ∈ good.map (fun d => d.DeviceName))) →
      ∀ fuel, good.length < fuel → InitDevicesLoop env fuel N w = some (Loaded w good) := by
  intro good
  induction good with
  | nil =>
    intro N w _ hm _ _ _ hstop fuel hfuel
    obtain ⟨f, rfl⟩ : ∃ f, fuel = f + 1 := ⟨fuel - 1, by simp at hfuel; omega⟩
    rw [Loaded_nil]
    simp only [List.length_nil, Nat.add_zero, List.map_nil, List.not_mem_nil, or_false] at hstop
    rcases hstop with hstop | ⟨name, hname, hdup⟩
    · exact InitDevicesLoop_stop_missing env w N f hstop
    · exact InitDevicesLoop_stop_duplicate env w N f name hm hname hdup
  | cons d ds ih =>
    intro N w hflag hm hnd hnew hrec hstop fuel hfuel
    obtain ⟨f, rfl⟩ : ∃ f, fuel = f + 1 := ⟨fuel - 1, by simp at hfuel; omega⟩
    have hd0 := hrec 0 d (by simp)
    simp only [Nat.add_zero] at hd0
    have hdnew : d.DeviceName ∉ w.Devices.map Prod.fst := hnew d (List.mem_cons_self _ _)
    rw [InitDevicesLoop_step env w N f d hflag hm hdnew hd0.1 hd0.2,
      show Loaded w (d :: ds) = Loaded (Loaded w [d]) ds from (Loaded_cons w d ds).symm]
    have hdev : (Loaded w [d]).Devices = w.Devices ++ [DeviceEntry d] := by simp [Loaded]
    simp only [List.map_cons, List.nodup_cons] at hnd
    apply ih (N + 1) (Loaded w [d]) hflag
    · rw [hdev]; exact ValidMap_append _ hm d hdnew
    · exact hnd.2
    · intro e he
      rw [hdev, List.map_append, List.mem_append, not_or]
      refine ⟨hnew e (List.mem_cons_of_mem _ he), ?_⟩
      simp only [DeviceEntry, List.map_cons, List.map_nil, List.mem_singleton]
      intro heq
      apply hnd.1
      rw [← heq]
      exact List.mem_map.2 ⟨e, he, rfl⟩
    · intro i e he
      have := hrec (i + 1) e (by simpa using he)
      have harith : N + 1 + i = N + (i + 1) := by omega
      rw [harith]
      exact this
    · have harith : N + 1 + ds.length = N + (d :: ds).length := by
        simp only [List.length_cons]; omega
      rw [harith]
      rcases hstop with hstop | ⟨name, hname, hdup⟩
      · exact Or.inl hstop
      · refine Or.inr ⟨name, hname, ?_⟩
        rw [hdev, List.map_append, List.mem_append]
        simp only [DeviceEntry, List.map_cons, List.map_nil, List.mem_singleton]
        simp only [List.map_cons, List.mem_cons] at hdup
        tauto
    · simp only [List.length_cons] at hfuel; omega

theorem InitDevicesFromConfig_run (env : FEnvironment) (good : List FLinuxTargetDevice)
    (w : TLinuxTargetPlatform) (hflag : w.bChangingDeviceConfig = false)
    (hm : ValidMap w.Devices) (hnd : (good.map (fun d => d.DeviceName)).Nodup)
    (hnew : ∀ d ∈ good, d.DeviceName ∉ w.Devices.map Prod.fst)
    (hrec : ∀ i d, good[i]? = some d →
      GetString w.GConfig (DeviceNameKey env i) = some d.DeviceName ∧
      StoredCredentials env w.GConfig i = d.Credentials)
    (hstop : GetString w.GConfig (DeviceNameKey env good.length) = none ∨
      ∃ name, GetString w.GConfig (DeviceNameKey env good.length) = some name ∧
        (name ∈ w.Devices.map Prod.fst ∨ name ∈ good.map (fun d => d.DeviceName)))
    (fuel : Nat) (hfuel : good.length < fuel) :
    InitDevicesFromConfig env fuel w = some (Loaded w good) := by
  unfold InitDevicesFromConfig
  rw [if_neg (by simp [hflag])]
  have hrun := InitDevicesLoop_run env good 0 { w with bChangingDeviceConfig := true } rfl hm hnd
    hnew (by intro i d hd; simpa using hrec i d hd) (by simpa using hstop) fuel hfuel
  rw [hrun]
  obtain ⟨flag, loc, m, hdr, ev, cfg⟩ := w
  simp only at hflag
  subst hflag
  simp [Loaded]

theorem DistinctPrefix_spec :
    ∀ (l seen : List FString), ∃ rest,
      l = DistinctPrefix seen l ++ rest ∧ (DistinctPrefix seen l).Nodup ∧
      (∀ x ∈ DistinctPrefix seen l, x ∉ seen) ∧
      (rest = [] ∨ ∃ x tail, rest = x :: tail ∧ (x ∈ seen ∨ x ∈ DistinctPrefix seen l)) := by
  intro l
  induction l with
  | nil => intro seen; exact ⟨[], by simp [DistinctPrefix]⟩
  | cons a l ih =>
    intro seen
    by_cases ha : a ∈ seen
    · refine ⟨a :: l, ?_, ?_, ?_, Or.inr ⟨a, l, rfl, Or.inl ha⟩⟩ <;>
        simp [DistinctPrefix, ha]
    · obtain ⟨rest, hsplit, hnd, hseen, hstop⟩ := ih (seen ++ [a])
      have hdp : DistinctPrefix seen (a :: l) = a :: DistinctPrefix (seen ++ [a]) l := by
        simp [DistinctPrefix, ha]
      rw [hdp]
      refine ⟨rest, ?_, ?_, ?_, ?_⟩
      · rw [List.cons_append, ← hsplit]
      · rw [List.nodup_cons]
        refine ⟨fun hin => ?_, hnd⟩
        exact hseen a hin (by simp)
      · intro x hx
        rw [List.mem_cons] at hx
        rcases hx with hx | hx
        · subst hx; exact ha
        · intro hxs
          exact hseen x hx (by simp [hxs])
      · rcases hstop with hstop | ⟨x, tail, hrest, hx⟩
        · exact Or.inl hstop
        · refine Or.inr ⟨x, tail, hrest, ?_⟩
          rw [List.mem_cons]
          rcases hx with hx | hx
          · rw [List.mem_append, List.mem_singleton] at hx
            rcases hx with hx | hx
            · exact Or.inl hx
            · exact Or.inr (Or.inl hx)
          · exact Or.inr (Or.inr hx)

theorem StoredDevices_names (env : FEnvironment) (cfg : FConfigCacheIni) :
    ∀ (l : List FString) (N : Nat),
      (StoredDevices env cfg N l).map (fun d => d.DeviceName) = l := by
  intro l
  induction l with
  | nil => intro N; rfl
  | cons a l ih => intro N; simp [StoredDevices, ih]

theorem StoredDevices_get (env : FEnvironment) (cfg : FConfigCacheIni) :
    ∀ (l : List FString) (N i : Nat) (d : FLinuxTargetDevice),
      (StoredDevices env cfg N l)[i]? = some d →
      l[i]? = some d.DeviceName ∧ d.Credentials = StoredCredentials env cfg (N + i) := by
  intro l
  induction l with
  | nil => intro N i d h; simp [StoredDevices] at h
  | cons a l ih =>
    intro N i d h
    cases i with
    | zero =>
      simp only [StoredDevices, List.getElem?_cons_zero, Option.some.injEq] at h
      subst h
      simp
    | succ i =>
      simp only [StoredDevices, List.getElem?_cons_succ] at h
      have := ih (N + 1) i d h
      have harith : N + (i + 1) = N + 1 + i := by omega
      rw [harith]
      simpa using this

theorem ValidMap_DeviceEntry (ds : List FLinuxTargetDevice)
    (hnd : (ds.map (fun d => d.DeviceName)).Nodup) : ValidMap (ds.map DeviceEntry) := by
  constructor
  · rw [List.map_map]
    exact hnd
  · intro e he
    obtain ⟨d, _, rfl⟩ := List.mem_map.1 he
    exact ⟨d, rfl, rfl⟩

theorem ValidMap_nil : ValidMap [] := by
  constructor
  · simp
  · intro e he; cases he

/-- C7, as amended: let `names` be the names stored under the `_Name` keys of the indices
`0..k-1`, where `k = names.length` is the first index whose `_Name` key is missing.  The load
of a freshly constructed registry returns (given more than `k` iterations of fuel), and the
map then holds, in index order, exactly the stored names up to the first one that repeats a
name stored at a lower index, each with a valid device of that name carrying the credentials
stored at its index.  So every name stored at `0..k-1` is loaded when those names are pairwise
different, and no name stored only at indices above `k` is ever loaded.  The store is left as
it was and the guard flag is clear again. -/
theorem InitDevicesFromConfig_loads (env : FEnvironment) (cfg : FConfigCacheIni)
    (names : List FString) (fuel : Nat)
    (hnames : ∀ i, i < names.length → GetString cfg (DeviceNameKey env i) = names[i]?)
    (hk : GetString cfg (DeviceNameKey env names.length) = none)
    (hfuel : names.length < fuel) :
    ∃ w, InitDevicesFromConfig env fuel (InitialPlatform env cfg) = some w ∧
      w.Devices = (StoredDevices env cfg 0 (DistinctPrefix [] names)).map DeviceEntry ∧
      w.Devices.map Prod.fst = DistinctPrefix [] names ∧
      ValidMap w.Devices ∧
      (names.Nodup → w.Devices.map Prod.fst = names) ∧
      (∀ name, name ∈ w.Devices.map Prod.fst → name ∈ names) ∧
      w.GConfig = cfg ∧ w.bChangingDeviceConfig = false := by
  obtain ⟨rest, hsplit, hnd, _, hstop⟩ := DistinctPrefix_spec names []
  have hgoodnames := StoredDevices_names env cfg (DistinctPrefix [] names) 0
  have hlen : (StoredDevices env cfg 0 (DistinctPrefix [] names)).length
      = (DistinctPrefix [] names).length := by
    have := congrArg List.length hgoodnames
    simpa using this
  have hle : (DistinctPrefix [] names).length ≤ names.length := by
    have := congrArg List.length hsplit
    rw [List.length_append] at this
    omega
  have hrun := InitDevicesFromConfig_run env (StoredDevices env cfg 0 (DistinctPrefix [] names))
    (InitialPlatform env cfg) rfl ValidMap_nil (by rw [hgoodnames]; exact hnd)
    (by intro d _; simp [InitialPlatform])
    (by
      intro i d hd
      obtain ⟨h1, h2⟩ := StoredDevices_get env cfg _ 0 i d hd
      have hi : i < (DistinctPrefix [] names).length := by
        by_contra hcon
        rw [List.getElem?_eq_none (by omega)] at h1
        cases h1
      have h4 : ∀ pre : List FString, names = pre ++ rest → i < pre.length →
          names[i]? = pre[i]? := by
        intro pre hp hip
        rw [hp, List.getElem?_append_left hip]
      have h3 : names[i]? = some d.DeviceName := by
        rw [h4 _ hsplit hi]
        exact h1
      refine ⟨?_, ?_⟩
      · show GetString cfg (DeviceNameKey env i) = some d.DeviceName
        rw [hnames i (by omega), h3]
      · show StoredCredentials env cfg i = d.Credentials
        rw [h2, Nat.zero_add])
    (by
      rw [hlen, hgoodnames]
      show GetString cfg _ = none ∨ ∃ name, GetString cfg _ = some name ∧ _
      rcases hstop with hstop | ⟨x, tail, hrest, hx⟩
      · left
        rw [hstop, List.append_nil] at hsplit
        have hl : (DistinctPrefix [] names).length = names.length := by
          exact (congrArg List.length hsplit).symm
        rw [hl]
        exact hk
      · right
        have hlt : (DistinctPrefix [] names).length < names.length := by
          have := congrArg List.length hsplit
          rw [List.length_append, hrest, List.length_cons] at this
          omega
        have hx1 : ∀ pre : List FString, names = pre ++ rest →
            names[pre.length]? = some x := by
          intro pre hp
          rw [hp, List.getElem?_append_right (le_refl _), hrest]
          simp
        have hx2 := hx1 _ hsplit
        refine ⟨x, by rw [hnames _ hlt, hx2], Or.inr ?_⟩
        simpa using hx)
    fuel (by omega)
  refine ⟨_, hrun, ?_, ?_, ?_, ?_, ?_, rfl, rfl⟩
  · simp [Loaded, InitialPlatform]
  · simp only [Loaded, InitialPlatform, List.nil_append, List.map_map]
    exact hgoodnames
  · simp only [Loaded, InitialPlatform, List.nil_append]
    exact ValidMap_DeviceEntry _ (by rw [hgoodnames]; exact hnd)
  · intro hnodup
    simp only [Loaded, InitialPlatform, List.nil_append, List.map_map]
    refine Eq.trans hgoodnames ?_
    rcases hstop with hstop | ⟨x, tail, hrest, hx⟩
    · rw [hstop, List.append_nil] at hsplit
      exact hsplit.symm
    · exfalso
      have hx3 : x ∈ DistinctPrefix [] names := by simpa using hx
      have hnodup2 : (DistinctPrefix [] names ++ x :: tail).Nodup := by
        rw [← hrest, ← hsplit]
        exact hnodup
      exact (List.nodup_append.1 hnodup2).2.2 hx3 (List.mem_cons_self _ _)
  · intro name hname
    simp only [Loaded, InitialPlatform, List.nil_append, List.map_map] at hname
    have hname2 : name ∈ DistinctPrefix [] names := by
      rw [← hgoodnames]
      exact hname
    have hsub : ∀ pre : List FString, names = pre ++ rest → name ∈ pre → name ∈ names := by
      intro pre hp hin
      rw [hp]
      exact List.mem_append_left _ hin
    exact hsub _ hsplit hname2

/-- Witness for C7: two stored devices, the second with credentials, and a stale record at
index 3 above the first missing index 2. -/
theorem InitDevicesFromConfig_loads_witness :
    ∃ w, InitDevicesFromConfig ⟨true, false, false, "Linux", "host", true⟩ 3
        (InitialPlatform ⟨true, false, false, "Linux", "host", true⟩
          ⟨[("LinuxTargetPlatfrom_Linux_Device_0_Name", "a"),
            ("LinuxTargetPlatfrom_Linux_Device_1_Name", "b"),
            ("LinuxTargetPlatfrom_Linux_Device_1_User", "ann"),
            ("LinuxTargetPlatfrom_Linux_Device_1_Pass", "pw"),
            ("LinuxTargetPlatfrom_Linux_Device_3_Name", "c")], [], []⟩) = some w ∧
      w.Devices = [("a", some ⟨"a", none⟩), ("b", some ⟨"b", some ("ann", "pw")⟩)] :=
  (InitDevicesFromConfig_loads ⟨true, false, false, "Linux", "host", true⟩
      ⟨[("LinuxTargetPlatfrom_Linux_Device_0_Name", "a"),
        ("LinuxTargetPlatfrom_Linux_Device_1_Name", "b"),
        ("LinuxTargetPlatfrom_Linux_Device_1_User", "ann"),
        ("LinuxTargetPlatfrom_Linux_Device_1_Pass", "pw"),
        ("LinuxTargetPlatfrom_Linux_Device_3_Name", "c")], [], []⟩ ["a", "b"] 3
      (by decide) (by decide) (by decide)).imp
    (fun _ hw => ⟨hw.1, hw.2.1.trans (by decide)⟩)

/-- C7 as stated fails: the store holds the names "a", "a", "b" at the indices 0, 1, 2 and
index 3 is the first missing one, but the load breaks at index 1, where `AddDevice` rejects
the repeated "a", so "b", stored at index 2 below the first missing index, is not loaded. -/
theorem InitDevicesFromConfig_stops_at_repeat :
    GetString ⟨[("LinuxTargetPlatfrom_Linux_Device_0_Name", "a"),
        ("LinuxTargetPlatfrom_Linux_Device_1_Name", "a"),
        ("LinuxTargetPlatfrom_Linux_Device_2_Name", "b")], [], []⟩
      (DeviceNameKey ⟨true, false, false, "Linux", "host", true⟩ 2) = some "b" ∧
    GetString ⟨[("LinuxTargetPlatfrom_Linux_Device_0_Name", "a"),
        ("LinuxTargetPlatfrom_Linux_Device_1_Name", "a"),
        ("LinuxTargetPlatfrom_Linux_Device_2_Name", "b")], [], []⟩
      (DeviceNameKey ⟨true, false, false, "Linux", "host", true⟩ 3) = none ∧
    (InitDevicesFromConfig ⟨true, false, false, "Linux", "host", true⟩ 4
        (InitialPlatform ⟨true, false, false, "Linux", "host", true⟩
          ⟨[("LinuxTargetPlatfrom_Linux_Device_0_Name", "a"),
            ("LinuxTargetPlatfrom_Linux_Device_1_Name", "a"),
            ("LinuxTargetPlatfrom_Linux_Device_2_Name", "b")], [], []⟩)).map
      (fun w => w.Devices.map Prod.fst) = some ["a"] := by
  decide

/-! ## The writes of a save -/

theorem mem_DeviceWrites (env : FEnvironment) (N : Nat) (d : FLinuxTargetDevice)
    (kv : FString × FString) :
    kv ∈ DeviceWrites env N d ↔
      kv = (DeviceNameKey env N, d.DeviceName) ∨
      ∃ u p, d.Credentials = some (u, p) ∧
        (kv = (DeviceUserKey env N, u) ∨ kv = (DevicePassKey env N, p)) := by
  unfold DeviceWrites
  cases hc : d.Credentials with
  | none => simp
  | some c =>
    obtain ⟨u, p⟩ := c
    simp only [List.mem_cons, List.mem_singleton, List.not_mem_nil, or_false,
      Option.some.injEq, Prod.mk.injEq]
    constructor
    · rintro (h | h)
      · exact Or.inl h
      · exact Or.inr ⟨u, p, ⟨rfl, rfl⟩, h⟩
    · rintro (h | ⟨u1, p1, ⟨rfl, rfl⟩, h⟩)
      · exact Or.inl h
      · exact Or.inr h

theorem mem_IndexedWrites (env : FEnvironment) (kv : FString × FString) :
    ∀ (ds : List FLinuxTargetDevice) (N : Nat),
      kv ∈ IndexedWrites env N ds ↔
        ∃ i d, ds[i]? = some d ∧ kv ∈ DeviceWrites env (N + i) d := by
  intro ds
  induction ds with
  | nil => intro N; simp [IndexedWrites]
  | cons d ds ih =>
    intro N
    rw [IndexedWrites, List.mem_append, ih]
    constructor
    · rintro (h | ⟨i, e, he, hkv⟩)
      · exact ⟨0, d, by simp, by simpa using h⟩
      · refine ⟨i + 1, e, by simpa using he, ?_⟩
        have harith : N + (i + 1) = N + 1 + i := by omega
        rw [harith]
        exact hkv
    · rintro ⟨i, e, he, hkv⟩
      cases i with
      | zero =>
        simp only [List.getElem?_cons_zero, Option.some.injEq] at he
        subst he
        exact Or.inl (by simpa using hkv)
      | succ i =>
        refine Or.inr ⟨i, e, by simpa using he, ?_⟩
        have harith : N + (i + 1) = N + 1 + i := by omega
        rw [← harith]
        exact hkv

theorem HostDistinctCount_eq (env : FEnvironment) (hlinux : env.PLATFORM_LINUX = true) :
    ∀ m : FDeviceMap, (SavedDevices env m).length = HostDistinctCount env m := by
  intro m
  induction m with
  | nil => rfl
  | cons e m ih =>
    obtain ⟨k, p⟩ := e
    cases p with
    | none => simpa [SavedDevices, HostDistinctCount] using ih
    | some d =>
      by_cases hd : d.DeviceName = env.ComputerName
      · simp [SavedDevices, HostDistinctCount, hd, hlinux, ih]
      · simp [SavedDevices, HostDistinctCount, hd, ih]

/-- C8, as amended: with the guard flag clear, `SaveDevicesToConfig` applies to the store the
writes of its loop, and these use contiguous indices: with `count` the number of valid devices
of the map that are not skipped - a device is skipped only when the build is for a Linux host
and its name is the host's computer name, so on a Linux host `count` is the number of devices
whose name differs from the host's - a `_Name` key is written for exactly the indices
`0..count-1`, index `i` carrying the name of the `i`-th such device in map iteration order,
and a `_Pass` key is written only for an index for which a `_User` key is written. -/
theorem SaveDevicesToConfig_contiguous (env : FEnvironment) (w : TLinuxTargetPlatform)
    (hflag : w.bChangingDeviceConfig = false) :
    (SaveDevicesToConfig env w).GConfig
      = ApplyWrites w.GConfig (SaveDevicesWrites env w.Devices 0) ∧
    (∀ N, DeviceNameKey env N ∈ (SaveDevicesWrites env w.Devices 0).map Prod.fst ↔
      N < (SavedDevices env w.Devices).length) ∧
    (∀ N v, (DeviceNameKey env N, v) ∈ SaveDevicesWrites env w.Devices 0 ↔
      ∃ d, (SavedDevices env w.Devices)[N]? = some d ∧ v = d.DeviceName) ∧
    (∀ N, DevicePassKey env N ∈ (SaveDevicesWrites env w.Devices 0).map Prod.fst →
      DeviceUserKey env N ∈ (SaveDevicesWrites env w.Devices 0).map Prod.fst) ∧
    (env.PLATFORM_LINUX = true →
      (SavedDevices env w.Devices).length = HostDistinctCount env w.Devices) := by
  have hname : ∀ N v, (DeviceNameKey env N, v) ∈ SaveDevicesWrites env w.Devices 0 ↔
      ∃ d, (SavedDevices env w.Devices)[N]? = some d ∧ v = d.DeviceName := by
    intro N v
    rw [SaveDevicesWrites_eq, mem_IndexedWrites]
    constructor
    · rintro ⟨i, d, hd, hkv⟩
      rw [Nat.zero_add, mem_DeviceWrites] at hkv
      rcases hkv with hkv | ⟨u, p, _, hkv | hkv⟩
      · have h1 := congrArg Prod.fst hkv
        have h2 := congrArg Prod.snd hkv
        simp only at h1 h2
        have := NameKey_inj env N i h1
        subst this
        exact ⟨d, hd, h2⟩
      · exact absurd (congrArg Prod.fst hkv) (NameKey_ne_UserKey env N i)
      · exact absurd (congrArg Prod.fst hkv) (NameKey_ne_PassKey env N i)
    · rintro ⟨d, hd, rfl⟩
      refine ⟨N, d, hd, ?_⟩
      rw [Nat.zero_add, mem_DeviceWrites]
      exact Or.inl rfl
  refine ⟨?_, ?_, hname, ?_, fun hl => HostDistinctCount_eq env hl w.Devices⟩
  · rw [SaveDevicesToConfig_clear env w hflag]
  · intro N
    rw [List.mem_map]
    constructor
    · rintro ⟨⟨k, v⟩, hkv, hk⟩
      simp only at hk
      subst hk
      obtain ⟨d, hd, _⟩ := (hname N v).1 hkv
      by_contra hcon
      rw [List.getElem?_eq_none (by omega)] at hd
      cases hd
    · intro hN
      refine ⟨(DeviceNameKey env N, ((SavedDevices env w.Devices)[N]).DeviceName), ?_, rfl⟩
      exact (hname N _).2 ⟨_, List.getElem?_eq_getElem hN, rfl⟩
  · intro N
    rw [List.mem_map, List.mem_map]
    rintro ⟨⟨k, v⟩, hkv, hk⟩
    simp only at hk
    subst hk
    rw [SaveDevicesWrites_eq, mem_IndexedWrites] at hkv
    obtain ⟨i, d, hd, hkv⟩ := hkv
    rw [Nat.zero_add, mem_DeviceWrites] at hkv
    rcases hkv with hkv | ⟨u, p, hc, hkv | hkv⟩
    · exact absurd (congrArg Prod.fst hkv).symm (NameKey_ne_PassKey env i N)
    · exact absurd (congrArg Prod.fst hkv).symm (UserKey_ne_PassKey env i N)
    · have h1 := congrArg Prod.fst hkv
      simp only at h1
      have := PassKey_inj env N i h1
      subst this
      refine ⟨(DeviceUserKey env N, u), ?_, rfl⟩
      rw [SaveDevicesWrites_eq, mem_IndexedWrites]
      refine ⟨N, d, hd, ?_⟩
      rw [Nat.zero_add, mem_DeviceWrites]
      exact Or.inr ⟨u, p, hc, Or.inl rfl⟩

/-- Witness for C8: a Linux host "host" whose map holds the host-named device between two
others; the two others are written at the indices 0 and 1. -/
theorem SaveDevicesToConfig_contiguous_witness :
    (SaveDevicesToConfig ⟨true, false, false, "Linux", "host", true⟩
        ⟨false, none,
         [("a", some ⟨"a", none⟩), ("host", some ⟨"host", none⟩),
          ("b", some ⟨"b", some ("ann", "pw")⟩)], false, [], ⟨[], [], []⟩⟩).GConfig
      = ⟨[("LinuxTargetPlatfrom_Linux_Device_0_Name", "a"),
          ("LinuxTargetPlatfrom_Linux_Device_1_Name", "b"),
          ("LinuxTargetPlatfrom_Linux_Device_1_User", "ann"),
          ("LinuxTargetPlatfrom_Linux_Device_1_Pass", "pw")], [], []⟩ ∧
    (SavedDevices ⟨true, false, false, "Linux", "host", true⟩
        [("a", some ⟨"a", none⟩), ("host", some ⟨"host", none⟩),
          ("b", some ⟨"b", some ("ann", "pw")⟩)]).length
      = HostDistinctCount ⟨true, false, false, "Linux", "host", true⟩
        [("a", some ⟨"a", none⟩), ("host", some ⟨"host", none⟩),
          ("b", some ⟨"b", some ("ann", "pw")⟩)] :=
  ⟨by decide,
   (SaveDevicesToConfig_contiguous ⟨true, false, false, "Linux", "host", true⟩
      ⟨false, none,
       [("a", some ⟨"a", none⟩), ("host", some ⟨"host", none⟩),
        ("b", some ⟨"b", some ("ann", "pw")⟩)], false, [], ⟨[], [], []⟩⟩
      (by decide)).2.2.2.2 (by decide)⟩

/-- C8 as stated fails: in a build that is not for a Linux host (`PLATFORM_LINUX` is 0, the
cross-compiling case) the test of line 581 never skips, so with the host named "host" and a
map holding only a device named "host" the number of devices whose name differs from the
host's is 0, yet the save writes the `_Name` key of index 0. -/
theorem SaveDevicesToConfig_writes_host_name_off_linux :
    HostDistinctCount ⟨false, false, false, "Linux", "host", true⟩
        [("host", some ⟨"host", none⟩)] = 0 ∧
    SaveDevicesWrites ⟨false, false, false, "Linux", "host", true⟩
        [("host", some ⟨"host", none⟩)] 0
      = [(DeviceNameKey ⟨false, false, false, "Linux", "host", true⟩ 0, "host")] ∧
    (SaveDevicesToConfig ⟨false, false, false, "Linux", "host", true⟩
        ⟨false, none, [("host", some ⟨"host", none⟩)], false, [], ⟨[], [], []⟩⟩).GConfig
      = ⟨[("LinuxTargetPlatfrom_Linux_Device_0_Name", "host")], [], []⟩ := by
  decide

theorem SavedDevices_not_skipped (env : FEnvironment) :
    ∀ (m : FDeviceMap) (d : FLinuxTargetDevice), d ∈ SavedDevices env m →
      ¬ (env.PLATFORM_LINUX = true ∧ d.DeviceName = env.ComputerName) := by
  intro m
  induction m with
  | nil => intro d hd; simp [SavedDevices] at hd
  | cons e m ih =>
    intro d hd
    obtain ⟨k, p⟩ := e
    cases p with
    | none => exact ih d (by simpa [SavedDevices] using hd)
    | some d1 =>
      by_cases hskip : env.PLATFORM_LINUX = true ∧ d1.DeviceName = env.ComputerName
      · simp only [SavedDevices, if_pos hskip] at hd
        exact ih d hd
      · simp only [SavedDevices, if_neg hskip, List.mem_cons] at hd
        rcases hd with hd | hd
        · subst hd; exact hskip
        · exact ih d hd

/-- C9, as amended: in a build for a Linux host, `SaveDevicesToConfig` never writes a `_Name`
record whose value is the host's computer name, whatever the registry state and the store; so
a `_Name` record with that value found in the store after the save was already there, under
the same key, before it. -/
theorem SaveDevicesToConfig_excludes_host (env : FEnvironment) (w : TLinuxTargetPlatform)
    (hlinux : env.PLATFORM_LINUX = true) :
    (∀ N, (DeviceNameKey env N, env.ComputerName) ∉ SaveDevicesWrites env w.Devices 0) ∧
    (∀ N, GetString (SaveDevicesToConfig env w).GConfig (DeviceNameKey env N)
        = some env.ComputerName →
      GetString w.GConfig (DeviceNameKey env N) = some env.ComputerName) := by
  constructor
  · intro N hmem
    rw [SaveDevicesWrites_eq, mem_IndexedWrites] at hmem
    obtain ⟨i, d, hd, hkv⟩ := hmem
    rw [Nat.zero_add, mem_DeviceWrites] at hkv
    rcases hkv with hkv | ⟨u, p, _, hkv | hkv⟩
    · have h2 := congrArg Prod.snd hkv
      simp only at h2
      exact SavedDevices_not_skipped env w.Devices d (List.getElem?_mem hd) ⟨hlinux, h2.symm⟩
    · exact absurd (congrArg Prod.fst hkv) (NameKey_ne_UserKey env N i)
    · exact absurd (congrArg Prod.fst hkv) (NameKey_ne_PassKey env N i)
  · intro N hafter
    rcases Bool.eq_false_or_eq_true w.bChangingDeviceConfig with hflag | hflag
    · rw [SaveDevicesToConfig_guarded env w hflag] at hafter
      exact hafter
    · rw [SaveDevicesToConfig_clear env w hflag] at hafter
      simp only at hafter
      rw [SaveDevicesWrites_eq, GetString_IndexedWrites_Name] at hafter
      simp only [Nat.zero_le, if_true, Nat.sub_zero] at hafter
      cases hd : (SavedDevices env w.Devices)[N]? with
      | none =>
        rw [hd] at hafter
        exact hafter
      | some d =>
        rw [hd] at hafter
        simp only [Option.some.injEq] at hafter
        exact absurd ⟨hlinux, hafter⟩
          (SavedDevices_not_skipped env w.Devices d (List.getElem?_mem hd))

/-- Witness for C9: a Linux host "host" whose map holds "a" and a host-named device, saved to
an empty store. -/
theorem SaveDevicesToConfig_excludes_host_witness :
    (SaveDevicesToConfig ⟨true, false, false, "Linux", "host", true⟩
        ⟨false, some ⟨"host", none⟩,
         [("host", some ⟨"host", none⟩), ("a", some ⟨"a", none⟩)], false, [],
         ⟨[], [], []⟩⟩).GConfig
      = ⟨[("LinuxTargetPlatfrom_Linux_Device_0_Name", "a")], [], []⟩ ∧
    ∀ N, (DeviceNameKey ⟨true, false, false, "Linux", "host", true⟩ N, "host") ∉
      SaveDevicesWrites ⟨true, false, false, "Linux", "host", true⟩
        [("host", some ⟨"host", none⟩), ("a", some ⟨"a", none⟩)] 0 :=
  ⟨by decide,
   (SaveDevicesToConfig_excludes_host ⟨true, false, false, "Linux", "host", true⟩
      ⟨false, some ⟨"host", none⟩,
       [("host", some ⟨"host", none⟩), ("a", some ⟨"a", none⟩)], false, [],
       ⟨[], [], []⟩⟩ (by decide)).1⟩

/-- C9 as stated fails: the store holds "a" at index 0 and the host's name "host" at index 1
(a record written on another machine); the registry constructed from it on the Linux host
"host" loads both, and its save rewrites index 0 only, so after the save the `_Name` record
of index 1 still has the host's computer name as its value. -/
theorem SaveDevicesToConfig_keeps_stale_host_record :
    (Construct ⟨true, false, false, "Linux", "host", true⟩
        ⟨[("LinuxTargetPlatfrom_Linux_Device_0_Name", "a"),
          ("LinuxTargetPlatfrom_Linux_Device_1_Name", "host")], [], []⟩ 3).map
      (fun w =>
        (w.Devices.map Prod.fst,
         SaveDevicesWrites ⟨true, false, false, "Linux", "host", true⟩ w.Devices 0,
         GetString (SaveDevicesToConfig ⟨true, false, false, "Linux", "host", true⟩ w).GConfig
           (DeviceNameKey ⟨true, false, false, "Linux", "host", true⟩ 1)))
      = some (["a", "host"], [("LinuxTargetPlatfrom_Linux_Device_0_Name", "a")],
          some "host") := by
  decide

/-! ## Save, load, save -/

theorem SavedDevices_names_sublist (env : FEnvironment) :
    ∀ m : FDeviceMap, ValidMap m →
      ((SavedDevices env m).map (fun d => d.DeviceName)).Sublist (m.map Prod.fst) := by
  intro m
  induction m with
  | nil => intro _; simp [SavedDevices]
  | cons e m ih =>
    intro hm
    have htail := ih (ValidMap_tail e m hm)
    obtain ⟨d1, hd1, hname⟩ := hm.2 e (List.mem_cons_self _ _)
    obtain ⟨k, p⟩ := e
    simp only at hd1 hname
    subst hd1
    subst hname
    by_cases hskip : env.PLATFORM_LINUX = true ∧ d1.DeviceName = env.ComputerName
    · simp only [SavedDevices, if_pos hskip, List.map_cons]
      exact htail.cons _
    · simp only [SavedDevices, if_neg hskip, List.map_cons]
      exact htail.cons₂ _

theorem SavedDevices_length_le (env : FEnvironment) :
    ∀ m : FDeviceMap, (SavedDevices env m).length ≤ m.length := by
  intro m
  induction m with
  | nil => simp [SavedDevices]
  | cons e m ih =>
    obtain ⟨k, p⟩ := e
    cases p with
    | none => simp only [SavedDevices, List.length_cons]; omega
    | some d =>
      by_cases hskip : env.PLATFORM_LINUX = true ∧ d.DeviceName = env.ComputerName
      · simp only [SavedDevices, if_pos hskip, List.length_cons]; omega
      · simp only [SavedDevices, if_neg hskip, List.length_cons]; omega

theorem SavedDevices_DeviceEntry (env : FEnvironment) :
    ∀ ds : List FLinuxTargetDevice,
      (∀ d ∈ ds, ¬ (env.PLATFORM_LINUX = true ∧ d.DeviceName = env.ComputerName)) →
      SavedDevices env (ds.map DeviceEntry) = ds := by
  intro ds
  induction ds with
  | nil => intro _; rfl
  | cons d ds ih =>
    intro h
    have hd := h d (List.mem_cons_self _ _)
    have htail := ih (fun x hx => h x (List.mem_cons_of_mem _ hx))
    show SavedDevices env ((d.DeviceName, some d) :: ds.map DeviceEntry) = d :: ds
    simp only [SavedDevices, if_neg hd, htail]

theorem ApplyWrites_noop :
    ∀ (ws : List (FString × FString)) (cfg : FConfigCacheIni),
      (∀ kv ∈ ws, GetString cfg kv.1 = some kv.2) → ApplyWrites cfg ws = cfg := by
  intro ws
  induction ws with
  | nil => intro cfg _; rfl
  | cons kv ws ih =>
    intro cfg h
    have h1 : ApplyWrites cfg (kv :: ws) = ApplyWrites (SetString cfg kv.1 kv.2) ws := rfl
    have h2 : SetString cfg kv.1 kv.2 = cfg := by
      unfold SetString
      rw [Store_same_value _ _ _ (h kv (List.mem_cons_self _ _))]
    rw [h1, h2]
    exact ih cfg (fun x hx => h x (List.mem_cons_of_mem _ hx))

theorem GetString_saved_writes (env : FEnvironment) (cfg : FConfigCacheIni)
    (ds : List FLinuxTargetDevice) (kv : FString × FString)
    (hkv : kv ∈ IndexedWrites env 0 ds) :
    GetString (ApplyWrites cfg (IndexedWrites env 0 ds)) kv.1 = some kv.2 := by
  rw [mem_IndexedWrites] at hkv
  obtain ⟨i, d, hd, hmem⟩ := hkv
  rw [Nat.zero_add, mem_DeviceWrites] at hmem
  rcases hmem with hmem | ⟨u, p, hc, hmem | hmem⟩
  · subst hmem
    simp only
    rw [GetString_IndexedWrites_Name]
    simp [hd]
  · subst hmem
    simp only
    rw [GetString_IndexedWrites_User]
    simp [hd, hc]
  · subst hmem
    simp only
    rw [GetString_IndexedWrites_Pass]
    simp [hd, hc]

theorem StoredCredentials_after_save (env : FEnvironment) (cfg : FConfigCacheIni)
    (ds : List FLinuxTargetDevice) (i : Nat) (d : FLinuxTargetDevice)
    (hd : ds[i]? = some d)
    (hstale : d.Credentials = none → StoredCredentials env cfg i = none) :
    StoredCredentials env (ApplyWrites cfg (IndexedWrites env 0 ds)) i = d.Credentials := by
  unfold StoredCredentials
  rw [GetString_IndexedWrites_User, GetString_IndexedWrites_Pass]
  simp only [Nat.zero_le, if_true, Nat.sub_zero, hd, Option.some_bind]
  cases hc : d.Credentials with
  | some c => simp
  | none =>
    have := hstale hc
    unfold StoredCredentials at this
    simpa using this

/-- C10, as amended: take a registry with the guard flag clear and a device map as `AddDevice`
builds it (keys pairwise different, each slot a valid device named as its key), and a config
store that holds no `_Name` record at the index following the last one the save writes and no
stale `_User`/`_Pass` pair at the index of a device saved without credentials (a store without
device records is such a store).  Saving, constructing a new registry on the same host from
the saved store (with more fuel than the map has entries) and saving again then writes the
same device records (name with optional user and password) as the first save, in the same
order and at the same indices, and leaves the store exactly as the first save left it. -/
theorem Save_Load_Save_records (env : FEnvironment) (w : TLinuxTargetPlatform) (fuel : Nat)
    (hflag : w.bChangingDeviceConfig = false) (hvalid : ValidMap w.Devices)
    (hnext : GetString w.GConfig (DeviceNameKey env (SavedDevices env w.Devices).length) = none)
    (hstale : ∀ i d, (SavedDevices env w.Devices)[i]? = some d → d.Credentials = none →
      StoredCredentials env w.GConfig i = none)
    (hfuel : w.Devices.length < fuel) :
    ∃ w2, Construct env (SaveDevicesToConfig env w).GConfig fuel = some w2 ∧
      SavedDevices env w2.Devices = SavedDevices env w.Devices ∧
      SaveDevicesWrites env w2.Devices 0 = SaveDevicesWrites env w.Devices 0 ∧
      (SaveDevicesToConfig env w2).GConfig = (SaveDevicesToConfig env w).GConfig := by
  have hcfg1 : (SaveDevicesToConfig env w).GConfig
      = ApplyWrites w.GConfig (IndexedWrites env 0 (SavedDevices env w.Devices)) := by
    rw [SaveDevicesToConfig_clear env w hflag, SaveDevicesWrites_eq]
  have hnd : ((SavedDevices env w.Devices).map (fun d => d.DeviceName)).Nodup :=
    (SavedDevices_names_sublist env w.Devices hvalid).nodup hvalid.1
  have hlen := SavedDevices_length_le env w.Devices
  have hrun := InitDevicesFromConfig_run env (SavedDevices env w.Devices)
    (InitialPlatform env (SaveDevicesToConfig env w).GConfig) rfl ValidMap_nil hnd
    (by intro d _; simp [InitialPlatform])
    (by
      intro i d hd
      show GetString (SaveDevicesToConfig env w).GConfig _ = _ ∧
        StoredCredentials env (SaveDevicesToConfig env w).GConfig i = _
      rw [hcfg1]
      refine ⟨?_, StoredCredentials_after_save env _ _ i d hd (hstale i d hd)⟩
      rw [GetString_IndexedWrites_Name]
      simp [hd])
    (by
      left
      show GetString (SaveDevicesToConfig env w).GConfig _ = none
      rw [hcfg1, GetString_IndexedWrites_Name]
      simp [hnext])
    fuel (by omega)
  have hkeep := SavedDevices_DeviceEntry env (SavedDevices env w.Devices)
    (SavedDevices_not_skipped env w.Devices)
  unfold Construct
  rw [hrun]
  refine ⟨_, rfl, ?_, ?_, ?_⟩
  · simpa [Loaded, InitialPlatform] using hkeep
  · rw [SaveDevicesWrites_eq, SaveDevicesWrites_eq]
    exact congrArg (IndexedWrites env 0) (by simpa [Loaded, InitialPlatform] using hkeep)
  · rw [SaveDevicesToConfig_clear env _ (by simp [Loaded, InitialPlatform])]
    simp only [Loaded, InitialPlatform, List.nil_append]
    rw [SaveDevicesWrites_eq, hkeep, hcfg1]
    exact ApplyWrites_noop _ _ (fun kv hkv => GetString_saved_writes env _ _ kv hkv)

/-- Witness for C10: a Linux host "host" whose map holds "a", the host-named device and "b"
with credentials, saved to an empty store. -/
theorem Save_Load_Save_records_witness :
    ∃ w2, Construct ⟨true, false, false, "Linux", "host", true⟩
        (SaveDevicesToConfig ⟨true, false, false, "Linux", "host", true⟩
          ⟨false, some ⟨"host", none⟩,
           [("a", some ⟨"a", none⟩), ("host", some ⟨"host", none⟩),
            ("b", some ⟨"b", some ("ann", "pw")⟩)], false, [], ⟨[], [], []⟩⟩).GConfig 4
        = some w2 ∧
      SavedDevices ⟨true, false, false, "Linux", "host", true⟩ w2.Devices
        = [⟨"a", none⟩, ⟨"b", some ("ann", "pw")⟩] :=
  (Save_Load_Save_records ⟨true, false, false, "Linux", "host", true⟩
      ⟨false, some ⟨"host", none⟩,
       [("a", some ⟨"a", none⟩), ("host", some ⟨"host", none⟩),
        ("b", some ⟨"b", some ("ann", "pw")⟩)], false, [], ⟨[], [], []⟩⟩ 4
      (by decide) (by constructor <;> decide) (by decide)
      (by intro i d _ _; rfl) (by decide)).imp
    (fun _ hw => ⟨hw.1, hw.2.1.trans (by decide)⟩)

/-- C10 as stated fails: the store holds "a" at index 0, a record of the host's name "host"
with user and password at index 1, and "b" at index 2.  The registry constructed from it on
the Linux host "host" loads all three; its save skips "host" and writes "b" at index 1 without
credentials, leaving the old `_User` and `_Pass` of index 1 in the store; the registry
constructed from the saved store attaches them to "b", so its save writes "b" with
credentials: the two saves write different records. -/
theorem Save_Load_Save_differs :
    (Construct ⟨true, false, false, "Linux", "host", true⟩
        ⟨[("LinuxTargetPlatfrom_Linux_Device_0_Name", "a"),
          ("LinuxTargetPlatfrom_Linux_Device_1_Name", "host"),
          ("LinuxTargetPlatfrom_Linux_Device_1_User", "h"),
          ("LinuxTargetPlatfrom_Linux_Device_1_Pass", "hp"),
          ("LinuxTargetPlatfrom_Linux_Device_2_Name", "b")], [], []⟩ 4).bind
      (fun w1 =>
        (Construct ⟨true, false, false, "Linux", "host", true⟩
          (SaveDevicesToConfig ⟨true, false, false, "Linux", "host", true⟩ w1).GConfig 4).map
          (fun w2 =>
            (SavedDevices ⟨true, false, false, "Linux", "host", true⟩ w1.Devices,
             SavedDevices ⟨true, false, false, "Linux", "host", true⟩ w2.Devices)))
      = some ([⟨"a", none⟩, ⟨"b", none⟩], [⟨"a", none⟩, ⟨"b", some ("h", "hp")⟩]) := by
  decide

/-! ## What the device operations leave alone -/

theorem SameFrame_refl (a : TLinuxTargetPlatform) : SameFrame a a :=
  ⟨rfl, rfl, rfl, fun _ => rfl⟩

theorem SameFrame_trans (a b c : TLinuxTargetPlatform) (h1 : SameFrame a b)
    (h2 : SameFrame b c) : SameFrame a c := by
  obtain ⟨f1, l1, r1, g1⟩ := h1
  obtain ⟨f2, l2, r2, g2⟩ := h2
  refine ⟨f2.trans f1, l2.trans l1, r2.trans r1, fun hf => ?_⟩
  rw [g2 (f1.trans hf), g1 hf]

theorem SameFrame_Devices (a : TLinuxTargetPlatform) (m : FDeviceMap) :
    SameFrame a { a with Devices := m } :=
  ⟨rfl, rfl, rfl, fun _ => rfl⟩

theorem SameFrame_Save (env : FEnvironment) (a : TLinuxTargetPlatform) :
    SameFrame a (SaveDevicesToConfig env a) := by
  obtain ⟨_, h2, h3, _, h5⟩ := SaveDevicesToConfig_Devices env a
  refine ⟨h2, h3, h5, fun hf => ?_⟩
  rw [SaveDevicesToConfig_guarded env a hf]

theorem SameFrame_Broadcast (a : TLinuxTargetPlatform) (i : Nat) :
    SameFrame a (Broadcast a i) := by
  unfold Broadcast
  cases SlotValue a.Devices i with
  | none => exact SameFrame_refl a
  | some d => exact ⟨rfl, rfl, rfl, fun _ => rfl⟩

theorem SameFrame_SetUserCredentials (env : FEnvironment) (a : TLinuxTargetPlatform) (i : Nat)
    (u p : FString) : SameFrame a (SetUserCredentials env a i u p) := by
  unfold SetUserCredentials
  cases SlotValue a.Devices i with
  | none => exact SameFrame_refl a
  | some d =>
    simp only
    by_cases hn : env.bCredentialsNotify = true
    · rw [if_pos hn]
      exact SameFrame_trans _ _ _ (SameFrame_Devices a _) (SameFrame_Save env _)
    · rw [if_neg hn]
      exact SameFrame_Devices a _

theorem SameFrame_AddDevice (env : FEnvironment) (a : TLinuxTargetPlatform)
    (n f u p : FString) (b : Bool) : SameFrame a (AddDevice env a n f u p b).2 := by
  unfold AddDevice
  simp only
  cases SlotValue (FindOrAdd a.Devices n).1 (FindOrAdd a.Devices n).2 with
  | some d => exact SameFrame_Devices a _
  | none =>
    simp only
    refine SameFrame_trans _ _ _ ?_ (SameFrame_Broadcast _ _)
    have h1 : ∀ m : FDeviceMap, SameFrame a (SaveDevicesToConfig env { a with Devices := m }) :=
      fun m => SameFrame_trans _ _ _ (SameFrame_Devices a m) (SameFrame_Save env _)
    by_cases hc : (!u.IsEmpty || !p.IsEmpty) = true
    · rw [if_pos hc]
      exact SameFrame_trans _ _ _ (h1 _) (SameFrame_SetUserCredentials env _ _ u p)
    · rw [if_neg hc]
      exact h1 _

theorem SameFrame_CredentialsLoop (env : FEnvironment) (name u p : FString) :
    ∀ (idx : List Nat) (a : TLinuxTargetPlatform),
      SameFrame a (CredentialsLoop env name u p idx a) := by
  intro idx
  induction idx with
  | nil => intro a; exact SameFrame_refl a
  | cons i idx ih =>
    intro a
    rw [CredentialsLoop_cons]
    cases SlotValue a.Devices i with
    | none => exact ih a
    | some d =>
      simp only
      by_cases hd : d.DeviceName = name
      · rw [if_pos hd]
        exact SameFrame_trans _ _ _ (SameFrame_SetUserCredentials env a i u p) (ih _)
      · rw [if_neg hd]
        exact ih a

theorem SameFrame_LoadCredentials (env : FEnvironment) (N : Nat) (name : FString)
    (a : TLinuxTargetPlatform) : SameFrame a (LoadCredentials env N name a) := by
  unfold LoadCredentials
  cases GetString a.GConfig (DeviceUserKey env N) with
  | none => exact SameFrame_refl a
  | some u =>
    cases GetString a.GConfig (DevicePassKey env N) with
    | none => exact SameFrame_refl a
    | some p => exact SameFrame_CredentialsLoop env name u p _ a

theorem InitDevicesLoop_succ (env : FEnvironment) (fuel N : Nat) (w : TLinuxTargetPlatform) :
    InitDevicesLoop env (fuel + 1) N w
      = match GetString w.GConfig (DeviceNameKey env N) with
        | none => some w
        | some name =>
          if (AddDevice2 env w name false).1 = false then some (AddDevice2 env w name false).2
          else InitDevicesLoop env fuel (N + 1)
            (LoadCredentials env N name (AddDevice2 env w name false).2) := by
  rw [InitDevicesLoop]
  rfl

theorem InitDevicesLoopCalls_succ (env : FEnvironment) (fuel N : Nat)
    (w : TLinuxTargetPlatform) :
    InitDevicesLoopCalls env (fuel + 1) N w
      = match GetString w.GConfig (DeviceNameKey env N) with
        | none => some []
        | some name =>
          if (AddDevice2 env w name false).1 = false then some [w]
          else (InitDevicesLoopCalls env fuel (N + 1)
            (LoadCredentials env N name (AddDevice2 env w name false).2)).map
              (fun calls => w :: calls) := by
  rw [InitDevicesLoopCalls]

theorem InitDevicesLoop_terminates (env : FEnvironment) (k : Nat) :
    ∀ (fuel N : Nat) (w : TLinuxTargetPlatform),
      w.bChangingDeviceConfig = true →
      GetString w.GConfig (DeviceNameKey env k) = none → N ≤ k → k - N < fuel →
      ∃ w1 calls, InitDevicesLoop env fuel N w = some w1 ∧
        InitDevicesLoopCalls env fuel N w = some calls ∧
        calls.length ≤ k - N ∧ SameFrame w w1 ∧ ∀ s ∈ calls, SameFrame w s := by
  intro fuel
  induction fuel with
  | zero => intro N w _ _ _ h; omega
  | succ fuel ih =>
    intro N w hflag hk hN hfuel
    rw [InitDevicesLoop_succ, InitDevicesLoopCalls_succ]
    cases hget : GetString w.GConfig (DeviceNameKey env N) with
    | none =>
      exact ⟨w, [], rfl, rfl, by simp, SameFrame_refl w, by simp⟩
    | some name =>
      have hNk : N < k := by
        rcases Nat.lt_or_ge N k with h | h
        · exact h
        · have : N = k := by omega
          subst this
          rw [hk] at hget
          cases hget
      simp only
      have hadd : SameFrame w (AddDevice2 env w name false).2 :=
        SameFrame_AddDevice env w name "" "" "" false
      by_cases hok : (AddDevice2 env w name false).1 = false
      · rw [if_pos hok, if_pos hok]
        refine ⟨_, [w], rfl, rfl, ?_, hadd, ?_⟩
        · simp only [List.length_cons, List.length_nil]; omega
        · intro s hs
          rw [List.mem_singleton] at hs
          subst hs
          exact SameFrame_refl _
      · rw [if_neg hok, if_neg hok]
        have hw2 : SameFrame w (LoadCredentials env N name (AddDevice2 env w name false).2) :=
          SameFrame_trans _ _ _ hadd (SameFrame_LoadCredentials env N name _)
        obtain ⟨w1, calls, h1, h2, h3, h4, h5⟩ :=
          ih (N + 1) (LoadCredentials env N name (AddDevice2 env w name false).2)
            (hw2.1.trans hflag) (by rw [hw2.2.2.2 hflag]; exact hk) (by omega) (by omega)
        refine ⟨w1, w :: calls, h1, by rw [h2]; rfl, ?_, SameFrame_trans _ _ _ hw2 h4, ?_⟩
        · simp only [List.length_cons]; omega
        · intro s hs
          rw [List.mem_cons] at hs
          rcases hs with hs | hs
          · subst hs; exact SameFrame_refl _
          · exact SameFrame_trans _ _ _ hw2 (h5 s hs)

theorem InitDevicesLoop_frame (env : FEnvironment) :
    ∀ (fuel N : Nat) (w w1 : TLinuxTargetPlatform),
      InitDevicesLoop env fuel N w = some w1 → SameFrame w w1 := by
  intro fuel
  induction fuel with
  | zero => intro N w w1 h; simp [InitDevicesLoop] at h
  | succ fuel ih =>
    intro N w w1 h
    rw [InitDevicesLoop_succ] at h
    cases hget : GetString w.GConfig (DeviceNameKey env N) with
    | none =>
      rw [hget] at h
      simp only [Option.some.injEq] at h
      subst h
      exact SameFrame_refl w
    | some name =>
      rw [hget] at h
      simp only at h
      have hadd : SameFrame w (AddDevice2 env w name false).2 :=
        SameFrame_AddDevice env w name "" "" "" false
      by_cases hok : (AddDevice2 env w name false).1 = false
      · rw [if_pos hok] at h
        simp only [Option.some.injEq] at h
        subst h
        exact hadd
      · rw [if_neg hok] at h
        exact SameFrame_trans _ _ _
          (SameFrame_trans _ _ _ hadd (SameFrame_LoadCredentials env N name _)) (ih _ _ _ h)

theorem InitDevicesFromConfig_frame (env : FEnvironment) (fuel : Nat)
    (w w1 : TLinuxTargetPlatform) (h : InitDevicesFromConfig env fuel w = some w1) :
    w1.GConfig = w.GConfig ∧ w1.bChangingDeviceConfig = w.bChangingDeviceConfig ∧
    w1.LocalDevice = w.LocalDevice ∧
    w1.bRequiresEncodedHDRReflectionCaptures = w.bRequiresEncodedHDRReflectionCaptures := by
  unfold InitDevicesFromConfig at h
  by_cases hflag : w.bChangingDeviceConfig = true
  · rw [if_pos hflag] at h
    simp only [Option.some.injEq] at h
    subst h
    exact ⟨rfl, rfl, rfl, rfl⟩
  · rw [if_neg hflag] at h
    cases hloop : InitDevicesLoop env fuel 0 { w with bChangingDeviceConfig := true } with
    | none => rw [hloop] at h; cases h
    | some w2 =>
      rw [hloop] at h
      simp only [Option.map_some', Option.some.injEq] at h
      subst h
      obtain ⟨_, h2, h3, h4⟩ := InitDevicesLoop_frame env fuel 0 _ w2 hloop
      refine ⟨h4 rfl, ?_, h2, h3⟩
      simp only
      cases hb : w.bChangingDeviceConfig with
      | false => rfl
      | true => exact absurd hb hflag

/-! ## The load returns -/

theorem Lookup_ne_none_mem {β : Type} (l : List (FString × β)) (k : FString)
    (h : Lookup l k ≠ none) : k ∈ l.map Prod.fst := by
  induction l with
  | nil => exact absurd rfl h
  | cons e l ih =>
    obtain ⟨k1, v1⟩ := e
    by_cases hk : k1 = k
    · simp [hk]
    · simp only [Lookup, if_neg hk] at h
      exact List.mem_cons_of_mem _ (ih h)

theorem exists_missing_NameKey (env : FEnvironment) (cfg : FConfigCacheIni) :
    ∃ k, k ≤ cfg.Strings.length ∧ GetString cfg (DeviceNameKey env k) = none := by
  by_contra hcon
  have hall : ∀ k, k ≤ cfg.Strings.length → GetString cfg (DeviceNameKey env k) ≠ none := by
    intro k hk hnone
    exact hcon ⟨k, hk, hnone⟩
  have hsub : (Finset.range (cfg.Strings.length + 1)).image (DeviceNameKey env)
      ⊆ (cfg.Strings.map Prod.fst).toFinset := by
    intro x hx
    rw [Finset.mem_image] at hx
    obtain ⟨k, hk, rfl⟩ := hx
    rw [Finset.mem_range] at hk
    rw [List.mem_toFinset]
    exact Lookup_ne_none_mem _ _ (hall k (by omega))
  have hinj : Function.Injective (DeviceNameKey env) := fun a b h => NameKey_inj env a b h
  have hcard := Finset.card_le_card hsub
  rw [Finset.card_image_of_injective _ hinj, Finset.card_range] at hcard
  have hle := List.toFinset_card_le (cfg.Strings.map Prod.fst)
  rw [List.length_map] at hle
  omega

theorem exists_first_missing_NameKey (env : FEnvironment) (cfg : FConfigCacheIni) :
    ∃ k, k ≤ cfg.Strings.length ∧ GetString cfg (DeviceNameKey env k) = none ∧
      ∀ i, i < k → GetString cfg (DeviceNameKey env i) ≠ none := by
  obtain ⟨k0, hk0, hnone⟩ := exists_missing_NameKey env cfg
  have hex : ∃ k, GetString cfg (DeviceNameKey env k) = none := ⟨k0, hnone⟩
  refine ⟨Nat.find hex, (Nat.find_le hnone).trans hk0, Nat.find_spec hex, ?_⟩
  intro i hi
  exact Nat.find_min hex hi

theorem InitDevicesFromConfig_returns (env : FEnvironment) (w : TLinuxTargetPlatform)
    (k fuel : Nat) (hk : GetString w.GConfig (DeviceNameKey env k) = none) (hfuel : k < fuel) :
    ∃ w1 calls, InitDevicesFromConfig env fuel w = some w1 ∧
      InitDevicesFromConfigCalls env fuel w = some calls ∧ calls.length ≤ k ∧
      ∀ s ∈ calls, s.bChangingDeviceConfig = true := by
  unfold InitDevicesFromConfig InitDevicesFromConfigCalls
  by_cases hflag : w.bChangingDeviceConfig = true
  · rw [if_pos hflag, if_pos hflag]
    exact ⟨w, [], rfl, rfl, by simp, by simp⟩
  · rw [if_neg hflag, if_neg hflag]
    obtain ⟨w1, calls, h1, h2, h3, _, h5⟩ :=
      InitDevicesLoop_terminates env k fuel 0 { w with bChangingDeviceConfig := true } rfl hk
        (Nat.zero_le k) (by omega)
    refine ⟨_, calls, by rw [h1]; rfl, h2, by omega, ?_⟩
    intro s hs
    exact (h5 s hs).1

/-- C11: a `SaveDevicesToConfig` or `InitDevicesFromConfig` call made while the guard flag is
set returns at once with the state, the store included, exactly as it was, and calls nothing.
Consequently every `InitDevicesFromConfig` call leaves the config store exactly as it found
it, although it adds devices through `AddDevice`; a load or save entered with the flag clear
returns with the flag clear again; and the load does return once it is given more iterations
than the store has string entries. -/
theorem guard_flag_reentrancy (env : FEnvironment) (w : TLinuxTargetPlatform) (fuel : Nat) :
    (w.bChangingDeviceConfig = true →
      SaveDevicesToConfig env w = w ∧ InitDevicesFromConfig env fuel w = some w ∧
      InitDevicesFromConfigCalls env fuel w = some []) ∧
    (∀ w1, InitDevicesFromConfig env fuel w = some w1 → w1.GConfig = w.GConfig) ∧
    (w.bChangingDeviceConfig = false →
      (SaveDevicesToConfig env w).bChangingDeviceConfig = false ∧
      ∀ w1, InitDevicesFromConfig env fuel w = some w1 → w1.bChangingDeviceConfig = false) ∧
    (w.GConfig.Strings.length < fuel → ∃ w1, InitDevicesFromConfig env fuel w = some w1) := by
  refine ⟨?_, ?_, ?_, ?_⟩
  · intro hflag
    refine ⟨SaveDevicesToConfig_guarded env w hflag, ?_, ?_⟩
    · simp [InitDevicesFromConfig, hflag]
    · simp [InitDevicesFromConfigCalls, hflag]
  · intro w1 h
    exact (InitDevicesFromConfig_frame env fuel w w1 h).1
  · intro hflag
    refine ⟨?_, ?_⟩
    · rw [(SaveDevicesToConfig_Devices env w).2.1, hflag]
    · intro w1 h
      rw [(InitDevicesFromConfig_frame env fuel w w1 h).2.1, hflag]
  · intro hfuel
    obtain ⟨k, hk, hnone, _⟩ := exists_first_missing_NameKey env w.GConfig
    obtain ⟨w1, _, h1, _⟩ := InitDevicesFromConfig_returns env w k fuel hnone (by omega)
    exact ⟨w1, h1⟩

/-- C12: the config store is a finite list, so there is a first index `k` whose `_Name` key is
missing, and `k` is at most the number of string entries of the store.  For every registry
state, the scan of `InitDevicesFromConfig` returns as soon as it is allowed more than `k`
iterations, and it calls `AddDevice` at most `k` times.  Each of these calls is made on a state
with the guard flag set, on which `SaveDevicesToConfig` and `InitDevicesFromConfig` return at
once without a change: there is no re-entry into the load or the save. -/
theorem InitDevicesFromConfig_terminates (env : FEnvironment) (w : TLinuxTargetPlatform) :
    ∃ k, k ≤ w.GConfig.Strings.length ∧
      GetString w.GConfig (DeviceNameKey env k) = none ∧
      (∀ i, i < k → GetString w.GConfig (DeviceNameKey env i) ≠ none) ∧
      ∀ fuel, k < fuel →
        ∃ w1 calls, InitDevicesFromConfig env fuel w = some w1 ∧
          InitDevicesFromConfigCalls env fuel w = some calls ∧ calls.length ≤ k ∧
          ∀ s ∈ calls, s.bChangingDeviceConfig = true ∧ SaveDevicesToConfig env s = s ∧
            InitDevicesFromConfig env fuel s = some s := by
  obtain ⟨k, hk, hnone, hfirst⟩ := exists_first_missing_NameKey env w.GConfig
  refine ⟨k, hk, hnone, hfirst, ?_⟩
  intro fuel hfuel
  obtain ⟨w1, calls, h1, h2, h3, h4⟩ := InitDevicesFromConfig_returns env w k fuel hnone hfuel
  refine ⟨w1, calls, h1, h2, h3, ?_⟩
  intro s hs
  have hflag := h4 s hs
  refine ⟨hflag, SaveDevicesToConfig_guarded env s hflag, ?_⟩
  simp [InitDevicesFromConfig, hflag]

/-! ## Audio, server-only targets, reflection captures, cook flag defaults -/

/-- C13: `GetWaveFormat` follows the priority order for all four input combinations: a
seekable-streaming wave gives ADPCM whatever the streaming flag is, otherwise a streaming wave
gives OPUS, otherwise the result is OGG. -/
theorem GetWaveFormat_priority (IsSeekableStreaming IsStreaming : Bool) :
    (IsSeekableStreaming = true → GetWaveFormat IsSeekableStreaming IsStreaming = "ADPCM") ∧
    (IsSeekableStreaming = false → IsStreaming = true →
      GetWaveFormat IsSeekableStreaming IsStreaming = "OPUS") ∧
    (IsSeekableStreaming = false → IsStreaming = false →
      GetWaveFormat IsSeekableStreaming IsStreaming = "OGG") ∧
    GetWaveFormat true true = "ADPCM" ∧ GetWaveFormat true false = "ADPCM" ∧
    GetWaveFormat false true = "OPUS" ∧ GetWaveFormat false false = "OGG" := by
  refine ⟨?_, ?_, ?_, rfl, rfl, rfl, rfl⟩
  · intro h; subst h; rfl
  · intro h1 h2; subst h1; subst h2; rfl
  · intro h1 h2; subst h1; subst h2; rfl

theorem TargetedFilterLoop_nil_possible (T : List FString) :
    TargetedFilterLoop [] T.length T = [] := by
  rw [TargetedFilterLoop_eq [] T.length T (le_refl _)]
  simp

/-- C14: on a server-only target, whatever the config store and the default-format resolver
give, `GetAllPossibleShaderFormats`, `GetAllTextureFormats`, `GetAllTargetedShaderFormats` and
`GetTextureFormats` add nothing to their output: each returns the output it was given, so an
empty output stays empty. -/
theorem server_only_adds_nothing (env : FEnvironment) (cfg : FConfigCacheIni)
    (GetAllDefaultTextureFormats : List FName → List FName) (DefaultLayer : List FName)
    (h : env.IsServerOnly = true) :
    (∀ Out, GetAllPossibleShaderFormats env Out = Out) ∧
    (∀ Out, GetAllTextureFormats env cfg GetAllDefaultTextureFormats Out = Out) ∧
    (∀ Out, GetAllTargetedShaderFormats env cfg Out = Out) ∧
    (∀ Out, GetTextureFormats env cfg DefaultLayer Out = Out) ∧
    GetAllPossibleShaderFormats env [] = [] ∧
    GetAllTextureFormats env cfg GetAllDefaultTextureFormats [] = [] ∧
    GetAllTargetedShaderFormats env cfg [] = [] ∧
    GetTextureFormats env cfg DefaultLayer [] = [] := by
  have h1 : ∀ Out, GetAllPossibleShaderFormats env Out = Out := by
    intro Out; simp [GetAllPossibleShaderFormats, h]
  have h2 : ∀ Out, GetAllTextureFormats env cfg GetAllDefaultTextureFormats Out = Out := by
    intro Out; simp [GetAllTextureFormats, h]
  have h3 : ∀ Out, GetAllTargetedShaderFormats env cfg Out = Out := by
    intro Out
    unfold GetAllTargetedShaderFormats
    simp only
    rw [h1 [], TargetedFilterLoop_nil_possible]
    rfl
  have h4 : ∀ Out, GetTextureFormats env cfg DefaultLayer Out = Out := by
    intro Out; simp [GetTextureFormats, h]
  exact ⟨h1, h2, h3, h4, h1 [], h2 [], h3 [], h4 []⟩

/-- Witness for C14: a server-only target whose store targets both Vulkan formats. -/
theorem server_only_adds_nothing_witness :
    GetAllTargetedShaderFormats ⟨true, true, false, "LinuxServer", "host", true⟩
        ⟨[], [], [("TargetedRHIs", ["SF_VULKAN_SM5", "SF_VULKAN_ES31"])]⟩ [] = [] ∧
    GetAllTextureFormats ⟨true, true, false, "LinuxServer", "host", true⟩
        ⟨[], [], [("TargetedRHIs", ["SF_VULKAN_SM5", "SF_VULKAN_ES31"])]⟩
        (fun Out => Out ++ ["DXT1", "BC7"]) [] = [] :=
  ⟨(server_only_adds_nothing ⟨true, true, false, "LinuxServer", "host", true⟩
      ⟨[], [], [("TargetedRHIs", ["SF_VULKAN_SM5", "SF_VULKAN_ES31"])]⟩
      (fun Out => Out ++ ["DXT1", "BC7"]) ["DXT1"] (by decide)).2.2.2.2.2.2.1,
   (server_only_adds_nothing ⟨true, true, false, "LinuxServer", "host", true⟩
      ⟨[], [], [("TargetedRHIs", ["SF_VULKAN_SM5", "SF_VULKAN_ES31"])]⟩
      (fun Out => Out ++ ["DXT1", "BC7"]) ["DXT1"] (by decide)).2.2.2.2.2.1⟩

theorem Construct_some (env : FEnvironment) (cfg : FConfigCacheIni) (fuel : Nat)
    (w : TLinuxTargetPlatform) (h : Construct env cfg fuel = some w) :
    ∃ w0, InitDevicesFromConfig env fuel (InitialPlatform env cfg) = some w0 ∧
      w = { w0 with
        bRequiresEncodedHDRReflectionCaptures :=
          (GetAllTargetedShaderFormats env w0.GConfig []).contains "SF_VULKAN_ES31" ||
            (GetAllTargetedShaderFormats env w0.GConfig []).contains "GLSL_150_ES31" } := by
  unfold Construct at h
  cases hinit : InitDevicesFromConfig env fuel (InitialPlatform env cfg) with
  | none => rw [hinit] at h; cases h
  | some w0 =>
    rw [hinit] at h
    simp only [Option.map_some', Option.some.injEq] at h
    exact ⟨w0, rfl, h.symm⟩

/-- C15: on an empty output `GetReflectionCaptureFormats` returns `[EncodedHDR, FullHDR]` when
the encoded-HDR flag is set and `[FullHDR]` otherwise, and on any output its last entry is
FullHDR.  In the object the constructor returns, the flag is set exactly when the targeted
shader formats of the store at construction contain `SF_VULKAN_ES31` or `GLSL_150_ES31`.  The
result does not read the store, and no device operation changes the flag, so later changes of
the store do not change the result. -/
theorem GetReflectionCaptureFormats_flag (env : FEnvironment) (cfg : FConfigCacheIni)
    (fuel : Nat) (w : TLinuxTargetPlatform) (h : Construct env cfg fuel = some w) :
    (∀ w1 : TLinuxTargetPlatform, GetReflectionCaptureFormats w1 []
      = if w1.bRequiresEncodedHDRReflectionCaptures = true then ["EncodedHDR", "FullHDR"]
        else ["FullHDR"]) ∧
    (∀ (w1 : TLinuxTargetPlatform) (Out : List FName),
      (GetReflectionCaptureFormats w1 Out).getLast? = some "FullHDR") ∧
    (w.bRequiresEncodedHDRReflectionCaptures = true ↔
      "SF_VULKAN_ES31" ∈ GetAllTargetedShaderFormats env cfg [] ∨
      "GLSL_150_ES31" ∈ GetAllTargetedShaderFormats env cfg []) ∧
    (∀ (cfg1 : FConfigCacheIni) (Out : List FName),
      GetReflectionCaptureFormats { w with GConfig := cfg1 } Out
        = GetReflectionCaptureFormats w Out) ∧
    (∀ (w1 : TLinuxTargetPlatform) (n f u p : FString) (b : Bool) (Out : List FName),
      GetReflectionCaptureFormats (AddDevice env w1 n f u p b).2 Out
        = GetReflectionCaptureFormats w1 Out) ∧
    (∀ (w1 : TLinuxTargetPlatform) (Out : List FName),
      GetReflectionCaptureFormats (SaveDevicesToConfig env w1) Out
        = GetReflectionCaptureFormats w1 Out) := by
  refine ⟨?_, ?_, ?_, fun _ _ => rfl, ?_, ?_⟩
  · intro w1
    unfold GetReflectionCaptureFormats
    by_cases hf : w1.bRequiresEncodedHDRReflectionCaptures = true <;> simp [hf]
  · intro w1 Out
    unfold GetReflectionCaptureFormats
    simp
  · obtain ⟨w0, hinit, hw⟩ := Construct_some env cfg fuel w h
    have hcfg : w0.GConfig = cfg := (InitDevicesFromConfig_frame env fuel _ w0 hinit).1
    rw [hw, hcfg]
    simp
  · intro w1 n f u p b Out
    unfold GetReflectionCaptureFormats
    rw [(SameFrame_AddDevice env w1 n f u p b).2.2.1]
  · intro w1 Out
    unfold GetReflectionCaptureFormats
    rw [(SameFrame_Save env w1).2.2.1]

/-- Witness for C15: a store that targets `SF_VULKAN_ES31`, changed afterwards to target
`SF_VULKAN_SM5` only. -/
theorem GetReflectionCaptureFormats_flag_witness :
    (Construct ⟨true, false, false, "Linux", "host", true⟩
        ⟨[], [], [("TargetedRHIs", ["SF_VULKAN_ES31"])]⟩ 1).map
      (fun w => GetReflectionCaptureFormats
        { w with GConfig := ⟨[], [], [("TargetedRHIs", ["SF_VULKAN_SM5"])]⟩ } [])
      = some ["EncodedHDR", "FullHDR"] ∧
    ∀ (w1 : TLinuxTargetPlatform) (Out : List FName),
      (GetReflectionCaptureFormats w1 Out).getLast? = some "FullHDR" :=
  ⟨by decide,
   (GetReflectionCaptureFormats_flag ⟨true, false, false, "Linux", "host", true⟩
      ⟨[], [], [("TargetedRHIs", ["SF_VULKAN_ES31"])]⟩ 1
      ⟨false, some ⟨"host", none⟩, [], true, [],
        ⟨[], [], [("TargetedRHIs", ["SF_VULKAN_ES31"])]⟩⟩ (by decide)).2.1⟩

/-- C16, the code at the failing input: with no entry for `bCookETC2Textures` in the store,
`StartupModule` leaves `true` in the settings object while `GetTextureFormats` and
`GetAllTextureFormats` use `false`; the other two flags agree for every store, and so does
this one whenever the store has an entry for it. -/
theorem StartupModule_flag_defaults (cfg : FConfigCacheIni) :
    (StartupModule cfg).bCookDXTTextures = (ReadCookFlags cfg).bCookDXTTextures ∧
    (StartupModule cfg).bCookBCTextures = (ReadCookFlags cfg).bCookBCTextures ∧
    (GetBool cfg "bCookETC2Textures" = none →
      (StartupModule cfg).bCookETC2Textures = true ∧
      (ReadCookFlags cfg).bCookETC2Textures = false) ∧
    (GetBool cfg "bCookETC2Textures" ≠ none →
      (StartupModule cfg).bCookETC2Textures = (ReadCookFlags cfg).bCookETC2Textures) ∧
    (StartupModule ⟨[], [], []⟩).bCookETC2Textures = true ∧
    (ReadCookFlags ⟨[], [], []⟩).bCookETC2Textures = false := by
  refine ⟨?_, ?_, ?_, ?_, rfl, rfl⟩
  · unfold StartupModule ReadCookFlags
    cases GetBool cfg "bCookDXTTextures" <;> rfl
  · unfold StartupModule ReadCookFlags
    cases GetBool cfg "bCookBCTextures" <;> rfl
  · intro hnone
    unfold StartupModule ReadCookFlags
    rw [hnone]
    exact ⟨rfl, rfl⟩
  · intro hsome
    unfold StartupModule ReadCookFlags
    cases hb : GetBool cfg "bCookETC2Textures" with
    | none => exact absurd hb hsome
    | some b => rfl

/-- C18: whatever the output list held before the call, `GetAllDevices` leaves in it the local
device, when there is one, followed by the pointer of every entry of the device map in map
iteration order; its length is the map size plus one when a local device exists and the map
size otherwise. -/
theorem GetAllDevices_order (w : TLinuxTargetPlatform) (OutDevices : List FLinuxTargetDevicePtr) :
    (∀ l, w.LocalDevice = some l →
      GetAllDevices w OutDevices = some l :: w.Devices.map Prod.snd ∧
      (GetAllDevices w OutDevices).length = w.Devices.length + 1) ∧
    (w.LocalDevice = none →
      GetAllDevices w OutDevices = w.Devices.map Prod.snd ∧
      (GetAllDevices w OutDevices).length = w.Devices.length) ∧
    GetAllDevices w OutDevices = GetAllDevices w [] := by
  refine ⟨?_, ?_, rfl⟩
  · intro l hl
    unfold GetAllDevices
    rw [hl]
    simp
  · intro hl
    unfold GetAllDevices
    rw [hl]
    simp

/-! ## The device map of a reachable state -/

theorem AddDevice_ValidMap (env : FEnvironment) (w : TLinuxTargetPlatform)
    (n f u p : FString) (b : Bool) (hm : ValidMap w.Devices) :
    ValidMap (AddDevice env w n f u p b).2.Devices := by
  cases hl : Lookup w.Devices n with
  | none =>
    have hnew : n ∉ w.Devices.map Prod.fst := (Lookup_none_iff _ _).1 hl
    rcases Bool.eq_false_or_eq_true w.bChangingDeviceConfig with hflag | hflag
    · rw [AddDevice_new_guarded env w n f u p b hl hflag]
      exact ValidMap_append w.Devices hm ⟨n, _⟩ hnew
    · rw [AddDevice_new_clear env w n f u p b hl hflag]
      exact ValidMap_append w.Devices hm ⟨n, _⟩ hnew
  | some ptr =>
    have hin : n ∈ w.Devices.map Prod.fst := Lookup_ne_none_mem _ _ (by rw [hl]; simp)
    obtain ⟨d, hd⟩ := ValidMap_Lookup w.Devices hm n hin
    rw [AddDevice_duplicate_lemma env w n f u p b d hd]
    exact hm

theorem InitDevicesLoop_ValidMap (env : FEnvironment) :
    ∀ (fuel N : Nat) (w w1 : TLinuxTargetPlatform),
      w.bChangingDeviceConfig = true → ValidMap w.Devices →
      InitDevicesLoop env fuel N w = some w1 → ValidMap w1.Devices := by
  intro fuel
  induction fuel with
  | zero => intro N w w1 _ _ h; simp [InitDevicesLoop] at h
  | succ fuel ih =>
    intro N w w1 hflag hm h
    cases hget : GetString w.GConfig (DeviceNameKey env N) with
    | none =>
      rw [InitDevicesLoop_stop_missing env w N fuel hget] at h
      simp only [Option.some.injEq] at h
      subst h
      exact hm
    | some name =>
      by_cases hdup : name ∈ w.Devices.map Prod.fst
      · rw [InitDevicesLoop_stop_duplicate env w N fuel name hm hget hdup] at h
        simp only [Option.some.injEq] at h
        subst h
        exact hm
      · rw [InitDevicesLoop_step env w N fuel ⟨name, StoredCredentials env w.GConfig N⟩
          hflag hm hdup hget rfl] at h
        refine ih (N + 1) (Loaded w [⟨name, StoredCredentials env w.GConfig N⟩]) w1 hflag ?_ h
        have hdev : (Loaded w [⟨name, StoredCredentials env w.GConfig N⟩]).Devices
            = w.Devices ++ [DeviceEntry ⟨name, StoredCredentials env w.GConfig N⟩] := by
          simp [Loaded]
        rw [hdev]
        exact ValidMap_append w.Devices hm _ hdup

theorem InitDevicesFromConfig_ValidMap (env : FEnvironment) (fuel : Nat)
    (w w1 : TLinuxTargetPlatform) (hm : ValidMap w.Devices)
    (h : InitDevicesFromConfig env fuel w = some w1) : ValidMap w1.Devices := by
  unfold InitDevicesFromConfig at h
  by_cases hflag : w.bChangingDeviceConfig = true
  · rw [if_pos hflag] at h
    simp only [Option.some.injEq] at h
    subst h
    exact hm
  · rw [if_neg hflag] at h
    cases hloop : InitDevicesLoop env fuel 0 { w with bChangingDeviceConfig := true } with
    | none => rw [hloop] at h; cases h
    | some w2 =>
      rw [hloop] at h
      simp only [Option.map_some', Option.some.injEq] at h
      subst h
      exact InitDevicesLoop_ValidMap env fuel 0 { w with bChangingDeviceConfig := true } w2
        rfl hm hloop

theorem Reachable_ValidMap (env : FEnvironment) (w : TLinuxTargetPlatform)
    (h : Reachable env w) : ValidMap w.Devices := by
  induction h with
  | construct cfg fuel w hc =>
    obtain ⟨w0, hinit, hw⟩ := Construct_some env cfg fuel w hc
    rw [hw]
    exact InitDevicesFromConfig_ValidMap env fuel _ w0 ValidMap_nil hinit
  | addDevice w n f u p b _ ih => exact AddDevice_ValidMap env w n f u p b ih
  | initDevices w w1 fuel _ hinit ih => exact InitDevicesFromConfig_ValidMap env fuel w w1 ih hinit
  | saveDevices w _ ih =>
    rw [(SaveDevicesToConfig_Devices env w).1]
    exact ih
  | configChanged w cfg _ ih => exact ih

theorem Reachable_LocalDevice (env : FEnvironment) (w : TLinuxTargetPlatform)
    (h : Reachable env w) :
    w.LocalDevice
      = if env.PLATFORM_LINUX = true ∧ env.IsAArch64 = false then
          some { DeviceName := env.ComputerName, Credentials := none }
        else none := by
  induction h with
  | construct cfg fuel w hc =>
    obtain ⟨w0, hinit, hw⟩ := Construct_some env cfg fuel w hc
    rw [hw]
    exact (InitDevicesFromConfig_frame env fuel _ w0 hinit).2.2.1
  | addDevice w n f u p b _ ih =>
    rw [(SameFrame_AddDevice env w n f u p b).2.1]
    exact ih
  | initDevices w w1 fuel _ hinit ih =>
    rw [(InitDevicesFromConfig_frame env fuel w w1 hinit).2.2.1]
    exact ih
  | saveDevices w _ ih =>
    rw [(SaveDevicesToConfig_Devices env w).2.2.1]
    exact ih
  | configChanged w cfg _ ih => exact ih

theorem GetDeviceLoop_spec (env : FEnvironment) (DeviceId : FTargetDeviceId) :
    ∀ m : FDeviceMap, (∀ e ∈ m, e.2 ≠ none) →
      ∃ r, GetDeviceLoop env DeviceId m = some r ∧
        (r = none ↔ ∀ e ∈ m, ∀ d, e.2 = some d → GetId env d ≠ DeviceId) ∧
        (∀ d, r = some d → (∃ k, (k, some d) ∈ m) ∧ GetId env d = DeviceId) := by
  intro m
  induction m with
  | nil => intro _; exact ⟨none, rfl, by simp, by simp⟩
  | cons e m ih =>
    intro hvalid
    obtain ⟨k, ptr⟩ := e
    cases ptr with
    | none => exact absurd rfl (hvalid (k, none) (List.mem_cons_self _ _))
    | some d =>
      by_cases hid : DeviceId = GetId env d
      · refine ⟨some d, by simp [GetDeviceLoop, hid], ?_, ?_⟩
        · constructor
          · intro h; cases h
          · intro h
            exact absurd hid.symm (h (k, some d) (List.mem_cons_self _ _) d rfl)
        · intro d1 hd1
          simp only [Option.some.injEq] at hd1
          subst hd1
          exact ⟨⟨k, List.mem_cons_self _ _⟩, hid.symm⟩
      · obtain ⟨r, hr, hnone, hsome⟩ := ih (fun x hx => hvalid x (List.mem_cons_of_mem _ hx))
        refine ⟨r, by simp [GetDeviceLoop, hid, hr], ?_, ?_⟩
        · rw [hnone]
          constructor
          · intro h x hx d1 hd1
            rw [List.mem_cons] at hx
            rcases hx with hx | hx
            · subst hx
              simp only [Option.some.injEq] at hd1
              subst hd1
              exact fun heq => hid heq.symm
            · exact h x hx d1 hd1
          · intro h x hx d1 hd1
            exact h x (List.mem_cons_of_mem _ hx) d1 hd1
        · intro d1 hd1
          obtain ⟨⟨k1, hk1⟩, hid1⟩ := hsome d1 hd1
          exact ⟨⟨k1, List.mem_cons_of_mem _ hk1⟩, hid1⟩

/-- C17: in every state the registry can be in and for every device id, `GetDevice` returns a
result: the local device when there is one and its id is the queried id; otherwise a device
of the device map whose id is the queried id; and the null pointer exactly when neither the
local device nor any device of the map has that id.  A device it returns always has the
queried id. -/
theorem GetDevice_by_id (env : FEnvironment) (w : TLinuxTargetPlatform)
    (DeviceId : FTargetDeviceId) (h : Reachable env w) :
    ∃ r, GetDevice env w DeviceId = some r ∧
      (∀ l, w.LocalDevice = some l → GetId env l = DeviceId → r = some l) ∧
      ((∀ l, w.LocalDevice = some l → GetId env l ≠ DeviceId) →
        ∀ d, r = some d → ∃ k, (k, some d) ∈ w.Devices) ∧
      (r = none ↔
        (∀ l, w.LocalDevice = some l → GetId env l ≠ DeviceId) ∧
        ∀ e ∈ w.Devices, ∀ d, e.2 = some d → GetId env d ≠ DeviceId) ∧
      (∀ d, r = some d → GetId env d = DeviceId) := by
  have hvalid : ∀ e ∈ w.Devices, e.2 ≠ none := by
    intro e he hnone
    obtain ⟨d, hd, _⟩ := (Reachable_ValidMap env w h).2 e he
    rw [hnone] at hd
    cases hd
  obtain ⟨r, hr, hnone, hsome⟩ := GetDeviceLoop_spec env DeviceId w.Devices hvalid
  unfold GetDevice
  cases hl : w.LocalDevice with
  | none =>
    refine ⟨r, hr, by simp, fun _ d hd => (hsome d hd).1, ?_, fun d hd => (hsome d hd).2⟩
    rw [hnone]
    simp
  | some l =>
    by_cases hid : DeviceId = GetId env l
    · refine ⟨some l, by simp [hid], ?_, ?_, ?_, ?_⟩
      · intro l1 hl1 _
        simp only [Option.some.injEq] at hl1
        rw [hl1]
      · intro hne
        exact absurd hid.symm (hne l rfl)
      · constructor
        · intro hcon; cases hcon
        · intro hcon
          exact absurd hid.symm (hcon.1 l rfl)
      · intro d hd
        simp only [Option.some.injEq] at hd
        subst hd
        exact hid.symm
    · refine ⟨r, by simp [hid, hr], ?_, fun _ d hd => (hsome d hd).1, ?_,
        fun d hd => (hsome d hd).2⟩
      · intro l1 hl1 hid1
        simp only [Option.some.injEq] at hl1
        subst hl1
        exact absurd hid1.symm hid
      · rw [hnone]
        constructor
        · intro hall
          refine ⟨?_, hall⟩
          intro l1 hl1 hid1
          simp only [Option.some.injEq] at hl1
          subst hl1
          exact hid hid1.symm
        · intro hall
          exact hall.2

/-- Witness for C17: the registry constructed on the Linux host "host" from an empty store,
after `AddDevice("box")`, queried for the id of "box". -/
theorem GetDevice_by_id_witness :
    ∃ r, GetDevice ⟨true, false, false, "Linux", "host", true⟩
        (AddDevice ⟨true, false, false, "Linux", "host", true⟩
          ⟨false, some ⟨"host", none⟩, [], false, [], ⟨[], [], []⟩⟩
          "box" "" "" "" false).2 ⟨"Linux", "box"⟩ = some r ∧
      (∀ d, r = some d →
        GetId ⟨true, false, false, "Linux", "host", true⟩ d = ⟨"Linux", "box"⟩) :=
  (GetDevice_by_id ⟨true, false, false, "Linux", "host", true⟩ _ ⟨"Linux", "box"⟩
      (Reachable.addDevice _ "box" "" "" "" false
        (Reachable.construct ⟨[], [], []⟩ 1 _ (by decide)))).imp
    (fun _ hr => ⟨hr.1, hr.2.2.2.2⟩)

/-- C19: in every state the registry can be in - the one the constructor leaves and every
state reached from it by `AddDevice` calls with any `isDefault` values (and by loads, saves
and changes of the store) - `GetDefaultDevice` returns the local device, which is the host's
device when the build is for a Linux host that is not AArch64 and does not exist otherwise;
and two `AddDevice` calls that differ only in `isDefault` return the same result and the same
state: device map, config store and published events. -/
theorem GetDefaultDevice_local (env : FEnvironment) (w : TLinuxTargetPlatform)
    (n f u p : FString) (h : Reachable env w) :
    GetDefaultDevice w = w.LocalDevice ∧
    w.LocalDevice
      = (if env.PLATFORM_LINUX = true ∧ env.IsAArch64 = false then
          some { DeviceName := env.ComputerName, Credentials := none }
        else none) ∧
    (∀ b : Bool, GetDefaultDevice (AddDevice env w n f u p b).2 = GetDefaultDevice w) ∧
    (∀ b1 b2 : Bool, AddDevice env w n f u p b1 = AddDevice env w n f u p b2) := by
  have hdef : ∀ x : TLinuxTargetPlatform, GetDefaultDevice x = x.LocalDevice := by
    intro x
    unfold GetDefaultDevice
    cases x.LocalDevice <;> rfl
  refine ⟨hdef w, Reachable_LocalDevice env w h, ?_, fun _ _ => rfl⟩
  intro b
  rw [hdef, hdef, (SameFrame_AddDevice env w n f u p b).2.1]

/-- Witness for C19: the registry constructed on the Linux host "host" from an empty store. -/
theorem GetDefaultDevice_local_witness :
    GetDefaultDevice
        (AddDevice ⟨true, false, false, "Linux", "host", true⟩
          ⟨false, some ⟨"host", none⟩, [], false, [], ⟨[], [], []⟩⟩
          "box" "" "" "" true).2
      = GetDefaultDevice ⟨false, some ⟨"host", none⟩, [], false, [], ⟨[], [], []⟩⟩ ∧
    AddDevice ⟨true, false, false, "Linux", "host", true⟩
        ⟨false, some ⟨"host", none⟩, [], false, [], ⟨[], [], []⟩⟩ "box" "" "" "" true
      = AddDevice ⟨true, false, false, "Linux", "host", true⟩
        ⟨false, some ⟨"host", none⟩, [], false, [], ⟨[], [], []⟩⟩ "box" "" "" "" false :=
  ⟨(GetDefaultDevice_local ⟨true, false, false, "Linux", "host", true⟩
      ⟨false, some ⟨"host", none⟩, [], false, [], ⟨[], [], []⟩⟩ "box" "" "" ""
      (Reachable.construct ⟨[], [], []⟩ 1 _ (by decide))).2.2.1 true,
   (GetDefaultDevice_local ⟨true, false, false, "Linux", "host", true⟩
      ⟨false, some ⟨"host", none⟩, [], false, [], ⟨[], [], []⟩⟩ "box" "" "" ""
      (Reachable.construct ⟨[], [], []⟩ 1 _ (by decide))).2.2.2 true false⟩

/-! ## The two texture contexts -/

theorem Contains_DXT_ne_BGRA8 (Name : FName) (h : FString.Contains Name "DXT" = true) :
    Name ≠ NameBGRA8 := by
  intro heq
  subst heq
  exact absurd h (by decide)

theorem StartsWith_BC_ne_BGRA8 (Name : FName) (h : FString.StartsWith Name "BC" = true) :
    Name ≠ NameBGRA8 := by
  intro heq
  subst heq
  exact absurd h (by decide)

theorem IsFallback_iff (f : FCookFlags) (Name : FName) :
    IsFallback Name (TableSubstitute f Name) = true ↔
      (FString.Contains Name "DXT" = true ∧ f.bCookDXTTextures = false ∧
        f.bCookETC2Textures = false) ∨
      (FString.Contains Name "DXT" = false ∧ FString.StartsWith Name "BC" = true ∧
        f.bCookBCTextures = false ∧ f.bCookETC2Textures = false) := by
  have h1 : NameETC2RGB ≠ NameBGRA8 := by decide
  have h2 : NameETC2RGBA ≠ NameBGRA8 := by decide
  have h3 : ("DXT1" : FName) ≠ NameBGRA8 := by decide
  unfold IsFallback TableSubstitute
  cases hc : FString.Contains Name "DXT" <;> cases hs : FString.StartsWith Name "BC" <;>
    cases hd : f.bCookDXTTextures <;> cases hb : f.bCookBCTextures <;>
    cases he : f.bCookETC2Textures <;> by_cases hn : Name = "DXT1" <;>
    simp [hn, h1, h2, h3, Contains_DXT_ne_BGRA8, StartsWith_BC_ne_BGRA8, hc, hs]

theorem TableFlat_eq_fallback (f : FCookFlags) (Name : FName) :
    TableFlat f Name
      = if IsFallback Name (TableSubstitute f Name) = true then none
        else some (TableSubstitute f Name) := by
  by_cases hfb : IsFallback Name (TableSubstitute f Name) = true
  · rw [if_pos hfb]
    rw [IsFallback_iff] at hfb
    unfold TableFlat
    rcases hfb with ⟨hc, hd, he⟩ | ⟨hc, hs, hb, he⟩
    · simp [hc, hd, he]
    · simp [hc, hs, hb, he]
  · rw [if_neg hfb]
    rw [IsFallback_iff] at hfb
    unfold TableFlat TableSubstitute
    cases hc : FString.Contains Name "DXT" <;> cases hs : FString.StartsWith Name "BC" <;>
      cases hd : f.bCookDXTTextures <;> cases hb : f.bCookBCTextures <;>
      cases he : f.bCookETC2Textures <;> simp [hc, hs, hd, hb, he] at hfb ⊢

theorem filterMap_TableFlat_eq (f : FCookFlags) :
    ∀ L : List FName,
      L.filterMap (TableFlat f)
        = ((L.zip (L.map (TableSubstitute f))).filter
            (fun q => !IsFallback q.1 q.2)).map Prod.snd := by
  intro L
  induction L with
  | nil => rfl
  | cons a L ih =>
    rw [List.filterMap_cons, TableFlat_eq_fallback, List.map_cons, List.zip_cons_cons,
      List.filter_cons]
    by_cases hfb : IsFallback a (TableSubstitute f a) = true
    · simp only [hfb, if_true, Bool.not_true, Bool.false_eq_true, if_false]
      exact ih
    · have hfb2 : IsFallback a (TableSubstitute f a) = false := by simpa using hfb
      simp only [hfb2, Bool.false_eq_true, if_false, Bool.not_false, if_true, List.map_cons]
      rw [ih]

/-- C20: on a target that is not server-only and for every default format list and every
setting of the three flags, the flat list `GetAllTextureFormats` returns is the layer
`GetTextureFormats` returns for the same names, with exactly those positions deleted at which
the per-texture context put the BGRA8 fallback - the positions whose returned name is BGRA8
while the given name is not, which are the positions of a disabled DXT or BC name with ETC2
off.  A position whose name was BGRA8 already is kept. -/
theorem flat_is_layer_without_fallback (env : FEnvironment) (cfg : FConfigCacheIni)
    (GetAllDefaultTextureFormats : List FName → List FName) (OutFormats : List FName)
    (h : env.IsServerOnly = false) :
    ∃ per, GetTextureFormats env cfg (GetAllDefaultTextureFormats OutFormats) [] = [per] ∧
      per.length = (GetAllDefaultTextureFormats OutFormats).length ∧
      GetAllTextureFormats env cfg GetAllDefaultTextureFormats OutFormats
        = (((GetAllDefaultTextureFormats OutFormats).zip per).filter
            (fun q => !IsFallback q.1 q.2)).map Prod.snd ∧
      (∀ q ∈ (GetAllDefaultTextureFormats OutFormats).zip per,
        (IsFallback q.1 q.2 = true ↔ q.2 = NameBGRA8 ∧ q.1 ≠ NameBGRA8) ∧
        (IsFallback q.1 q.2 = true ↔
          (FString.Contains q.1 "DXT" = true ∧ (ReadCookFlags cfg).bCookDXTTextures = false ∧
            (ReadCookFlags cfg).bCookETC2Textures = false) ∨
          (FString.Contains q.1 "DXT" = false ∧ FString.StartsWith q.1 "BC" = true ∧
            (ReadCookFlags cfg).bCookBCTextures = false ∧
            (ReadCookFlags cfg).bCookETC2Textures = false)) ∧
        (q.1 = NameBGRA8 → q.2 = NameBGRA8 ∧ IsFallback q.1 q.2 = false)) := by
  refine ⟨(GetAllDefaultTextureFormats OutFormats).map (TableSubstitute (ReadCookFlags cfg)),
    ?_, by simp, ?_, ?_⟩
  · unfold GetTextureFormats
    rw [if_pos h]
    simp [LayerLoop_full]
  · unfold GetAllTextureFormats
    rw [if_pos h]
    simp only
    rw [AllFormatsLoop_full, filterMap_TableFlat_eq]
  · intro q hq
    have hq2 : q.2 = TableSubstitute (ReadCookFlags cfg) q.1 := by
      rw [List.zip_map_right] at hq
      obtain ⟨⟨a, b⟩, hab, rfl⟩ := List.mem_map.1 hq
      have := List.of_mem_zip hab
      have hself : ∀ (l : List FName) (x y : FName), (x, y) ∈ l.zip l → x = y := by
        intro l
        induction l with
        | nil => intro x y hxy; simp at hxy
        | cons c l ihl =>
          intro x y hxy
          rw [List.zip_cons_cons, List.mem_cons] at hxy
          rcases hxy with hxy | hxy
          · cases hxy; rfl
          · exact ihl x y hxy
      have hab2 := hself _ a b hab
      subst hab2
      rfl
    refine ⟨?_, ?_, ?_⟩
    · unfold IsFallback
      simp
    · rw [hq2]
      exact IsFallback_iff _ _
    · intro hB
      have hkeep : TableSubstitute (ReadCookFlags cfg) NameBGRA8 = NameBGRA8 := by
        have hc : FString.Contains NameBGRA8 "DXT" = false := by decide
        have hs : FString.StartsWith NameBGRA8 "BC" = false := by decide
        simp [TableSubstitute, hc, hs]
      rw [hq2, hB, hkeep]
      exact ⟨rfl, by decide⟩

/-- Witness for C20: DXT off, BC on, ETC2 off, on the defaults DXT1, BGRA8, BC7, DXT5. -/
theorem flat_is_layer_without_fallback_witness :
    GetTextureFormats ⟨true, false, false, "Linux", "host", true⟩
        ⟨[], [("bCookDXTTextures", false)], []⟩ ["DXT1", "BGRA8", "BC7", "DXT5"] []
      = [["BGRA8", "BGRA8", "BC7", "BGRA8"]] ∧
    GetAllTextureFormats ⟨true, false, false, "Linux", "host", true⟩
        ⟨[], [("bCookDXTTextures", false)], []⟩
        (fun _ => ["DXT1", "BGRA8", "BC7", "DXT5"]) [] = ["BGRA8", "BC7"] ∧
    ∃ per, GetTextureFormats ⟨true, false, false, "Linux", "host", true⟩
        ⟨[], [("bCookDXTTextures", false)], []⟩ ["DXT1", "BGRA8", "BC7", "DXT5"] []
        = [per] ∧ per.length = 4 :=
  ⟨by decide, by decide,
   (flat_is_layer_without_fallback ⟨true, false, false, "Linux", "host", true⟩
      ⟨[], [("bCookDXTTextures", false)], []⟩
      (fun _ => ["DXT1", "BGRA8", "BC7", "DXT5"]) [] (by decide)).imp
    (fun _ hp => ⟨hp.1, hp.2.1⟩)⟩

/-! ## Substituting twice -/

theorem TableSubstitute_fixed_names (f : FCookFlags) :
    TableSubstitute f NameETC2RGB = NameETC2RGB ∧
    TableSubstitute f NameETC2RGBA = NameETC2RGBA ∧
    TableSubstitute f NameBGRA8 = NameBGRA8 := by
  have c1 : FString.Contains NameETC2RGB "DXT" = false := by decide
  have c2 : FString.Contains NameETC2RGBA "DXT" = false := by decide
  have c3 : FString.Contains NameBGRA8 "DXT" = false := by decide
  have s1 : FString.StartsWith NameETC2RGB "BC" = false := by decide
  have s2 : FString.StartsWith NameETC2RGBA "BC" = false := by decide
  have s3 : FString.StartsWith NameBGRA8 "BC" = false := by decide
  refine ⟨?_, ?_, ?_⟩ <;> simp [TableSubstitute, c1, c2, c3, s1, s2, s3]

theorem TableSubstitute_cases (f : FCookFlags) (Name : FName) :
    TableSubstitute f Name = Name ∨ TableSubstitute f Name = NameETC2RGB ∨
    TableSubstitute f Name = NameETC2RGBA ∨ TableSubstitute f Name = NameBGRA8 := by
  unfold TableSubstitute
  split_ifs <;> simp

theorem TableSubstitute_idem (f : FCookFlags) (Name : FName) :
    TableSubstitute f (TableSubstitute f Name) = TableSubstitute f Name := by
  obtain ⟨h1, h2, h3⟩ := TableSubstitute_fixed_names f
  rcases TableSubstitute_cases f Name with h | h | h | h
  · rw [h]; exact h
  · rw [h]; exact h1
  · rw [h]; exact h2
  · rw [h]; exact h3

theorem TableSubstitute_no_DXT (f : FCookFlags) (Name : FName)
    (hd : f.bCookDXTTextures = false) :
    FString.Contains (TableSubstitute f Name) "DXT" = false := by
  have c1 : FString.Contains NameETC2RGB "DXT" = false := by decide
  have c2 : FString.Contains NameETC2RGBA "DXT" = false := by decide
  have c3 : FString.Contains NameBGRA8 "DXT" = false := by decide
  unfold TableSubstitute
  split_ifs <;> simp_all

theorem TableFlat_some (f : FCookFlags) (Name New : FName) (h : TableFlat f Name = some New) :
    New = TableSubstitute f Name ∧ TableFlat f New = some New := by
  rw [TableFlat_eq_fallback] at h
  by_cases hfb : IsFallback Name (TableSubstitute f Name) = true
  · rw [if_pos hfb] at h; cases h
  · rw [if_neg hfb] at h
    simp only [Option.some.injEq] at h
    subst h
    refine ⟨rfl, ?_⟩
    rw [TableFlat_eq_fallback, TableSubstitute_idem]
    have hself : IsFallback (TableSubstitute f Name) (TableSubstitute f Name) = false := by
      unfold IsFallback
      cases hB : (TableSubstitute f Name == NameBGRA8) <;> simp [bne, hB]
    rw [hself]
    simp

theorem filterMap_fixed (g : FName → Option FName) :
    ∀ L : List FName, (∀ x ∈ L, g x = some x) → L.filterMap g = L := by
  intro L
  induction L with
  | nil => intro _; rfl
  | cons a L ih =>
    intro h
    rw [List.filterMap_cons, h a (List.mem_cons_self _ _)]
    simp only
    rw [ih (fun x hx => h x (List.mem_cons_of_mem _ hx))]

theorem GetTextureFormats_eq_map (env : FEnvironment) (cfg : FConfigCacheIni)
    (DefaultLayer : List FName) (OutFormats : List (List FName))
    (h : env.IsServerOnly = false) :
    GetTextureFormats env cfg DefaultLayer OutFormats
      = (OutFormats ++ [DefaultLayer]).map (List.map (TableSubstitute (ReadCookFlags cfg))) := by
  unfold GetTextureFormats
  rw [if_pos h]
  apply List.map_congr_left
  intro L _
  exact LayerLoop_full _ L

theorem GetAllTextureFormats_eq_filterMap (env : FEnvironment) (cfg : FConfigCacheIni)
    (G : List FName → List FName) (OutFormats : List FName) (h : env.IsServerOnly = false) :
    GetAllTextureFormats env cfg G OutFormats
      = (G OutFormats).filterMap (TableFlat (ReadCookFlags cfg)) := by
  unfold GetAllTextureFormats
  rw [if_pos h]
  exact AllFormatsLoop_full _ _

/-- C21: on a target that is not server-only, for every format list and every fixed setting
of the flags, the substitution applied to its own output changes nothing, in both contexts:
the per-texture loop run again on each returned layer returns that layer, and so does
`GetTextureFormats` called again with the returned layers; the flat loop run again on the
returned list returns that list, and so does `GetAllTextureFormats` when the resolver hands
it that list.  When DXT cooking is off, no name in the output of either context contains
"DXT". -/
theorem texture_substitution_idempotent (env : FEnvironment) (cfg : FConfigCacheIni)
    (DefaultLayer : List FName) (OutLayers : List (List FName))
    (GetAllDefaultTextureFormats : List FName → List FName) (OutFormats : List FName)
    (h : env.IsServerOnly = false) :
    (GetTextureFormats env cfg DefaultLayer OutLayers).map
        (fun L => LayerLoop (ReadCookFlags cfg) L.length L)
      = GetTextureFormats env cfg DefaultLayer OutLayers ∧
    (∀ init last, GetTextureFormats env cfg DefaultLayer OutLayers = init ++ [last] →
      GetTextureFormats env cfg last init = init ++ [last]) ∧
    AllFormatsLoop (ReadCookFlags cfg)
        (GetAllTextureFormats env cfg GetAllDefaultTextureFormats OutFormats).length
        (GetAllTextureFormats env cfg GetAllDefaultTextureFormats OutFormats)
      = GetAllTextureFormats env cfg GetAllDefaultTextureFormats OutFormats ∧
    GetAllTextureFormats env cfg
        (fun _ => GetAllTextureFormats env cfg GetAllDefaultTextureFormats OutFormats)
        OutFormats
      = GetAllTextureFormats env cfg GetAllDefaultTextureFormats OutFormats ∧
    ((ReadCookFlags cfg).bCookDXTTextures = false →
      (∀ L ∈ GetTextureFormats env cfg DefaultLayer OutLayers, ∀ Name ∈ L,
        FString.Contains Name "DXT" = false) ∧
      (∀ Name ∈ GetAllTextureFormats env cfg GetAllDefaultTextureFormats OutFormats,
        FString.Contains Name "DXT" = false)) := by
  have hidem : ∀ R : List (List FName),
      (R.map (List.map (TableSubstitute (ReadCookFlags cfg)))).map
          (List.map (TableSubstitute (ReadCookFlags cfg)))
        = R.map (List.map (TableSubstitute (ReadCookFlags cfg))) := by
    intro R
    rw [List.map_map]
    apply List.map_congr_left
    intro L _
    simp only [Function.comp_apply, List.map_map]
    apply List.map_congr_left
    intro Name _
    exact TableSubstitute_idem _ Name
  have hflatfix : ∀ x ∈ GetAllTextureFormats env cfg GetAllDefaultTextureFormats OutFormats,
      TableFlat (ReadCookFlags cfg) x = some x := by
    intro x hx
    rw [GetAllTextureFormats_eq_filterMap env cfg _ _ h, List.mem_filterMap] at hx
    obtain ⟨Name, _, hName⟩ := hx
    exact (TableFlat_some _ Name x hName).2
  refine ⟨?_, ?_, ?_, ?_, ?_⟩
  · rw [GetTextureFormats_eq_map env cfg _ _ h]
    have hloop : (fun L : List FName => LayerLoop (ReadCookFlags cfg) L.length L)
        = List.map (TableSubstitute (ReadCookFlags cfg)) := by
      funext L
      exact LayerLoop_full _ L
    rw [hloop]
    exact hidem _
  · intro init last hsplit
    rw [GetTextureFormats_eq_map env cfg last init h, ← hsplit,
      GetTextureFormats_eq_map env cfg _ _ h]
    exact hidem _
  · rw [AllFormatsLoop_full]
    exact filterMap_fixed _ _ hflatfix
  · rw [GetAllTextureFormats_eq_filterMap env cfg
      (fun _ => GetAllTextureFormats env cfg GetAllDefaultTextureFormats OutFormats) _ h]
    exact filterMap_fixed _ _ hflatfix
  · intro hd
    constructor
    · intro L hL Name hName
      rw [GetTextureFormats_eq_map env cfg _ _ h, List.mem_map] at hL
      obtain ⟨L0, _, rfl⟩ := hL
      rw [List.mem_map] at hName
      obtain ⟨Name0, _, rfl⟩ := hName
      exact TableSubstitute_no_DXT _ Name0 hd
    · intro Name hName
      rw [GetAllTextureFormats_eq_filterMap env cfg _ _ h, List.mem_filterMap] at hName
      obtain ⟨Name0, _, hName0⟩ := hName
      rw [(TableFlat_some _ Name0 Name hName0).1]
      exact TableSubstitute_no_DXT _ Name0 hd

/-- Witness for C21: DXT and BC off, ETC2 on; the output of each context is substituted
again. -/
theorem texture_substitution_idempotent_witness :
    GetTextureFormats ⟨true, false, false, "Linux", "host", true⟩
        ⟨[], [("bCookDXTTextures", false), ("bCookBCTextures", false),
          ("bCookETC2Textures", true)], []⟩ ["DXT1", "AutoDXT", "BC7", "G8"] []
      = [["ETC2_RGB", "ETC2_RGBA", "ETC2_RGB", "G8"]] ∧
    GetTextureFormats ⟨true, false, false, "Linux", "host", true⟩
        ⟨[], [("bCookDXTTextures", false), ("bCookBCTextures", false),
          ("bCookETC2Textures", true)], []⟩ ["ETC2_RGB", "ETC2_RGBA", "ETC2_RGB", "G8"] []
      = [] ++ [["ETC2_RGB", "ETC2_RGBA", "ETC2_RGB", "G8"]] :=
  ⟨by decide,
   (texture_substitution_idempotent ⟨true, false, false, "Linux", "host", true⟩
      ⟨[], [("bCookDXTTextures", false), ("bCookBCTextures", false),
        ("bCookETC2Textures", true)], []⟩ ["DXT1", "AutoDXT", "BC7", "G8"] []
      (fun Out => Out) [] (by decide)).2.1 [] ["ETC2_RGB", "ETC2_RGBA", "ETC2_RGB", "G8"]
      (by decide)⟩

/-! ## The encoded-HDR flag at construction -/

theorem mem_GetAllTargetedShaderFormats (env : FEnvironment) (cfg : FConfigCacheIni)
    (x : FName) :
    x ∈ GetAllTargetedShaderFormats env cfg [] ↔
      x ∈ GetArray cfg "TargetedRHIs" ∧ x ∈ GetAllPossibleShaderFormats env [] := by
  obtain ⟨S, hS, _, _, hmem, _⟩ :=
    foldl_AddUnique_spec (fun y => (GetAllPossibleShaderFormats env []).contains y)
      (GetArray cfg "TargetedRHIs") []
  have hres : GetAllTargetedShaderFormats env cfg [] = S := by
    unfold GetAllTargetedShaderFormats
    simp only
    rw [TargetedFilterLoop_eq _ _ _ (le_refl _), List.take_length, List.drop_length,
      List.append_nil, hS, List.nil_append]
  rw [hres, hmem x]
  simp

theorem mem_GetAllPossibleShaderFormats (env : FEnvironment) (x : FName) :
    x ∈ GetAllPossibleShaderFormats env [] ↔
      env.IsServerOnly = false ∧ (x = "SF_VULKAN_SM5" ∨ x = "SF_VULKAN_ES31") := by
  unfold GetAllPossibleShaderFormats
  cases hs : env.IsServerOnly
  · have hp : AddUnique (AddUnique [] "SF_VULKAN_SM5") "SF_VULKAN_ES31"
        = ["SF_VULKAN_SM5", "SF_VULKAN_ES31"] := by decide
    simp [hp]
  · simp

/-- C22: in the object the constructor returns, the encoded-HDR flag is true if and only if
the target is not server-only and the `TargetedRHIs` array of the store contains
"SF_VULKAN_ES31".  The second disjunct of line 80 never holds: `GetAllTargetedShaderFormats`
returns only names of the possible set, which are "SF_VULKAN_SM5" and "SF_VULKAN_ES31", so
"GLSL_150_ES31" is never among them, whatever the store targets. -/
theorem encoded_HDR_flag_iff (env : FEnvironment) (cfg : FConfigCacheIni) (fuel : Nat)
    (w : TLinuxTargetPlatform) (h : Construct env cfg fuel = some w) :
    (w.bRequiresEncodedHDRReflectionCaptures = true ↔
      env.IsServerOnly = false ∧ "SF_VULKAN_ES31" ∈ GetArray cfg "TargetedRHIs") ∧
    "GLSL_150_ES31" ∉ GetAllTargetedShaderFormats env cfg [] ∧
    (∀ x ∈ GetAllTargetedShaderFormats env cfg [],
      x ∈ GetAllPossibleShaderFormats env [] ∧
      (x = "SF_VULKAN_SM5" ∨ x = "SF_VULKAN_ES31")) := by
  have hglsl : "GLSL_150_ES31" ∉ GetAllTargetedShaderFormats env cfg [] := by
    intro hin
    have hposs := ((mem_GetAllTargetedShaderFormats env cfg _).1 hin).2
    rcases ((mem_GetAllPossibleShaderFormats env _).1 hposs).2 with hx | hx
    · exact absurd hx (by decide)
    · exact absurd hx (by decide)
  refine ⟨?_, hglsl, ?_⟩
  · obtain ⟨w0, hinit, hw⟩ := Construct_some env cfg fuel w h
    have hcfg : w0.GConfig = cfg := (InitDevicesFromConfig_frame env fuel _ w0 hinit).1
    have hcont : ∀ (l : List FName) (x : FName), l.contains x = true ↔ x ∈ l := by
      intro l x
      simp
    rw [hw, hcfg]
    simp only [Bool.or_eq_true, hcont]
    constructor
    · rintro (hes | hgl)
      · have hm := (mem_GetAllTargetedShaderFormats env cfg _).1 hes
        exact ⟨((mem_GetAllPossibleShaderFormats env _).1 hm.2).1, hm.1⟩
      · exact absurd hgl hglsl
    · rintro ⟨hs, hreq⟩
      left
      exact (mem_GetAllTargetedShaderFormats env cfg _).2
        ⟨hreq, (mem_GetAllPossibleShaderFormats env _).2 ⟨hs, Or.inr rfl⟩⟩
  · intro x hx
    have hposs := ((mem_GetAllTargetedShaderFormats env cfg x).1 hx).2
    exact ⟨hposs, ((mem_GetAllPossibleShaderFormats env x).1 hposs).2⟩

/-- Witness for C22: a store that targets "GLSL_150_ES31" and "SF_VULKAN_SM5" only; the flag
stays clear. -/
theorem encoded_HDR_flag_iff_witness :
    (Construct ⟨true, false, false, "Linux", "host", true⟩
        ⟨[], [], [("TargetedRHIs", ["GLSL_150_ES31", "SF_VULKAN_SM5"])]⟩ 1).map
      (fun w => w.bRequiresEncodedHDRReflectionCaptures) = some false ∧
    "GLSL_150_ES31" ∉ GetAllTargetedShaderFormats ⟨true, false, false, "Linux", "host", true⟩
        ⟨[], [], [("TargetedRHIs", ["GLSL_150_ES31", "SF_VULKAN_SM5"])]⟩ [] :=
  ⟨by decide,
   (encoded_HDR_flag_iff ⟨true, false, false, "Linux", "host", true⟩
      ⟨[], [], [("TargetedRHIs", ["GLSL_150_ES31", "SF_VULKAN_SM5"])]⟩ 1
      ⟨false, some ⟨"host", none⟩, [], false, [],
        ⟨[], [], [("TargetedRHIs", ["GLSL_150_ES31", "SF_VULKAN_SM5"])]⟩⟩ (by decide)).2.1⟩

/-! ## The device map never holds an empty slot -/

theorem Lookup_mem {β : Type} (l : List (FString × β)) (k : FString) (v : β)
    (h : Lookup l k = some v) : (k, v) ∈ l := by
  induction l with
  | nil => simp [Lookup] at h
  | cons e l ih =>
    obtain ⟨k1, v1⟩ := e
    by_cases hk : k1 = k
    · simp only [Lookup, if_pos hk, Option.some.injEq] at h
      subst hk; subst h
      exact List.mem_cons_self _ _
    · simp only [Lookup, if_neg hk] at h
      exact List.mem_cons_of_mem _ (ih h)

theorem AddDevice_key_present (env : FEnvironment) (w : TLinuxTargetPlatform)
    (n f u p : FString) (b : Bool) (hm : ValidMap w.Devices) :
    n ∈ (AddDevice env w n f u p b).2.Devices.map Prod.fst := by
  cases hl : Lookup w.Devices n with
  | none =>
    rcases Bool.eq_false_or_eq_true w.bChangingDeviceConfig with hflag | hflag
    · rw [AddDevice_new_guarded env w n f u p b hl hflag]
      simp
    · rw [AddDevice_new_clear env w n f u p b hl hflag]
      simp
  | some ptr =>
    have hin : n ∈ w.Devices.map Prod.fst := Lookup_ne_none_mem _ _ (by rw [hl]; simp)
    obtain ⟨d, hd⟩ := ValidMap_Lookup w.Devices hm n hin
    rw [AddDevice_duplicate_lemma env w n f u p b d hd]
    exact hin

/-- C23: in every state reachable from construction through `AddDevice`,
`InitDevicesFromConfig` and `SaveDevicesToConfig` (and changes of the store), every entry of
the device map holds a valid device whose name is its map key, and the keys are pairwise
different.  `AddDevice` leaves no empty slot behind, whether it returns `true` or `false`:
afterwards the slot of the name it was given holds a valid device of that name, and so does
every other slot.  So the dereference of each entry in `GetDevice` never meets a null pointer:
`GetDevice` has a result for every id. -/
theorem device_map_valid (env : FEnvironment) (w : TLinuxTargetPlatform)
    (n f u p : FString) (b : Bool) (DeviceId : FTargetDeviceId) (h : Reachable env w) :
    (∀ e ∈ w.Devices, ∃ d : FLinuxTargetDevice, e.2 = some d ∧ d.DeviceName = e.1) ∧
    (w.Devices.map Prod.fst).Nodup ∧
    (∀ e ∈ (AddDevice env w n f u p b).2.Devices,
      ∃ d : FLinuxTargetDevice, e.2 = some d ∧ d.DeviceName = e.1) ∧
    (∃ d : FLinuxTargetDevice,
      Lookup (AddDevice env w n f u p b).2.Devices n = some (some d) ∧ d.DeviceName = n) ∧
    (∃ r, GetDevice env w DeviceId = some r) ∧
    (∃ r, GetDevice env (AddDevice env w n f u p b).2 DeviceId = some r) := by
  have hm := Reachable_ValidMap env w h
  have hm2 := AddDevice_ValidMap env w n f u p b hm
  have hget : ∀ x : TLinuxTargetPlatform, ValidMap x.Devices →
      ∃ r, GetDevice env x DeviceId = some r := by
    intro x hx
    have hvalid : ∀ e ∈ x.Devices, e.2 ≠ none := by
      intro e he hnone
      obtain ⟨d, hd, _⟩ := hx.2 e he
      rw [hnone] at hd
      cases hd
    obtain ⟨r, hr, _⟩ := GetDeviceLoop_spec env DeviceId x.Devices hvalid
    unfold GetDevice
    cases x.LocalDevice with
    | none => exact ⟨r, hr⟩
    | some l =>
      by_cases hid : DeviceId = GetId env l
      · exact ⟨some l, by simp [hid]⟩
      · exact ⟨r, by simp [hid, hr]⟩
  refine ⟨hm.2, hm.1, hm2.2, ?_, hget w hm, hget _ hm2⟩
  obtain ⟨d, hd⟩ := ValidMap_Lookup _ hm2 n (AddDevice_key_present env w n f u p b hm)
  refine ⟨d, hd, ?_⟩
  obtain ⟨d1, hd1, hname⟩ := hm2.2 _ (Lookup_mem _ n (some d) hd)
  simp only [Option.some.injEq] at hd1
  subst hd1
  exact hname

/-- Witness for C23: the registry constructed on the Linux host "host" from a store with one
device, after a rejected and an accepted `AddDevice`. -/
theorem device_map_valid_witness :
    (AddDevice ⟨true, false, false, "Linux", "host", true⟩
        ⟨false, some ⟨"host", none⟩, [("a", some ⟨"a", none⟩)], false, [⟨"a", none⟩],
          ⟨[("LinuxTargetPlatfrom_Linux_Device_0_Name", "a")], [], []⟩⟩
        "a" "" "" "" false).2.Devices = [("a", some ⟨"a", none⟩)] ∧
    ∀ e ∈ (AddDevice ⟨true, false, false, "Linux", "host", true⟩
        ⟨false, some ⟨"host", none⟩, [("a", some ⟨"a", none⟩)], false, [⟨"a", none⟩],
          ⟨[("LinuxTargetPlatfrom_Linux_Device_0_Name", "a")], [], []⟩⟩
        "b" "" "" "" false).2.Devices,
      ∃ d : FLinuxTargetDevice, e.2 = some d ∧ d.DeviceName = e.1 :=
  ⟨by decide,
   (device_map_valid ⟨true, false, false, "Linux", "host", true⟩
      ⟨false, some ⟨"host", none⟩, [("a", some ⟨"a", none⟩)], false, [⟨"a", none⟩],
        ⟨[("LinuxTargetPlatfrom_Linux_Device_0_Name", "a")], [], []⟩⟩
      "b" "" "" "" false ⟨"Linux", "a"⟩
      (Reachable.construct ⟨[("LinuxTargetPlatfrom_Linux_Device_0_Name", "a")], [], []⟩ 2 _
        (by decide))).2.2.1⟩

end LinuxTargetPlatform
